import Mathlib

/-!
# CurveFS client and metaserver storage: a shallow embedding

The definitions below transcribe functions of

* `curvefs/src/client/fuse_client.cpp` (`FuseClient`),
* `curvefs/src/client/fuse_s3_client.cpp` (`FuseS3Client`),
* `curvefs/src/metaserver/storage/rocksdb_storage.cpp` (`RocksDBStorage`),
* `curvefs/src/metaserver/storage/utils.cpp` (`Counter`, binary numbers).

Stateful code is written in explicit state-passing style.  Collaborators whose
code lives elsewhere (the rename operator, the dentry and inode managers, the
S3 adaptor, the xattr manager, the clock) are answered by an oracle that sees
the whole log of collaborator invocations made so far, so a collaborator may
answer differently from one invocation to the next.
-/

namespace curvefs
namespace client

/-- Error codes returned by the FUSE operations (the ones the sources use). -/
inductive CURVEFS_ERROR where
  | OK
  | INTERNAL
  | UNKNOWN
  | EXISTS
  | NOTEXIST
  | INVALIDPARAM
  | NOPERMISSION
  | NOTEMPTY
  | NAMETOOLONG
  | MOUNT_POINT_EXIST
  | MOUNT_FAILED
  | OUT_OF_RANGE
  | NODATA
  | IO_ERROR
  deriving DecidableEq, Repr

/-- The member functions of `RenameOperator` that `FuseOpRename` invokes. -/
inductive RenameStep where
  | GetTxId
  | Precheck
  | RecordOldInodeInfo
  | LinkDestParentInode
  | PrepareTx
  | CommitTx
  | UnlinkSrcParentInode
  | UnlinkOldInode
  | UpdateInodeParent
  | UpdateCache
  deriving DecidableEq, Repr

/-- Length of a C string in bytes (`strlen`). -/
def strlen (s : String) : Nat := s.utf8ByteSize

/-- Names of the summary xattrs (`XATTRFILES` and the like); the header that
defines them is not among the sources, the values are the ones the
specification and the tests use. -/
def XATTRFILES : String := "curve.dir.files"

/-- Name of the sub-directory counter. -/
def XATTRSUBDIRS : String := "curve.dir.subdirs"

/-- Name of the entry counter. -/
def XATTRENTRIES : String := "curve.dir.entries"

/-- Name of the byte counter. -/
def XATTRFBYTES : String := "curve.dir.fbytes"

/-- Transcribes `DirectIOAlignment` of `fuse_client.h`. -/
def DirectIOAlignment : Nat := 512

/-- Open flags of Linux on x86-64 (`fcntl.h`). -/
def O_WRONLY : Nat := 0o1

/-- Open for reading and writing. -/
def O_RDWR : Nat := 0o2

/-- Truncate on open. -/
def O_TRUNC : Nat := 0o1000

/-- Direct I/O. -/
def O_DIRECT : Nat := 0o40000

/-- File type bits of a directory (`sys/stat.h`). -/
def S_IFDIR : Nat := 0o040000

/-- File type bits of a symbolic link. -/
def S_IFLNK : Nat := 0o120000

/-- Value of `DentryFlag::TYPE_FILE_FLAG` in `metaserver.proto`, which is not among the
sources. -/
def TYPE_FILE_FLAG : Nat := 1

/-- Models `is_aligned` of `fast_align.h`, which is not among the sources, for an
alignment that is a power of two: no remainder on division by the alignment. -/
def is_aligned (n alignment : Nat) : Bool := n % alignment == 0

/-- Models `std::to_string` of an unsigned number: its decimal digits. -/
def to_string (n : Nat) : String := toString n

/-- Seconds and nanoseconds, as filled in by `clock_gettime`. -/
structure Timespec where
  tv_sec : Nat
  tv_nsec : Nat
  deriving DecidableEq, Repr

/-- File types of an inode (`FsFileType`). -/
inductive FsFileType where
  | TYPE_DIRECTORY
  | TYPE_FILE
  | TYPE_SYM_LINK
  | TYPE_S3
  deriving DecidableEq, Repr

/-- The fields of the `Inode` record that the client code reads or writes. -/
structure Inode where
  inodeid : Nat
  fsid : Nat
  length : Nat
  ctime : Nat
  ctime_ns : Nat
  mtime : Nat
  mtime_ns : Nat
  atime : Nat
  atime_ns : Nat
  uid : Nat
  gid : Nat
  mode : Nat
  nlink : Nat
  type : FsFileType
  symlink : String
  rdev : Nat
  parent : List Nat
  xattr : List (String × String)
  openmpcount : Nat
  deriving DecidableEq, Repr

/-- The summary-xattr message: a map from attribute name to decimal value, kept
in insertion order. -/
structure XAttr where
  xattrinfos : List (String × String)
  deriving DecidableEq, Repr

/-- A directory entry as built by the client (`flag` is an optional field). -/
structure Dentry where
  fsid : Nat
  inodeid : Nat
  parentinodeid : Nat
  name : String
  txid : Nat
  flag : Option Nat
  type : Option FsFileType
  deriving DecidableEq, Repr

/-- Parameters of `InodeCacheManager::CreateInode`. -/
structure InodeParam where
  fsId : Nat
  length : Nat
  uid : Nat
  gid : Nat
  mode : Nat
  type : FsFileType
  rdev : Nat
  symlink : String
  parent : Nat
  deriving DecidableEq, Repr

/-- Credentials of the calling process (`fuse_req_ctx(req)`). -/
structure fuse_ctx where
  uid : Nat
  gid : Nat
  deriving DecidableEq, Repr

/-- The reply of an entry-creating operation.  `attr` is the inode from which
`InodeWrapper::GetInodeAttrLocked` fills the `struct stat`. -/
structure fuse_entry_param where
  ino : Nat
  generation : Nat
  attr : Inode
  attr_timeout : Nat
  entry_timeout : Nat
  deriving DecidableEq, Repr

/-- The open-file record handed over by FUSE. -/
structure fuse_file_info where
  flags : Nat
  fh : Nat
  deriving DecidableEq, Repr

/-- The options of `FuseClientOption` that the modelled operations read. -/
structure FuseClientOption where
  maxNameLength : Nat
  listDentryLimit : Nat
  attrTimeOut : Nat
  entryTimeOut : Nat
  deriving DecidableEq, Repr

/-- Names of the recursive summary xattrs (`XATTRRFILES` and the like) and the
prefix they share with the one-layer names; the header that defines them is
not among the sources, the values are the ones the specification uses. -/
def XATTRRFILES : String := "curve.dir.rfiles"

/-- Name of the recursive sub-directory counter. -/
def XATTRRSUBDIRS : String := "curve.dir.rsubdirs"

/-- Name of the recursive entry counter. -/
def XATTRRENTRIES : String := "curve.dir.rentries"

/-- Name of the recursive byte counter. -/
def XATTRRFBYTES : String := "curve.dir.rfbytes"

/-- Prefix of every summary xattr name. -/
def SUMMARYPREFIX : String := "curve.dir"

/-- Bits of `to_set` (`fuse_lowlevel.h`). -/
def FUSE_SET_ATTR_MODE : Nat := 1 <<< 0

/-- Owner bit of `to_set`. -/
def FUSE_SET_ATTR_UID : Nat := 1 <<< 1

/-- Group bit of `to_set`. -/
def FUSE_SET_ATTR_GID : Nat := 1 <<< 2

/-- Size bit of `to_set`. -/
def FUSE_SET_ATTR_SIZE : Nat := 1 <<< 3

/-- Access-time bit of `to_set`. -/
def FUSE_SET_ATTR_ATIME : Nat := 1 <<< 4

/-- Modification-time bit of `to_set`. -/
def FUSE_SET_ATTR_MTIME : Nat := 1 <<< 5

/-- Access time is the current time. -/
def FUSE_SET_ATTR_ATIME_NOW : Nat := 1 <<< 7

/-- Modification time is the current time. -/
def FUSE_SET_ATTR_MTIME_NOW : Nat := 1 <<< 8

/-- Change-time bit of `to_set`. -/
def FUSE_SET_ATTR_CTIME : Nat := 1 <<< 10

/-- The fields of `struct stat` that `FuseOpSetAttr` reads. -/
structure stat where
  st_mode : Nat
  st_uid : Nat
  st_gid : Nat
  st_size : Nat
  st_atim : Timespec
  st_mtim : Timespec
  st_ctim : Timespec
  deriving DecidableEq, Repr

/-- Conversion of a 64-bit pattern to `int64_t`. -/
def int64_t (n : Nat) : Int :=
  if n % 2 ^ 64 < 2 ^ 63 then ((n % 2 ^ 64 : Nat) : Int) else ((n % 2 ^ 64 : Nat) : Int) - 2 ^ 64

/-- The bytes of a C string, the terminating NUL included. -/
def c_str (s : String) : List Nat :=
  s.toUTF8.data.toList.map (fun b => b.toNat) ++ [0]

/-- Transcribes `IsSummaryInfo`: `strstr(name, SUMMARYPREFIX)` finds the prefix
somewhere in the name. -/
def IsSummaryInfo (name : String) : Bool :=
  decide (SUMMARYPREFIX.toList <:+: name.toList)

/-- Transcribes `IsOneLayer`. -/
def IsOneLayer (name : String) : Bool :=
  if name = XATTRFILES ∨ name = XATTRSUBDIRS ∨ name = XATTRENTRIES ∨ name = XATTRFBYTES then
    true
  else false

/-- One invocation of a collaborator together with the answer it gave.  The
client keeps the invocations in the order in which they were made. -/
inductive Call where
  | rename (step : RenameStep) (rc : CURVEFS_ERROR)
  | UpdateParentXattrAfterRename (parent newparent : Nat) (newname : String)
  | UpdateParentInodeXattr (parent : Nat) (xattr : XAttr) (direction : Bool)
      (rc : CURVEFS_ERROR)
  | GetDentry (parent : Nat) (name : String) (rc : CURVEFS_ERROR)
  | ListDentry (parent : Nat) (limit : Nat) (rc : CURVEFS_ERROR)
  | CreateDentry (dentry : Dentry) (rc : CURVEFS_ERROR)
  | DeleteDentry (parent : Nat) (name : String) (rc : CURVEFS_ERROR)
  | CreateInode (param : InodeParam) (rc : CURVEFS_ERROR)
  | GetInode (ino : Nat) (rc : CURVEFS_ERROR)
  | DeleteInode (ino : Nat) (rc : CURVEFS_ERROR)
  | ClearInodeCache (ino : Nat)
  | ShipToFlush (ino : Nat)
  | IncreaseNLink (ino : Nat) (rc : CURVEFS_ERROR)
  | DecreaseNLink (ino : Nat) (rc : CURVEFS_ERROR)
  | LinkLocked (ino parent : Nat) (rc : CURVEFS_ERROR)
  | UnLinkLocked (ino parent : Nat) (rc : CURVEFS_ERROR)
  | Open (ino : Nat) (rc : CURVEFS_ERROR)
  | Sync (ino : Nat) (rc : CURVEFS_ERROR)
  | SyncAttr (ino : Nat) (rc : CURVEFS_ERROR)
  | Truncate (ino length : Nat) (rc : CURVEFS_ERROR)
  | CalOneLayerSumInfo (ino : Nat) (rc : CURVEFS_ERROR)
  | CalAllLayerSumInfo (ino : Nat) (rc : CURVEFS_ERROR)
  | FastCalOneLayerSumInfo (ino : Nat) (rc : CURVEFS_ERROR)
  | FastCalAllLayerSumInfo (ino : Nat) (rc : CURVEFS_ERROR)
  | s3Write (ino off size : Nat) (buf : List Nat) (ret : Int)
  | s3Read (ino off len : Nat) (ret : Int)
  | s3Flush (ino : Nat) (rc : CURVEFS_ERROR)
  | s3FlushAllCache (ino : Nat) (rc : CURVEFS_ERROR)
  deriving DecidableEq, Repr

/-- The inode wrappers held by the inode manager, one per inode id. -/
abbrev InodeTable := Nat → Inode

/-- Answers of the collaborators.  Every answer may depend on the invocations
made so far.  A method of `InodeWrapper` acts on the one inode it is called on
and hands back that inode; `UpdateParentInodeXattr` hands back the extended
attributes of the parent it is called on; a step of the rename operator may
touch any inode.  The four summary calculations of the xattr manager work on
a copy of the inode and hand back that copy; `GetXattrUnLocked` is the getter
of `InodeWrapper` that fills in the value kept under a name and leaves the
value empty when there is none. -/
structure Collaborators where
  renameOp : List Call → InodeTable → Nat → String → Nat → String → RenameStep →
    CURVEFS_ERROR × InodeTable
  UpdateParentXattrAfterRename : List Call → InodeTable → Nat → Nat → String → InodeTable
  UpdateParentInodeXattr : List Call → Inode → XAttr → Bool →
    CURVEFS_ERROR × List (String × String)
  GetDentry : List Call → Nat → String → CURVEFS_ERROR × Dentry
  ListDentry : List Call → Nat → Nat → CURVEFS_ERROR × List Dentry
  CreateDentry : List Call → Dentry → CURVEFS_ERROR
  DeleteDentry : List Call → Nat → String → CURVEFS_ERROR
  CreateInode : List Call → InodeParam → CURVEFS_ERROR × Inode
  GetInode : List Call → Nat → CURVEFS_ERROR
  DeleteInode : List Call → Nat → CURVEFS_ERROR
  IncreaseNLink : List Call → Inode → CURVEFS_ERROR × Inode
  DecreaseNLink : List Call → Inode → CURVEFS_ERROR × Inode
  LinkLocked : List Call → Inode → Nat → CURVEFS_ERROR × Inode
  UnLinkLocked : List Call → Inode → Nat → CURVEFS_ERROR × Inode
  Open : List Call → Inode → CURVEFS_ERROR × Inode
  Sync : List Call → Inode → CURVEFS_ERROR × Inode
  SyncAttr : List Call → Inode → CURVEFS_ERROR × Inode
  Truncate : List Call → Inode → Nat → CURVEFS_ERROR × Inode
  GetXattrUnLocked : Inode → String → String
  CalOneLayerSumInfo : List Call → Inode → CURVEFS_ERROR × Inode
  CalAllLayerSumInfo : List Call → Inode → CURVEFS_ERROR × Inode
  FastCalOneLayerSumInfo : List Call → Inode → CURVEFS_ERROR × Inode
  FastCalAllLayerSumInfo : List Call → Inode → CURVEFS_ERROR × Inode
  s3Write : List Call → Nat → Nat → Nat → List Nat → Int
  s3Read : List Call → Nat → Nat → Nat → Int × List Nat
  s3Flush : List Call → Nat → CURVEFS_ERROR
  s3FlushAllCache : List Call → Nat → CURVEFS_ERROR
  clock_gettime : List Call → Timespec

/-- The state of a `FuseClient` (and of its subclass `FuseS3Client`) as far as
the modelled operations go. -/
structure FuseClient where
  option_ : FuseClientOption
  enableSumInDir_ : Bool
  FLAGS_enableCto : Bool
  fsid : Nat
  fsname : String
  env : Collaborators
  inodes : InodeTable
  trace : List Call

namespace FuseClient

/-- Record one collaborator invocation. -/
def log (c : FuseClient) (e : Call) : FuseClient :=
  { c with trace := c.trace ++ [e] }

/-- Replace the wrapper of inode `ino`. -/
def setInode (c : FuseClient) (ino : Nat) (i : Inode) : FuseClient :=
  { c with inodes := Function.update c.inodes ino i }

/-- Call `renameOp.action()` for the rename operator built from the arguments of
`FuseOpRename`. -/
def renameOp (c : FuseClient) (parent : Nat) (name : String) (newparent : Nat)
    (newname : String) (action : RenameStep) : CURVEFS_ERROR × FuseClient :=
  let r := c.env.renameOp c.trace c.inodes parent name newparent newname action
  (r.1, { c with inodes := r.2, trace := c.trace ++ [Call.rename action r.1] })

/-- Call `xattrManager_->UpdateParentXattrAfterRename`. -/
def UpdateParentXattrAfterRename (c : FuseClient) (parent newparent : Nat)
    (newname : String) : FuseClient :=
  { c with
    inodes := c.env.UpdateParentXattrAfterRename c.trace c.inodes parent newparent newname
    trace := c.trace ++ [Call.UpdateParentXattrAfterRename parent newparent newname] }

/-- The macro `RETURN_IF_UNSUCCESS(action)`: assign `rc = renameOp.action()`,
return `rc` when it is not `OK`, otherwise go on with the rest of the body. -/
def RETURN_IF_UNSUCCESS (c : FuseClient) (parent : Nat) (name : String) (newparent : Nat)
    (newname : String) (action : RenameStep)
    (rest : CURVEFS_ERROR → FuseClient → CURVEFS_ERROR × FuseClient) :
    CURVEFS_ERROR × FuseClient :=
  let r := c.renameOp parent name newparent newname action
  if r.1 ≠ CURVEFS_ERROR.OK then r else rest r.1 r.2

/-- A call of the rename operator whose return value is discarded. -/
def renameOp_ (c : FuseClient) (parent : Nat) (name : String) (newparent : Nat)
    (newname : String) (action : RenameStep) : FuseClient :=
  (c.renameOp parent name newparent newname action).2

/-- Transcribes `FuseClient::FuseOpRename`.  The four calls after `CommitTx` discard
what the operator returns, and `rc` still holds the answer of `CommitTx` at the end. -/
def FuseOpRename (c : FuseClient) (parent : Nat) (name : String) (newparent : Nat)
    (newname : String) : CURVEFS_ERROR × FuseClient :=
  if strlen name > c.option_.maxNameLength ∨ strlen newname > c.option_.maxNameLength then
    (CURVEFS_ERROR.NAMETOOLONG, c)
  else
    c.RETURN_IF_UNSUCCESS parent name newparent newname RenameStep.GetTxId fun _ c =>
    c.RETURN_IF_UNSUCCESS parent name newparent newname RenameStep.Precheck fun _ c =>
    c.RETURN_IF_UNSUCCESS parent name newparent newname RenameStep.RecordOldInodeInfo fun _ c =>
    c.RETURN_IF_UNSUCCESS parent name newparent newname RenameStep.LinkDestParentInode fun _ c =>
    c.RETURN_IF_UNSUCCESS parent name newparent newname RenameStep.PrepareTx fun _ c =>
    c.RETURN_IF_UNSUCCESS parent name newparent newname RenameStep.CommitTx fun rc c =>
    let c := c.renameOp_ parent name newparent newname RenameStep.UnlinkSrcParentInode
    let c := c.renameOp_ parent name newparent newname RenameStep.UnlinkOldInode
    let c := c.renameOp_ parent name newparent newname RenameStep.UpdateInodeParent
    let c := c.renameOp_ parent name newparent newname RenameStep.UpdateCache
    let c := if c.enableSumInDir_ then c.UpdateParentXattrAfterRename parent newparent newname
             else c
    (rc, c)

/-! ### Invocations of the collaborators -/

/-- Call a method of the `InodeWrapper` of inode `ino` (or a method of the xattr
manager acting on that inode): the wrapper is replaced by what the method
leaves and the invocation is recorded with its answer. -/
def onInode (c : FuseClient) (ino : Nat) (method : List Call → Inode → CURVEFS_ERROR × Inode)
    (event : CURVEFS_ERROR → Call) : CURVEFS_ERROR × FuseClient :=
  let r := method c.trace (c.inodes ino)
  (r.1, { c with inodes := Function.update c.inodes ino r.2, trace := c.trace ++ [event r.1] })

/-- Call `dentryManager_->GetDentry`. -/
def GetDentry (c : FuseClient) (parent : Nat) (name : String) :
    CURVEFS_ERROR × Dentry × FuseClient :=
  let r := c.env.GetDentry c.trace parent name
  (r.1, r.2, c.log (Call.GetDentry parent name r.1))

/-- Call `dentryManager_->ListDentry`. -/
def ListDentry (c : FuseClient) (parent limit : Nat) :
    CURVEFS_ERROR × List Dentry × FuseClient :=
  let r := c.env.ListDentry c.trace parent limit
  (r.1, r.2, c.log (Call.ListDentry parent limit r.1))

/-- Call `dentryManager_->CreateDentry`. -/
def CreateDentry (c : FuseClient) (dentry : Dentry) : CURVEFS_ERROR × FuseClient :=
  let rc := c.env.CreateDentry c.trace dentry
  (rc, c.log (Call.CreateDentry dentry rc))

/-- Call `dentryManager_->DeleteDentry`. -/
def DeleteDentry (c : FuseClient) (parent : Nat) (name : String) :
    CURVEFS_ERROR × FuseClient :=
  let rc := c.env.DeleteDentry c.trace parent name
  (rc, c.log (Call.DeleteDentry parent name rc))

/-- Call `inodeManager_->CreateInode`; on `OK` the new wrapper is kept under the
id of the new inode, which is returned. -/
def CreateInode (c : FuseClient) (param : InodeParam) : CURVEFS_ERROR × Nat × FuseClient :=
  let r := c.env.CreateInode c.trace param
  let c := c.log (Call.CreateInode param r.1)
  (r.1, r.2.inodeid, if r.1 = CURVEFS_ERROR.OK then c.setInode r.2.inodeid r.2 else c)

/-- Call `inodeManager_->GetInode`; on `OK` the wrapper is the one kept under
`ino`. -/
def GetInode (c : FuseClient) (ino : Nat) : CURVEFS_ERROR × FuseClient :=
  let rc := c.env.GetInode c.trace ino
  (rc, c.log (Call.GetInode ino rc))

/-- Call `inodeManager_->DeleteInode`. -/
def DeleteInode (c : FuseClient) (ino : Nat) : CURVEFS_ERROR × FuseClient :=
  let rc := c.env.DeleteInode c.trace ino
  (rc, c.log (Call.DeleteInode ino rc))

/-- Call `InodeWrapper::IncreaseNLink`. -/
def IncreaseNLink (c : FuseClient) (ino : Nat) : CURVEFS_ERROR × FuseClient :=
  c.onInode ino c.env.IncreaseNLink (Call.IncreaseNLink ino)

/-- Call `InodeWrapper::DecreaseNLink`. -/
def DecreaseNLink (c : FuseClient) (ino : Nat) : CURVEFS_ERROR × FuseClient :=
  c.onInode ino c.env.DecreaseNLink (Call.DecreaseNLink ino)

/-- Call `InodeWrapper::LinkLocked`. -/
def LinkLocked (c : FuseClient) (ino parent : Nat) : CURVEFS_ERROR × FuseClient :=
  c.onInode ino (fun t i => c.env.LinkLocked t i parent) (Call.LinkLocked ino parent)

/-- Call `InodeWrapper::UnLinkLocked`. -/
def UnLinkLocked (c : FuseClient) (ino parent : Nat) : CURVEFS_ERROR × FuseClient :=
  c.onInode ino (fun t i => c.env.UnLinkLocked t i parent) (Call.UnLinkLocked ino parent)

/-- Call `InodeWrapper::Open`. -/
def Open (c : FuseClient) (ino : Nat) : CURVEFS_ERROR × FuseClient :=
  c.onInode ino c.env.Open (Call.Open ino)

/-- Call `InodeWrapper::Sync`. -/
def Sync (c : FuseClient) (ino : Nat) : CURVEFS_ERROR × FuseClient :=
  c.onInode ino c.env.Sync (Call.Sync ino)

/-- Transcribes `FuseS3Client::Truncate`: call `s3Adaptor_->Truncate(inode, length)`. -/
def Truncate (c : FuseClient) (ino length : Nat) : CURVEFS_ERROR × FuseClient :=
  c.onInode ino (fun t i => c.env.Truncate t i length) (Call.Truncate ino length)

/-- Call `xattrManager_->UpdateParentInodeXattr`, which rewrites the extended
attributes of the parent. -/
def UpdateParentInodeXattr (c : FuseClient) (parent : Nat) (xattr : XAttr)
    (direction : Bool) : CURVEFS_ERROR × FuseClient :=
  c.onInode parent
    (fun t i =>
      ((c.env.UpdateParentInodeXattr t i xattr direction).1,
        { i with xattr := (c.env.UpdateParentInodeXattr t i xattr direction).2 }))
    (Call.UpdateParentInodeXattr parent xattr direction)

/-- The loop `for (const auto &it : inode->parent())` that calls
`UpdateParentInodeXattr(it, xattr, direction)` and only logs a failure. -/
def updateParents (xattr : XAttr) (direction : Bool) : FuseClient → List Nat → FuseClient
  | c, [] => c
  | c, it :: rest =>
    updateParents xattr direction (c.UpdateParentInodeXattr it xattr direction).2 rest

/-- Transcribes `FuseClient::GetDentryParamFromInode`. -/
def GetDentryParamFromInode (c : FuseClient) (ino : Nat) : fuse_entry_param :=
  { ino := (c.inodes ino).inodeid
    generation := 0
    attr := c.inodes ino
    attr_timeout := c.option_.attrTimeOut
    entry_timeout := c.option_.entryTimeOut }

/-! ### Operations of `fuse_client.cpp` -/

/-- Transcribes `FuseClient::FuseOpLookup`. -/
def FuseOpLookup (c : FuseClient) (parent : Nat) (name : String) :
    CURVEFS_ERROR × Option fuse_entry_param × FuseClient :=
  if strlen name > c.option_.maxNameLength then (CURVEFS_ERROR.NAMETOOLONG, none, c) else
  let r := c.GetDentry parent name
  if r.1 ≠ CURVEFS_ERROR.OK then (r.1, none, r.2.2) else
  let ino := r.2.1.inodeid
  let r := r.2.2.GetInode ino
  if r.1 ≠ CURVEFS_ERROR.OK then (r.1, none, r.2) else
  (r.1, some (r.2.GetDentryParamFromInode ino), r.2)

/-- Transcribes `FuseClient::FuseOpOpen`, with `Truncate` the one of `FuseS3Client`. -/
def FuseOpOpen (c : FuseClient) (ino : Nat) (fi : fuse_file_info) :
    CURVEFS_ERROR × FuseClient :=
  let r := c.GetInode ino
  if r.1 ≠ CURVEFS_ERROR.OK then r else
  let r := r.2.Open ino
  if r.1 ≠ CURVEFS_ERROR.OK then r else
  if fi.flags &&& O_TRUNC ≠ 0 then
    if fi.flags &&& O_WRONLY ≠ 0 ∨ fi.flags &&& O_RDWR ≠ 0 then
      let length := (r.2.inodes ino).length
      let t := r.2.Truncate ino 0
      if t.1 ≠ CURVEFS_ERROR.OK then (CURVEFS_ERROR.INTERNAL, t.2) else
      let now := t.2.env.clock_gettime t.2.trace
      let c := t.2.setInode ino
        { t.2.inodes ino with
          length := 0, ctime := now.tv_sec, ctime_ns := now.tv_nsec,
          mtime := now.tv_sec, mtime_ns := now.tv_nsec }
      let r := c.Sync ino
      if r.1 ≠ CURVEFS_ERROR.OK then r else
      if r.2.enableSumInDir_ = true ∧ length ≠ 0 then
        (r.1, updateParents { xattrinfos := [(XATTRFBYTES, to_string length)] } false r.2
                (r.2.inodes ino).parent)
      else r
    else (CURVEFS_ERROR.NOPERMISSION, r.2)
  else r

/-- Transcribes `FuseClient::MakeNode`. -/
def MakeNode (c : FuseClient) (ctx : fuse_ctx) (parent : Nat) (name : String) (mode : Nat)
    (type : FsFileType) (rdev : Nat) :
    CURVEFS_ERROR × Option fuse_entry_param × FuseClient :=
  if strlen name > c.option_.maxNameLength then (CURVEFS_ERROR.NAMETOOLONG, none, c) else
  let param : InodeParam :=
    { fsId := c.fsid
      length := if type = FsFileType.TYPE_DIRECTORY then 4096 else 0
      uid := ctx.uid, gid := ctx.gid, mode := mode, type := type, rdev := rdev
      symlink := "", parent := parent }
  let r := c.CreateInode param
  if r.1 ≠ CURVEFS_ERROR.OK then (r.1, none, r.2.2) else
  let ino := r.2.1
  let c := r.2.2
  let dentry : Dentry :=
    { fsid := c.fsid, inodeid := (c.inodes ino).inodeid, parentinodeid := parent
      name := name, txid := 0
      flag := if type = FsFileType.TYPE_FILE ∨ type = FsFileType.TYPE_S3
              then some TYPE_FILE_FLAG else none
      type := some (c.inodes ino).type }
  let r := c.CreateDentry dentry
  if r.1 ≠ CURVEFS_ERROR.OK then
    (r.1, none, (r.2.DeleteInode (r.2.inodes ino).inodeid).2)
  else
  let r := r.2.GetInode parent
  if r.1 ≠ CURVEFS_ERROR.OK then (r.1, none, r.2) else
  let r := r.2.IncreaseNLink parent
  if r.1 ≠ CURVEFS_ERROR.OK then (r.1, none, r.2) else
  let c :=
    if r.2.enableSumInDir_ then
      (r.2.UpdateParentInodeXattr parent
        { xattrinfos :=
            [(XATTRENTRIES, "1"),
             (if type = FsFileType.TYPE_DIRECTORY then XATTRSUBDIRS else XATTRFILES, "1"),
             (XATTRFBYTES, to_string (r.2.inodes ino).length)] } true).2
    else r.2
  (r.1, some (c.GetDentryParamFromInode ino), c)

/-- Transcribes `FuseClient::FuseOpMkDir`. -/
def FuseOpMkDir (c : FuseClient) (ctx : fuse_ctx) (parent : Nat) (name : String)
    (mode : Nat) : CURVEFS_ERROR × Option fuse_entry_param × FuseClient :=
  c.MakeNode ctx parent name (S_IFDIR ||| mode) FsFileType.TYPE_DIRECTORY 0

/-- Transcribes `FuseClient::RemoveNode`. -/
def RemoveNode (c : FuseClient) (parent : Nat) (name : String) (isDir : Bool) :
    CURVEFS_ERROR × FuseClient :=
  if strlen name > c.option_.maxNameLength then (CURVEFS_ERROR.NAMETOOLONG, c) else
  let r := c.GetDentry parent name
  if r.1 ≠ CURVEFS_ERROR.OK then (r.1, r.2.2) else
  let ino := r.2.1.inodeid
  let l :=
    if isDir then
      let l := r.2.2.ListDentry ino r.2.2.option_.listDentryLimit
      if l.1 ≠ CURVEFS_ERROR.OK then (l.1, l.2.2)
      else if l.2.1 ≠ [] then (CURVEFS_ERROR.NOTEMPTY, l.2.2)
      else (CURVEFS_ERROR.OK, l.2.2)
    else (CURVEFS_ERROR.OK, r.2.2)
  if l.1 ≠ CURVEFS_ERROR.OK then l else
  let r := l.2.DeleteDentry parent name
  if r.1 ≠ CURVEFS_ERROR.OK then r else
  let r := r.2.GetInode parent
  if r.1 ≠ CURVEFS_ERROR.OK then r else
  let r := r.2.DecreaseNLink parent
  if r.1 ≠ CURVEFS_ERROR.OK then r else
  let r := r.2.GetInode ino
  if r.1 ≠ CURVEFS_ERROR.OK then r else
  let r := r.2.UnLinkLocked ino parent
  let c :=
    if r.2.enableSumInDir_ then
      (r.2.UpdateParentInodeXattr parent
        { xattrinfos :=
            [(XATTRENTRIES, "1"),
             (if isDir then XATTRSUBDIRS else XATTRFILES, "1"),
             (XATTRFBYTES, to_string (r.2.inodes ino).length)] } false).2
    else r.2
  (r.1, c.log (Call.ClearInodeCache ino))

/-- Transcribes `FuseClient::FuseOpUnlink`. -/
def FuseOpUnlink (c : FuseClient) (parent : Nat) (name : String) :
    CURVEFS_ERROR × FuseClient :=
  c.RemoveNode parent name false

/-- Transcribes `FuseClient::FuseOpRmDir`. -/
def FuseOpRmDir (c : FuseClient) (parent : Nat) (name : String) :
    CURVEFS_ERROR × FuseClient :=
  c.RemoveNode parent name true

/-- Transcribes `FuseClient::FuseOpSymlink`. -/
def FuseOpSymlink (c : FuseClient) (ctx : fuse_ctx) (link : String) (parent : Nat)
    (name : String) : CURVEFS_ERROR × Option fuse_entry_param × FuseClient :=
  if strlen name > c.option_.maxNameLength then (CURVEFS_ERROR.NAMETOOLONG, none, c) else
  let param : InodeParam :=
    { fsId := c.fsid, length := strlen link, uid := ctx.uid, gid := ctx.gid
      mode := S_IFLNK ||| 0o777, type := FsFileType.TYPE_SYM_LINK, rdev := 0
      symlink := link, parent := parent }
  let r := c.CreateInode param
  if r.1 ≠ CURVEFS_ERROR.OK then (r.1, none, r.2.2) else
  let ino := r.2.1
  let c := r.2.2
  let dentry : Dentry :=
    { fsid := c.fsid, inodeid := (c.inodes ino).inodeid, parentinodeid := parent
      name := name, txid := 0, flag := none, type := some (c.inodes ino).type }
  let r := c.CreateDentry dentry
  if r.1 ≠ CURVEFS_ERROR.OK then
    (r.1, none, (r.2.DeleteInode (r.2.inodes ino).inodeid).2)
  else
  let r := r.2.GetInode parent
  if r.1 ≠ CURVEFS_ERROR.OK then (r.1, none, r.2) else
  let r := r.2.IncreaseNLink parent
  if r.1 ≠ CURVEFS_ERROR.OK then (r.1, none, r.2) else
  let c :=
    if r.2.enableSumInDir_ then
      (r.2.UpdateParentInodeXattr parent
        { xattrinfos :=
            [(XATTRENTRIES, "1"), (XATTRFILES, "1"),
             (XATTRFBYTES, to_string (r.2.inodes ino).length)] } true).2
    else r.2
  (r.1, some (c.GetDentryParamFromInode ino), c)

/-- Transcribes `FuseClient::FuseOpLink`. -/
def FuseOpLink (c : FuseClient) (ino newparent : Nat) (newname : String) :
    CURVEFS_ERROR × Option fuse_entry_param × FuseClient :=
  if strlen newname > c.option_.maxNameLength then (CURVEFS_ERROR.NAMETOOLONG, none, c) else
  let r := c.GetInode ino
  if r.1 ≠ CURVEFS_ERROR.OK then (r.1, none, r.2) else
  let r := r.2.LinkLocked ino newparent
  if r.1 ≠ CURVEFS_ERROR.OK then (r.1, none, r.2) else
  let c := r.2
  let dentry : Dentry :=
    { fsid := c.fsid, inodeid := (c.inodes ino).inodeid, parentinodeid := newparent
      name := newname, txid := 0, flag := none, type := some (c.inodes ino).type }
  let r := c.CreateDentry dentry
  if r.1 ≠ CURVEFS_ERROR.OK then (r.1, none, (r.2.UnLinkLocked ino newparent).2) else
  let r := r.2.GetInode newparent
  if r.1 ≠ CURVEFS_ERROR.OK then (r.1, none, r.2) else
  let r := r.2.IncreaseNLink newparent
  if r.1 ≠ CURVEFS_ERROR.OK then (r.1, none, r.2) else
  let c :=
    if r.2.enableSumInDir_ then
      (r.2.UpdateParentInodeXattr newparent
        { xattrinfos :=
            [(XATTRENTRIES, "1"), (XATTRFILES, "1"),
             (XATTRFBYTES, to_string (r.2.inodes ino).length)] } true).2
    else r.2
  (r.1, some (c.GetDentryParamFromInode ino), c)

/-! ### Operations of `fuse_s3_client.cpp` -/

/-- Transcribes `FuseS3Client::FuseOpCreate`. -/
def FuseOpCreate (c : FuseClient) (ctx : fuse_ctx) (parent : Nat) (name : String)
    (mode : Nat) (fi : fuse_file_info) :
    CURVEFS_ERROR × Option fuse_entry_param × FuseClient :=
  let r := c.MakeNode ctx parent name mode FsFileType.TYPE_S3 0
  if r.1 ≠ CURVEFS_ERROR.OK then r else
  match r.2.1 with
  | none => r
  | some e =>
    let o := r.2.2.FuseOpOpen e.ino fi
    (o.1, some e, o.2)

/-- Transcribes `FuseS3Client::FuseOpMkNod`. -/
def FuseOpMkNod (c : FuseClient) (ctx : fuse_ctx) (parent : Nat) (name : String)
    (mode rdev : Nat) : CURVEFS_ERROR × Option fuse_entry_param × FuseClient :=
  c.MakeNode ctx parent name mode FsFileType.TYPE_S3 rdev

/-- Call `s3Adaptor_->Write`. -/
def s3Write (c : FuseClient) (ino off size : Nat) (buf : List Nat) : Int × FuseClient :=
  let ret := c.env.s3Write c.trace ino off size buf
  (ret, c.log (Call.s3Write ino off size buf ret))

/-- Call `s3Adaptor_->Read`; the second component is what the adaptor puts into
the buffer. -/
def s3Read (c : FuseClient) (ino off len : Nat) : Int × List Nat × FuseClient :=
  let r := c.env.s3Read c.trace ino off len
  (r.1, r.2, c.log (Call.s3Read ino off len r.1))

/-- Call `s3Adaptor_->Flush`. -/
def s3Flush (c : FuseClient) (ino : Nat) : CURVEFS_ERROR × FuseClient :=
  let rc := c.env.s3Flush c.trace ino
  (rc, c.log (Call.s3Flush ino rc))

/-- Call `s3Adaptor_->FlushAllCache`. -/
def s3FlushAllCache (c : FuseClient) (ino : Nat) : CURVEFS_ERROR × FuseClient :=
  let rc := c.env.s3FlushAllCache c.trace ino
  (rc, c.log (Call.s3FlushAllCache ino rc))

/-- Transcribes `FuseS3Client::FuseOpWrite`.  `off` is a file offset, `size` a `size_t`; the
sum `off + *wSize` is formed in 64-bit unsigned arithmetic.  The second
component of the result is `*wSize` when it was written.  Metrics are left
out. -/
def FuseOpWrite (c : FuseClient) (ino : Nat) (buf : List Nat) (size off : Nat)
    (fi : fuse_file_info) : CURVEFS_ERROR × Option Nat × FuseClient :=
  if fi.flags &&& O_DIRECT ≠ 0 ∧
      ¬ (is_aligned off DirectIOAlignment = true ∧ is_aligned size DirectIOAlignment = true)
  then (CURVEFS_ERROR.INVALIDPARAM, none, c) else
  let w := c.s3Write ino off size buf
  if w.1 < 0 then (CURVEFS_ERROR.INTERNAL, none, w.2) else
  let r := w.2.GetInode ino
  if r.1 ≠ CURVEFS_ERROR.OK then (r.1, none, r.2) else
  let wSize := w.1.toNat
  let inode := r.2.inodes ino
  let grows := decide (inode.length < (off + wSize) % 2 ^ 64)
  let changeSize := if grows then (off + wSize) % 2 ^ 64 - inode.length else 0
  let now := r.2.env.clock_gettime r.2.trace
  let c := r.2.setInode ino
    { inode with
      length := if grows then (off + wSize) % 2 ^ 64 else inode.length
      mtime := now.tv_sec, mtime_ns := now.tv_nsec
      ctime := now.tv_sec, ctime_ns := now.tv_nsec }
  let c := c.log (Call.ShipToFlush ino)
  let c :=
    if c.enableSumInDir_ = true ∧ changeSize ≠ 0 then
      updateParents { xattrinfos := [(XATTRFBYTES, to_string changeSize)] } true c
        (c.inodes ino).parent
    else c
  (r.1, some wSize, c)

/-- Transcribes `FuseS3Client::FuseOpRead`.  The comparisons with `off` and `off + size` are
made in 64-bit unsigned arithmetic.  The second component of the result is
`*rSize` when it was written, the third the bytes put into the buffer.
Metrics are left out. -/
def FuseOpRead (c : FuseClient) (ino size off : Nat) (fi : fuse_file_info) :
    CURVEFS_ERROR × Option Nat × List Nat × FuseClient :=
  if fi.flags &&& O_DIRECT ≠ 0 ∧
      ¬ (is_aligned off DirectIOAlignment = true ∧ is_aligned size DirectIOAlignment = true)
  then (CURVEFS_ERROR.INVALIDPARAM, none, [], c) else
  let r := c.GetInode ino
  if r.1 ≠ CURVEFS_ERROR.OK then (r.1, none, [], r.2) else
  let fileSize := (r.2.inodes ino).length
  if fileSize ≤ off then (CURVEFS_ERROR.OK, some 0, [], r.2) else
  let len := if fileSize < (off + size) % 2 ^ 64 then fileSize - off else size
  let rd := r.2.s3Read ino off len
  if rd.1 < 0 then (CURVEFS_ERROR.INTERNAL, none, rd.2.1, rd.2.2) else
  let now := rd.2.2.env.clock_gettime rd.2.2.trace
  let c := rd.2.2.setInode ino
    { rd.2.2.inodes ino with
      ctime := now.tv_sec, ctime_ns := now.tv_nsec
      atime := now.tv_sec, atime_ns := now.tv_nsec }
  let c := c.log (Call.ShipToFlush ino)
  (r.1, some rd.1.toNat, rd.2.1, c)

/-- Transcribes `FuseS3Client::FuseOpFlush`. -/
def FuseOpFlush (c : FuseClient) (ino : Nat) : CURVEFS_ERROR × FuseClient :=
  if c.FLAGS_enableCto then
    let r := c.s3FlushAllCache ino
    if r.1 ≠ CURVEFS_ERROR.OK then r else
    let r := r.2.GetInode ino
    if r.1 ≠ CURVEFS_ERROR.OK then r else
    let r := r.2.Sync ino
    if r.1 ≠ CURVEFS_ERROR.OK then r else
    (CURVEFS_ERROR.OK, r.2)
  else
    let r := c.s3Flush ino
    if r.1 ≠ CURVEFS_ERROR.OK then r else
    (CURVEFS_ERROR.OK, r.2)

/-! ### Attributes and extended attributes -/

/-- Call `InodeWrapper::SyncAttr`. -/
def SyncAttr (c : FuseClient) (ino : Nat) : CURVEFS_ERROR × FuseClient :=
  c.onInode ino c.env.SyncAttr (Call.SyncAttr ino)

/-- Call one of the four summary calculations of the xattr manager on a copy
of inode `ino`; the copy is handed back, the wrapper is left alone. -/
def calSumInfo (c : FuseClient) (method : List Call → Inode → CURVEFS_ERROR × Inode)
    (event : CURVEFS_ERROR → Call) (inode : Inode) : CURVEFS_ERROR × Inode × FuseClient :=
  let r := method c.trace inode
  (r.1, r.2, c.log (event r.1))

/-- Transcribes `FuseClient::FuseOpSetAttr`, with `Truncate` the one of
`FuseS3Client`.  The second component is `*attrOut` when it was filled in, as
the inode from which `GetInodeAttrUnLocked` fills it.  `changeSize` is the
difference of two 64-bit values converted to `int64_t`. -/
def FuseOpSetAttr (c : FuseClient) (ino : Nat) (attr : stat) (to_set : Nat) :
    CURVEFS_ERROR × Option Inode × FuseClient :=
  let r := c.GetInode ino
  if r.1 ≠ CURVEFS_ERROR.OK then (r.1, none, r.2) else
  let c := r.2
  let now := c.env.clock_gettime c.trace
  let inode := c.inodes ino
  let inode := if to_set &&& FUSE_SET_ATTR_MODE ≠ 0 then { inode with mode := attr.st_mode }
               else inode
  let inode := if to_set &&& FUSE_SET_ATTR_UID ≠ 0 then { inode with uid := attr.st_uid }
               else inode
  let inode := if to_set &&& FUSE_SET_ATTR_GID ≠ 0 then { inode with gid := attr.st_gid }
               else inode
  let inode := if to_set &&& FUSE_SET_ATTR_ATIME ≠ 0 then
                 { inode with atime := attr.st_atim.tv_sec, atime_ns := attr.st_atim.tv_nsec }
               else inode
  let inode := if to_set &&& FUSE_SET_ATTR_ATIME_NOW ≠ 0 then
                 { inode with atime := now.tv_sec, atime_ns := now.tv_nsec }
               else inode
  let inode := if to_set &&& FUSE_SET_ATTR_MTIME ≠ 0 then
                 { inode with mtime := attr.st_mtim.tv_sec, mtime_ns := attr.st_mtim.tv_nsec }
               else inode
  let inode := if to_set &&& FUSE_SET_ATTR_MTIME_NOW ≠ 0 then
                 { inode with mtime := now.tv_sec, mtime_ns := now.tv_nsec }
               else inode
  let inode := if to_set &&& FUSE_SET_ATTR_CTIME ≠ 0 then
                 { inode with ctime := attr.st_ctim.tv_sec, ctime_ns := attr.st_ctim.tv_nsec }
               else
                 { inode with ctime := now.tv_sec, ctime_ns := now.tv_nsec }
  let c := c.setInode ino inode
  if to_set &&& FUSE_SET_ATTR_SIZE ≠ 0 then
    let changeSize : Int := int64_t (attr.st_size % 2 ^ 64 + (2 ^ 64 - inode.length % 2 ^ 64))
    let t := c.Truncate ino attr.st_size
    if t.1 ≠ CURVEFS_ERROR.OK then (t.1, none, t.2) else
    let c := t.2.setInode ino { t.2.inodes ino with length := attr.st_size }
    let r := c.Sync ino
    if r.1 ≠ CURVEFS_ERROR.OK then (r.1, none, r.2) else
    let attrOut := r.2.inodes ino
    if r.2.enableSumInDir_ = true ∧ changeSize ≠ 0 then
      (r.1, some attrOut,
        updateParents { xattrinfos := [(XATTRFBYTES, to_string changeSize.natAbs)] }
          (decide (changeSize > 0)) r.2 (r.2.inodes ino).parent)
    else (r.1, some attrOut, r.2)
  else
  let r := c.SyncAttr ino
  if r.1 ≠ CURVEFS_ERROR.OK then (r.1, none, r.2) else
  (r.1, some (r.2.inodes ino), r.2)

/-- Transcribes `FuseClient::FuseOpGetXattr`.  `MAXXATTRLENGTH` is a constant of
a header that is not among the sources and is passed in.  The second component
is what `memcpy` put into `value`, when it was called. -/
def FuseOpGetXattr (c : FuseClient) (MAXXATTRLENGTH : Nat) (ino : Nat) (name : String)
    (size : Nat) : CURVEFS_ERROR × Option String × FuseClient :=
  let r := c.GetInode ino
  if r.1 ≠ CURVEFS_ERROR.OK then (r.1, none, r.2) else
  let c := r.2
  let x : CURVEFS_ERROR × String × FuseClient :=
    if IsSummaryInfo name = true ∧ (c.inodes ino).type = FsFileType.TYPE_DIRECTORY then
      let inode := c.inodes ino
      let s :=
        if ¬ c.enableSumInDir_ = true then
          if IsOneLayer name = true then
            c.calSumInfo c.env.CalOneLayerSumInfo (Call.CalOneLayerSumInfo ino) inode
          else c.calSumInfo c.env.CalAllLayerSumInfo (Call.CalAllLayerSumInfo ino) inode
        else
          if IsOneLayer name = true then
            c.calSumInfo c.env.FastCalOneLayerSumInfo (Call.FastCalOneLayerSumInfo ino) inode
          else c.calSumInfo c.env.FastCalAllLayerSumInfo (Call.FastCalAllLayerSumInfo ino) inode
      if CURVEFS_ERROR.OK ≠ s.1 then (s.1, "", s.2.2) else
      (CURVEFS_ERROR.OK, (s.2.1.xattr.lookup name).getD "", s.2.2)
    else (CURVEFS_ERROR.OK, c.env.GetXattrUnLocked (c.inodes ino) name, c)
  if x.1 ≠ CURVEFS_ERROR.OK then (x.1, none, x.2.2) else
  let xValue := x.2.1
  if xValue.utf8ByteSize > 0 then
    if (size = 0 ∧ xValue.utf8ByteSize ≤ MAXXATTRLENGTH) ∨
        (size ≥ xValue.utf8ByteSize ∧ size ≤ MAXXATTRLENGTH) then
      (CURVEFS_ERROR.OK, some xValue, x.2.2)
    else (CURVEFS_ERROR.OUT_OF_RANGE, none, x.2.2)
  else (CURVEFS_ERROR.NODATA, none, x.2.2)

/-- Transcribes `FuseClient::FuseOpListXattr`; `realSize` is the value that
`*realSize` holds when the operation starts, and the sum is made in `size_t`.
The second component is what was written to `value`, the third `*realSize`
when the operation returns. -/
def FuseOpListXattr (c : FuseClient) (ino size realSize : Nat) :
    CURVEFS_ERROR × List Nat × Nat × FuseClient :=
  let r := c.GetInode ino
  if r.1 ≠ CURVEFS_ERROR.OK then (r.1, [], realSize, r.2) else
  let inode := r.2.inodes ino
  let realSize := inode.xattr.foldl (fun n it => (n + (it.1.utf8ByteSize + 1)) % 2 ^ 64) realSize
  let realSize :=
    if inode.type = FsFileType.TYPE_DIRECTORY then
      ((((realSize + (strlen XATTRRFILES + 1)) % 2 ^ 64 + (strlen XATTRRSUBDIRS + 1)) % 2 ^ 64 +
        (strlen XATTRRENTRIES + 1)) % 2 ^ 64 + (strlen XATTRRFBYTES + 1)) % 2 ^ 64
    else realSize
  if size = 0 then (CURVEFS_ERROR.OK, [], realSize, r.2)
  else if size ≥ realSize then
    let value := inode.xattr.foldl (fun v it => v ++ c_str it.1) []
    let value :=
      if inode.type = FsFileType.TYPE_DIRECTORY then
        value ++ c_str XATTRRFILES ++ c_str XATTRRSUBDIRS ++ c_str XATTRRENTRIES ++
          c_str XATTRRFBYTES
      else value
    (CURVEFS_ERROR.OK, value, realSize, r.2)
  else (CURVEFS_ERROR.OUT_OF_RANGE, [], realSize, r.2)

/-- The head of one directory buffer, with the fields of `struct DirBufferHead`
that `FuseOpReadDir` and `dirbuf_add` use; the header that declares it is not
among the sources.  The memory at `p` is the list of its bytes. -/
structure DirBufferHead where
  wasRead : Bool
  size : Nat
  p : List Nat
  deriving DecidableEq, Repr

/-- The member `dirBuf_`: one head for each index.  The class `DirBuffer` is
not among the sources; `DirBufferGet` hands back the head kept under the index. -/
abbrev DirBuffer := Nat → DirBufferHead

/-- Call `dirBuf_->DirBufferGet`. -/
def DirBufferGet (dirBuf_ : DirBuffer) (dindex : Nat) : DirBufferHead :=
  dirBuf_ dindex

/-- Conversion of an `off_t` to `size_t`. -/
def size_t (off : Int) : Nat :=
  (off % 2 ^ 64).toNat

/-- Memory after `realloc(p, size)`: the bytes that fit are kept, new bytes are
taken as zero. -/
def realloc (p : List Nat) (size : Nat) : List Nat :=
  p.take size ++ List.replicate (size - p.length) 0

/-- Memory `p` after `bytes` were written from position `pos` on. -/
def store (p : List Nat) (pos : Nat) (bytes : List Nat) : List Nat :=
  p.take pos ++ bytes ++ p.drop (pos + bytes.length)

/-- Transcribes `dirbuf_add`.  The function `fuse_add_direntry` of the FUSE
library is given the size of the buffer (`none` for a null buffer), the name,
`st_ino` of the `stat` record (`none` for a null record) and the offset; it
answers the size of the entry and the bytes it wrote to the buffer. -/
def dirbuf_add (fuse_add_direntry : Option Nat → String → Option Nat → Nat → Nat × List Nat)
    (b : DirBufferHead) (dentry : Dentry) : DirBufferHead :=
  let oldsize := b.size
  let size := (b.size + (fuse_add_direntry none dentry.name none 0).1) % 2 ^ 64
  let p := realloc b.p size
  let st_ino := dentry.inodeid
  let w := fuse_add_direntry (some ((size + 2 ^ 64 - oldsize) % 2 ^ 64)) dentry.name
    (some st_ino) size
  { b with size := size, p := store p oldsize w.2 }

/-- Transcribes `FuseClient::FuseOpReadDir`.  The member `dirBuf_` is kept
apart from the rest of the client; `buffer` and `rSize` are what `*buffer` and
`*rSize` hold when the operation starts; a pointer into the memory of the
head is its offset from `p`, the null pointer is `none`.  The result is the
error code, `*buffer`, `*rSize`, `dirBuf_` and the client. -/
def FuseOpReadDir (c : FuseClient) (dirBuf_ : DirBuffer)
    (fuse_add_direntry : Option Nat → String → Option Nat → Nat → Nat × List Nat)
    (ino size : Nat) (off : Int) (fi : fuse_file_info) (buffer : Option Int) (rSize : Nat) :
    CURVEFS_ERROR × Option Int × Nat × DirBuffer × FuseClient :=
  let r := c.GetInode ino
  if r.1 ≠ CURVEFS_ERROR.OK then (r.1, buffer, rSize, dirBuf_, r.2) else
  let dindex := fi.fh
  let rest := fun (ret : CURVEFS_ERROR) (dirBuf_ : DirBuffer) (c : FuseClient) =>
    let bufHead := DirBufferGet dirBuf_ dindex
    if size_t off < bufHead.size then
      (ret, some off, min (bufHead.size - size_t off) size, dirBuf_, c)
    else (ret, none, 0, dirBuf_, c)
  let bufHead := DirBufferGet dirBuf_ dindex
  if bufHead.wasRead = false then
    let limit := r.2.option_.listDentryLimit
    let l := r.2.ListDentry ino limit
    if l.1 ≠ CURVEFS_ERROR.OK then (l.1, buffer, rSize, dirBuf_, l.2.2) else
    let bufHead := l.2.1.foldl (dirbuf_add fuse_add_direntry) bufHead
    let bufHead := { bufHead with wasRead := true }
    rest l.1 (Function.update dirBuf_ dindex bufHead) l.2.2
  else rest r.1 dirBuf_ r.2

end FuseClient

/-- The six steps guarded by `RETURN_IF_UNSUCCESS`, in program order. -/
def protocolSteps : List RenameStep :=
  [RenameStep.GetTxId, RenameStep.Precheck, RenameStep.RecordOldInodeInfo,
   RenameStep.LinkDestParentInode, RenameStep.PrepareTx, RenameStep.CommitTx]

/-- An inode with every field zero or empty. -/
def emptyInode : Inode :=
  { inodeid := 0, fsid := 0, length := 0, ctime := 0, ctime_ns := 0, mtime := 0,
    mtime_ns := 0, atime := 0, atime_ns := 0, uid := 0, gid := 0, mode := 0, nlink := 0,
    type := FsFileType.TYPE_S3, symlink := "", rdev := 0, parent := [], xattr := [],
    openmpcount := 0 }

/-- Collaborators that always succeed: the rename operator, the managers and
the wrappers answer `OK` and leave the inodes alone, a created inode gets id
1000, the S3 adaptor transfers as many bytes as it is asked for, and the clock
shows 7 s, 9 ns. -/
def okCollaborators : Collaborators :=
  { renameOp := fun _ t _ _ _ _ _ => (CURVEFS_ERROR.OK, t)
    UpdateParentXattrAfterRename := fun _ t _ _ _ => t
    UpdateParentInodeXattr := fun _ i _ _ => (CURVEFS_ERROR.OK, i.xattr)
    GetDentry := fun _ parent name =>
      (CURVEFS_ERROR.OK,
        { fsid := 100, inodeid := 1000, parentinodeid := parent, name := name, txid := 0,
          flag := none, type := none })
    ListDentry := fun _ _ _ => (CURVEFS_ERROR.OK, [])
    CreateDentry := fun _ _ => CURVEFS_ERROR.OK
    DeleteDentry := fun _ _ _ => CURVEFS_ERROR.OK
    CreateInode := fun _ p =>
      (CURVEFS_ERROR.OK,
        { emptyInode with
          inodeid := 1000, fsid := p.fsId, length := p.length, uid := p.uid, gid := p.gid,
          mode := p.mode, type := p.type, rdev := p.rdev, symlink := p.symlink,
          parent := [p.parent], nlink := 1 })
    GetInode := fun _ _ => CURVEFS_ERROR.OK
    DeleteInode := fun _ _ => CURVEFS_ERROR.OK
    IncreaseNLink := fun _ i => (CURVEFS_ERROR.OK, i)
    DecreaseNLink := fun _ i => (CURVEFS_ERROR.OK, i)
    LinkLocked := fun _ i _ => (CURVEFS_ERROR.OK, i)
    UnLinkLocked := fun _ i _ => (CURVEFS_ERROR.OK, i)
    Open := fun _ i => (CURVEFS_ERROR.OK, i)
    Sync := fun _ i => (CURVEFS_ERROR.OK, i)
    SyncAttr := fun _ i => (CURVEFS_ERROR.OK, i)
    Truncate := fun _ i _ => (CURVEFS_ERROR.OK, i)
    GetXattrUnLocked := fun i name => (i.xattr.lookup name).getD ""
    CalOneLayerSumInfo := fun _ i => (CURVEFS_ERROR.OK, i)
    CalAllLayerSumInfo := fun _ i => (CURVEFS_ERROR.OK, i)
    FastCalOneLayerSumInfo := fun _ i => (CURVEFS_ERROR.OK, i)
    FastCalAllLayerSumInfo := fun _ i => (CURVEFS_ERROR.OK, i)
    s3Write := fun _ _ _ size _ => size
    s3Read := fun _ _ _ len => (len, List.replicate len 0)
    s3Flush := fun _ _ => CURVEFS_ERROR.OK
    s3FlushAllCache := fun _ _ => CURVEFS_ERROR.OK
    clock_gettime := fun _ => { tv_sec := 7, tv_nsec := 9 } }

/-- The client of the unit tests: file system 100 named xxx, names of at most
20 bytes, at most 100 entries per listing, every inode of length 4096. -/
def testClient : FuseClient :=
  { option_ := { maxNameLength := 20, listDentryLimit := 100, attrTimeOut := 1,
                 entryTimeOut := 1 }
    enableSumInDir_ := false
    FLAGS_enableCto := false
    fsid := 100
    fsname := "xxx"
    env := okCollaborators
    inodes := fun ino => { emptyInode with inodeid := ino, length := 4096 }
    trace := [] }

/-- The test client with a dentry manager that refuses to create a dentry
(`EXISTS`) and an inode manager that then fails to delete the inode. -/
def dentryExistsClient : FuseClient :=
  { testClient with
    env :=
      { okCollaborators with
        CreateDentry := fun _ _ => CURVEFS_ERROR.EXISTS
        DeleteInode := fun _ _ => CURVEFS_ERROR.INTERNAL } }

/-- Collaborators of the test client whose `InodeWrapper::IncreaseNLink` and
`DecreaseNLink` do what their names say (`inode_wrapper.cpp` is not among the
sources): they add one to, or take one from, `nlink` and answer `OK`. -/
def nlinkCollaborators : Collaborators :=
  { okCollaborators with
    IncreaseNLink := fun _ i => (CURVEFS_ERROR.OK, { i with nlink := i.nlink + 1 })
    DecreaseNLink := fun _ i => (CURVEFS_ERROR.OK, { i with nlink := i.nlink - 1 }) }

/-- The test client with `nlinkCollaborators`; inode 1 is a directory with
`nlink` 2. -/
def nlinkClient : FuseClient :=
  { testClient with
    env := nlinkCollaborators
    inodes := fun n =>
      if n = 1 then
        { emptyInode with
          inodeid := 1, fsid := 100, length := 4096, nlink := 2,
          type := FsFileType.TYPE_DIRECTORY }
      else { emptyInode with inodeid := n, fsid := 100, length := 4096, nlink := 1 } }

/-- The test client with `enableSumInDir_` set; every inode is listed under the
parent 0, as in the summary tests. -/
def summaryClient : FuseClient :=
  { testClient with
    enableSumInDir_ := true
    inodes := fun ino => { emptyInode with inodeid := ino, length := 4096, parent := [0] } }

/-- The summary delta of one node in the words of the specification: one
entry, one sub-directory or else one file, and the bytes of the node. -/
def summaryDelta (isDir : Bool) (length : Nat) : List (String × Nat) :=
  [(XATTRENTRIES, 1), (if isDir then XATTRSUBDIRS else XATTRFILES, 1), (XATTRFBYTES, length)]

/-- The `XAttr` message that carries a delta: every amount in decimal. -/
def toXAttr (delta : List (String × Nat)) : XAttr :=
  { xattrinfos := delta.map fun kv => (kv.1, to_string kv.2) }

/-- Modelled from the spec: `update_parent_inode_xattr(parent, delta, direction)`
of the xattr manager, whose code is not among the sources, adds every amount
of the delta to the counter of its name when the direction is plus and takes
it off when the direction is minus. -/
def applyDelta (counters : String → Int) (delta : List (String × Nat)) (direction : Bool) :
    String → Int :=
  delta.foldl
    (fun cs kv => Function.update cs kv.1 (cs kv.1 + (if direction then (kv.2 : Int) else -kv.2)))
    counters

/-- The test client in which every inode is a directory that carries the one
extended attribute of the tests, `security` with the value `0`. -/
def xattrClient : FuseClient :=
  { testClient with
    inodes := fun ino =>
      { emptyInode with
        inodeid := ino, length := 4096, type := FsFileType.TYPE_DIRECTORY,
        xattr := [("security", "0")] } }

/-- The test client with a dentry manager that lists two entries, `a` of inode
11 and `bb` of inode 12, in every directory. -/
def listingClient : FuseClient :=
  { testClient with
    env :=
      { okCollaborators with
        ListDentry := fun _ parent _ =>
          (CURVEFS_ERROR.OK,
            [{ fsid := 100, inodeid := 11, parentinodeid := parent, name := "a", txid := 0,
               flag := none, type := none },
             { fsid := 100, inodeid := 12, parentinodeid := parent, name := "bb", txid := 0,
               flag := none, type := none }]) } }

/-- An encoding of directory entries for the examples: an entry takes 24 bytes
and the length of its name rounded up to a multiple of 8; when the buffer has
room, the entry is written as the inode number, the offset and the length of
the name followed by zeros. -/
def sampleDirentry (bufsize : Option Nat) (name : String) (st_ino : Option Nat) (off : Nat) :
    Nat × List Nat :=
  let entlen := 24 + (name.length + 7) / 8 * 8
  match bufsize with
  | none => (entlen, [])
  | some n =>
    if entlen ≤ n then
      (entlen, [st_ino.getD 0, off, name.length] ++ List.replicate (entlen - 3) 0)
    else (entlen, [])

/-- Directory buffers none of which was read: every head is empty. -/
def freshDirBuffer : FuseClient.DirBuffer :=
  fun _ => { wasRead := false, size := 0, p := [] }

end client
end curvefs

namespace curvefs
namespace metaserver
namespace storage

/-- A `std::string` used as a byte string: the list of its bytes. -/
abbrev Bytes := List Nat

/-- Status codes of the storage layer (`storage::Status`). -/
inductive Status where
  | OK
  | DBClosed
  | NotFound
  | NotSupported
  | InternalError
  | ParsedFailed
  | SerializedFailed
  deriving DecidableEq, Repr

/-- Status of the key-value engine (`ROCKSDB_NAMESPACE::Status`) as far as
`ToStorageStatus` tells its values apart. -/
inductive RocksStatus where
  | ok
  | notFound
  | other
  deriving DecidableEq, Repr

/-- Transcribes `Hash`: `std::hash<std::string>` is given by the platform; its result is a
`size_t`, 64 bits wide. -/
def Hash (stdHash : Bytes → Nat) (key : Bytes) : Nat :=
  stdHash key % 2 ^ 64

/-- The first `n` bytes of the little-endian memory image of `num`. -/
def memoryImage : Nat → Nat → Bytes
  | 0, _ => []
  | n + 1, num => num % 256 :: memoryImage n (num / 256)

/-- The number whose little-endian memory image starts with the given bytes. -/
def ofMemoryImage : Bytes → Nat
  | [] => 0
  | b :: bs => b + 256 * ofMemoryImage bs

/-- Transcribes `Number2BinaryString`: the `sizeof(size_t)` = 8 bytes of the object
representation of `num` (little-endian host). -/
def Number2BinaryString (num : Nat) : Bytes :=
  memoryImage 8 num

/-- Transcribes `BinrayString2Number`: 0 for a string shorter than 8 bytes, otherwise the
`size_t` stored in its first 8 bytes. -/
def BinrayString2Number (str : Bytes) : Nat :=
  if str.length < 8 then 0 else ofMemoryImage (str.take 8)

/-- Transcribes `RocksDBStorage::ToInternalName`: the flag printed as 0 or 1, a colon, the
name. -/
def ToInternalName (name : Bytes) (ordered : Bool) : Bytes :=
  (if ordered then 49 else 48) :: 58 :: name

/-- Transcribes `RocksDBStorage::FormatInternalKey`. -/
def FormatInternalKey (num4name : Nat) (key : Bytes) : Bytes :=
  Number2BinaryString num4name ++ 58 :: key

/-- Transcribes `RocksDBStorage::ToInternalKey`. -/
def ToInternalKey (stdHash : Bytes → Nat) (iname key : Bytes) : Bytes :=
  FormatInternalKey (Hash stdHash iname) key

/-- Transcribes `RocksDBStorage::ToUserKey`: drop the 8-byte prefix and the colon. -/
def ToUserKey (ikey : Bytes) : Bytes :=
  ikey.drop (8 + 1)

/-- Transcribes `RocksDBStorage::ToStorageStatus`. -/
def ToStorageStatus (s : RocksStatus) : Status :=
  match s with
  | RocksStatus.ok => Status.OK
  | RocksStatus.notFound => Status.NotFound
  | RocksStatus.other => Status.InternalError

/-- Bytewise lexicographic order on byte strings, strict. -/
def bytesLt : Bytes → Bytes → Bool
  | _, [] => false
  | [], _ :: _ => true
  | a :: as, b :: bs => decide (a < b) || (decide (a = b) && bytesLt as bs)

/-- Modelled from the spec: the key order of `RocksDBStorageComparator`, whose
class is declared in `rocksdb_storage.h`; it compares the numeric 8-byte
name-hash prefix first and the remaining bytes second. -/
def keyLt (a b : Bytes) : Bool :=
  decide (BinrayString2Number a < BinrayString2Number b) ||
    (decide (BinrayString2Number a = BinrayString2Number b) && bytesLt (a.drop 8) (b.drop 8))

/-- Membership of a key in the half-open range from `beginKey` to `endKey`. -/
def inRange (beginKey endKey key : Bytes) : Bool :=
  !keyLt key beginKey && keyLt key endKey

/-- State of a `Counter`: for every table name the set of the hashes of its keys.  The
container type `ContainerType` is declared in `utils.h`, which is not among the sources;
it is taken to be a hash set of `size_t`, as `emplace`, `erase` and `find` are used on it. -/
abbrev Counter := Bytes → List Nat

namespace Counter

/-- Transcribes `Counter::ToInternalKey`. -/
def ToInternalKey (stdHash : Bytes → Nat) (key : Bytes) : Nat :=
  Hash stdHash key

/-- Transcribes `Counter::Insert`. -/
def Insert (stdHash : Bytes → Nat) (c : Counter) (name key : Bytes) : Counter :=
  Function.update c name
    (if ToInternalKey stdHash key ∈ c name then c name
     else ToInternalKey stdHash key :: c name)

/-- Transcribes `Counter::Erase`. -/
def Erase (stdHash : Bytes → Nat) (c : Counter) (name key : Bytes) : Counter :=
  Function.update c name ((c name).filter fun h => h ≠ ToInternalKey stdHash key)

/-- Transcribes `Counter::Find`. -/
def Find (stdHash : Bytes → Nat) (c : Counter) (name key : Bytes) : Bool :=
  decide (ToInternalKey stdHash key ∈ c name)

/-- Transcribes `Counter::Size`. -/
def Size (c : Counter) (name : Bytes) : Nat :=
  (c name).length

/-- Transcribes `Counter::Clear`. -/
def Clear (c : Counter) (name : Bytes) : Counter :=
  Function.update c name []

end Counter

/-- The contents of the database: per column family (`true` is the ordered
one) a map from internal key to serialized value. -/
abbrev Database := Bool → Bytes → Option Bytes

/-- One write buffered in a transaction: a put (`some` value) or a delete. -/
abbrev TxnWrite := Bool × Bytes × Option Bytes

/-- Serialization of the stored values (`ValueType`, a protobuf message). -/
structure ValueType (V : Type) where
  SerializeToString : V → Option Bytes
  ParseFromString : Bytes → Option V

/-- The state of a `RocksDBStorage` handle.  `db_` and `counter_` are shared
between a storage and the transaction handles made from it; `txn_` holds the
writes of the transaction in the order they were issued. -/
structure RocksDBStorage where
  inited_ : Bool
  InTransaction_ : Bool
  db_ : Database
  txn_ : List TxnWrite
  counter_ : Counter
  pending4set_ : List (Bytes × Bytes)
  pending4del_ : List (Bytes × Bytes)

/-- Models `db_->Get` of the engine on a map. -/
def dbGet (db : Database) (handle : Bool) (ikey : Bytes) : RocksStatus × Bytes :=
  match db handle ikey with
  | some v => (RocksStatus.ok, v)
  | none => (RocksStatus.notFound, [])

/-- Models `db_->Put` of the engine on a map. -/
def dbPut (db : Database) (handle : Bool) (ikey svalue : Bytes) : Database :=
  fun h k => if h = handle ∧ k = ikey then some svalue else db h k

/-- Models `db_->Delete` of the engine on a map. -/
def dbDelete (db : Database) (handle : Bool) (ikey : Bytes) : Database :=
  fun h k => if h = handle ∧ k = ikey then none else db h k

/-- Models `db_->DeleteRange` of the engine under the key order of the column family. -/
def dbDeleteRange (db : Database) (handle : Bool) (beginKey endKey : Bytes) : Database :=
  fun h k => if h = handle ∧ inRange beginKey endKey k = true then none else db h k

/-- The last write a transaction buffered for a key, if any. -/
def txnLookup : List TxnWrite → Bool → Bytes → Option (Option Bytes)
  | [], _, _ => none
  | (h, k, v) :: rest, handle, ikey =>
    match txnLookup rest handle ikey with
    | some r => some r
    | none => if h = handle ∧ k = ikey then some v else none

/-- Models `txn_->Get` of the engine: a transaction reads its own writes, then the
database. -/
def txnGet (db : Database) (txn : List TxnWrite) (handle : Bool) (ikey : Bytes) :
    RocksStatus × Bytes :=
  match txnLookup txn handle ikey with
  | some (some v) => (RocksStatus.ok, v)
  | some none => (RocksStatus.notFound, [])
  | none => dbGet db handle ikey

/-- Models `txn_->Commit` of the engine: apply the buffered writes in order. -/
def txnCommit (db : Database) : List TxnWrite → Database
  | [] => db
  | (h, k, some v) :: rest => txnCommit (dbPut db h k v) rest
  | (h, k, none) :: rest => txnCommit (dbDelete db h k) rest

namespace RocksDBStorage

/-- Transcribes `RocksDBStorage::GetColumnFamilyHandle`: handle 1 for the ordered column
family, handle 0 otherwise. -/
def GetColumnFamilyHandle (ordered : Bool) : Bool := ordered

/-- The loop of `CommitKeys` over `pending4set_`. -/
def insertKeys (stdHash : Bytes → Nat) : Counter → List (Bytes × Bytes) → Counter
  | c, [] => c
  | c, pair :: rest => insertKeys stdHash (Counter.Insert stdHash c pair.1 pair.2) rest

/-- The loop of `CommitKeys` over `pending4del_`. -/
def eraseKeys (stdHash : Bytes → Nat) : Counter → List (Bytes × Bytes) → Counter
  | c, [] => c
  | c, pair :: rest => eraseKeys stdHash (Counter.Erase stdHash c pair.1 pair.2) rest

/-- Transcribes `RocksDBStorage::CommitKeys`: insert every pending set, then erase every
pending delete, then clear both journals. -/
def CommitKeys (stdHash : Bytes → Nat) (s : RocksDBStorage) : RocksDBStorage :=
  { s with
    counter_ := eraseKeys stdHash (insertKeys stdHash s.counter_ s.pending4set_) s.pending4del_
    pending4set_ := []
    pending4del_ := [] }

/-- Transcribes `RocksDBStorage::RollbackKeys`. -/
def RollbackKeys (s : RocksDBStorage) : RocksDBStorage :=
  { s with pending4set_ := [], pending4del_ := [] }

/-- Transcribes `RocksDBStorage::Get`. -/
def Get {V : Type} (stdHash : Bytes → Nat) (codec : ValueType V) (s : RocksDBStorage)
    (name key : Bytes) (ordered : Bool) : Status × Option V :=
  if !s.inited_ then (Status.DBClosed, none) else
  let iname := ToInternalName name ordered
  let ikey := ToInternalKey stdHash iname key
  if !s.InTransaction_ && !Counter.Find stdHash s.counter_ iname ikey then
    (Status.NotFound, none)
  else
    let handle := GetColumnFamilyHandle ordered
    let r := if s.InTransaction_ then txnGet s.db_ s.txn_ handle ikey
             else dbGet s.db_ handle ikey
    if r.1 = RocksStatus.ok then
      match codec.ParseFromString r.2 with
      | some v => (ToStorageStatus r.1, some v)
      | none => (Status.ParsedFailed, none)
    else (ToStorageStatus r.1, none)

/-- Transcribes `RocksDBStorage::Set`. -/
def Set {V : Type} (stdHash : Bytes → Nat) (codec : ValueType V) (s : RocksDBStorage)
    (name key : Bytes) (value : V) (ordered : Bool) : Status × RocksDBStorage :=
  if !s.inited_ then (Status.DBClosed, s) else
  match codec.SerializeToString value with
  | none => (Status.SerializedFailed, s)
  | some svalue =>
    let handle := GetColumnFamilyHandle ordered
    let iname := ToInternalName name ordered
    let ikey := ToInternalKey stdHash iname key
    if s.InTransaction_ then
      (ToStorageStatus RocksStatus.ok,
        { s with txn_ := s.txn_ ++ [(handle, ikey, some svalue)]
                 pending4set_ := s.pending4set_ ++ [(iname, ikey)] })
    else
      (ToStorageStatus RocksStatus.ok,
        { s with db_ := dbPut s.db_ handle ikey svalue
                 counter_ := Counter.Insert stdHash s.counter_ iname ikey })

/-- Transcribes `RocksDBStorage::Del`. -/
def Del (stdHash : Bytes → Nat) (s : RocksDBStorage) (name key : Bytes) (ordered : Bool) :
    Status × RocksDBStorage :=
  if !s.inited_ then (Status.DBClosed, s) else
  let iname := ToInternalName name ordered
  let ikey := ToInternalKey stdHash iname key
  if !s.InTransaction_ && !Counter.Find stdHash s.counter_ iname ikey then
    (Status.NotFound, s)
  else
    let handle := GetColumnFamilyHandle ordered
    if s.InTransaction_ then
      (ToStorageStatus RocksStatus.ok,
        { s with txn_ := s.txn_ ++ [(handle, ikey, none)]
                 pending4del_ := s.pending4del_ ++ [(iname, ikey)] })
    else
      (ToStorageStatus RocksStatus.ok,
        { s with db_ := dbDelete s.db_ handle ikey
                 counter_ := Counter.Erase stdHash s.counter_ iname ikey })

/-- Transcribes `RocksDBStorage::Clear`. -/
def Clear (stdHash : Bytes → Nat) (s : RocksDBStorage) (name : Bytes) (ordered : Bool) :
    Status × RocksDBStorage :=
  if !s.inited_ then (Status.DBClosed, s)
  else if s.InTransaction_ then (Status.NotSupported, s)
  else
    let handle := GetColumnFamilyHandle ordered
    let iname := ToInternalName name ordered
    let beginKey := ToInternalKey stdHash iname []
    let beginNum := BinrayString2Number beginKey
    let endKey := FormatInternalKey ((beginNum + 1) % 2 ^ 64) []
    (ToStorageStatus RocksStatus.ok,
      { s with db_ := dbDeleteRange s.db_ handle beginKey endKey
               counter_ := Counter.Clear s.counter_ iname })

/-- Transcribes `RocksDBStorage::BeginTransaction` when the engine hands out a
transaction: the journals of the storage are cleared and a handle sharing its database
and counter is made, with `InTransaction_` set and empty journals. -/
def BeginTransaction (s : RocksDBStorage) : RocksDBStorage :=
  { s with InTransaction_ := true, txn_ := [], pending4set_ := [], pending4del_ := [] }

/-- Transcribes `RocksDBStorage::Commit`; `engine` is the status of `txn_->Commit()`, which
applies the buffered writes when it is ok. -/
def Commit (stdHash : Bytes → Nat) (s : RocksDBStorage) (engine : RocksStatus) :
    Status × RocksDBStorage :=
  if !s.InTransaction_ then (Status.NotSupported, s)
  else if engine ≠ RocksStatus.ok then (ToStorageStatus engine, { s with txn_ := [] })
  else
    (ToStorageStatus engine,
      CommitKeys stdHash { s with db_ := txnCommit s.db_ s.txn_, txn_ := [] })

/-- Transcribes `RocksDBStorage::Rollback`; `engine` is the status of `txn_->Rollback()`. -/
def Rollback (s : RocksDBStorage) (engine : RocksStatus) : Status × RocksDBStorage :=
  if !s.InTransaction_ then (Status.NotSupported, s)
  else if engine ≠ RocksStatus.ok then (ToStorageStatus engine, { s with txn_ := [] })
  else (ToStorageStatus engine, RollbackKeys { s with txn_ := [] })

/-- The storage a transaction handle was made from, as it sees the shared
database and counter after the handle has been used. -/
def parent (s : RocksDBStorage) : RocksDBStorage :=
  { s with InTransaction_ := false, txn_ := [], pending4set_ := [], pending4del_ := [] }

end RocksDBStorage

/-- One operation issued on a transaction handle. -/
inductive TxnOp (V : Type) where
  | Set (name key : Bytes) (value : V) (ordered : Bool)
  | Del (name key : Bytes) (ordered : Bool)

/-- Issue the operations in order on a handle, ignoring their statuses. -/
def runOps {V : Type} (stdHash : Bytes → Nat) (codec : ValueType V) :
    RocksDBStorage → List (TxnOp V) → RocksDBStorage
  | s, [] => s
  | s, TxnOp.Set name key value ordered :: rest =>
    runOps stdHash codec (RocksDBStorage.Set stdHash codec s name key value ordered).2 rest
  | s, TxnOp.Del name key ordered :: rest =>
    runOps stdHash codec (RocksDBStorage.Del stdHash s name key ordered).2 rest

/-- A freshly opened storage with an empty database. -/
def emptyStorage : RocksDBStorage :=
  { inited_ := true, InTransaction_ := false, db_ := fun _ _ => none, txn_ := [],
    counter_ := fun _ => [], pending4set_ := [], pending4del_ := [] }

/-- Values that are byte strings and serialize to themselves. -/
def bytesCodec : ValueType Bytes :=
  { SerializeToString := fun v => some v, ParseFromString := fun b => some b }

/-- A sample string hash (multiply by 31 and add, starting from 7). -/
def sampleHash (key : Bytes) : Nat :=
  key.foldl (fun acc b => (acc * 31 + b) % 2 ^ 64) 7

/-- A string hash under which all keys collide: it is 0 everywhere. -/
def collidingHash (_ : Bytes) : Nat := 0

end storage
end metaserver
end curvefs

namespace curvefs
namespace metaserver

/-! ## The meta store (`metastore.cpp`)

`MetaStoreImpl` keeps the partitions in `partitionMap_` and hands every request
to the partition it addresses.  The code of `Partition` is not among the
sources: its methods are collaborators whose answers are arbitrary and whose
invocations are recorded. -/

/-- The status codes of `MetaStatusCode` that the modelled handlers name, and the
others that a partition may answer. -/
inductive MetaStatusCode where
  | OK
  | UNKNOWN_ERROR
  | PARAM_ERROR
  | NOT_FOUND
  | INODE_EXIST
  | DENTRY_EXIST
  | PARTITION_NOT_FOUND
  | PARTITION_EXIST
  | PARTITION_DELETING
  | PARTITION_ID_MISSMATCH
  | STORAGE_INTERNAL_ERROR
  | INODE_S3_META_TOO_LARGE
  | RPC_STREAM_ERROR
  | SAVE_META_FAIL
  deriving DecidableEq, Repr

/-- One chunk-info record of an S3 file. -/
structure S3ChunkInfo where
  chunkId : Nat
  compaction : Nat
  offset : Nat
  len : Nat
  size : Nat
  zero : Bool
  deriving DecidableEq, Repr

/-- The message `S3ChunkInfoList`. -/
abbrev S3ChunkInfoList := List S3ChunkInfo

/-- The map field `s3chunkinfomap`, from chunk index to chunk-info list. -/
abbrev S3ChunkInfoMap := List (Nat × S3ChunkInfoList)

/-- One extent of a volume file, and the map field `volumeextentmap`. -/
abbrev VolumeExtentMap := List (Nat × List (Nat × Nat))

/-- The fields of the `Inode` message that the modelled handlers touch. -/
structure Inode where
  fsid : Nat
  inodeid : Nat
  length : Nat
  nlink : Nat
  s3chunkinfomap : S3ChunkInfoMap
  volumeextentmap : VolumeExtentMap
  deriving DecidableEq, Repr

/-- The message `GetInodeRequest`; `supportstreaming` is false when absent. -/
structure GetInodeRequest where
  partitionid : Nat
  fsid : Nat
  inodeid : Nat
  supportstreaming : Bool
  deriving DecidableEq, Repr

/-- The message `GetInodeResponse`, each optional field absent or set. -/
structure GetInodeResponse where
  statuscode : Option MetaStatusCode
  inode : Option Inode
  streaming : Option Bool
  deriving DecidableEq, Repr

/-- The message `UpdateInodeRequest`, as far as the handler reads it, and the
attributes it carries for the partition. -/
structure UpdateInodeRequest where
  partitionid : Nat
  fsid : Nat
  inodeid : Nat
  length : Option Nat
  nlink : Option Nat
  volumeextentmap : VolumeExtentMap
  s3chunkinfomap : S3ChunkInfoMap
  deriving DecidableEq, Repr

/-- The message `UpdateInodeResponse`. -/
structure UpdateInodeResponse where
  statuscode : Option MetaStatusCode
  deriving DecidableEq, Repr

/-- The values of `PartitionStatus`. -/
inductive PartitionStatus where
  | READWRITE
  | READONLY
  | DELETING
  deriving DecidableEq, Repr

/-- The message `PartitionInfo`, as far as the handlers read it. -/
structure PartitionInfo where
  fsid : Nat
  poolid : Nat
  copysetid : Nat
  partitionid : Nat
  start : Nat
  end_ : Nat
  status : PartitionStatus
  deriving DecidableEq, Repr

/-- A partition: its id, the inodes it stores, by file system and inode id, the
status that `GetStatus` reads and `SetStatus` writes, and the dentries it
stores, by parent and name. -/
structure Partition where
  partitionId : Nat
  inodes : Nat → Nat → Option Inode
  status : PartitionStatus := PartitionStatus.READWRITE
  dentries : Nat → String → Option Nat := fun _ _ => none

/-- One invocation of a method of a partition together with the status it
answered, or one invocation of the trash manager or of the partition clean
manager, which are process-wide. -/
inductive PartitionCall where
  | GetInode (partitionId fsId inodeId : Nat) (rc : MetaStatusCode)
  | PaddingInodeS3ChunkInfo (partitionId fsId inodeId limit : Nat) (rc : MetaStatusCode)
  | UpdateInode (partitionId : Nat) (request : UpdateInodeRequest) (rc : MetaStatusCode)
  | GetOrModifyS3ChunkInfo (partitionId fsId inodeId : Nat) (rc : MetaStatusCode)
  | ClearDentry (partitionId : Nat)
  | ClearS3Compact (partitionId : Nat)
  | TrashManagerRemove (partitionId : Nat)
  | PartitionCleanManagerAdd (partitionId : Nat)
  | PartitionCleanManagerRemove (partitionId : Nat)
  deriving DecidableEq, Repr

/-- Answers of the methods of `Partition`.  `GetInode` fills in the inode message
it is given, `PaddingInodeS3ChunkInfo` fills in the chunk-info map it is given,
`UpdateInode`, `GetOrModifyS3ChunkInfo`, `ClearDentry` and `ClearS3Compact` may
change the partition, `make` is the constructor and `IsDeletable` a query that
is not recorded. -/
structure PartitionMethods where
  GetInode : List PartitionCall → Partition → Nat → Nat → Inode → MetaStatusCode × Inode
  PaddingInodeS3ChunkInfo : List PartitionCall → Partition → Nat → Nat → S3ChunkInfoMap → Nat →
    MetaStatusCode × S3ChunkInfoMap
  UpdateInode : List PartitionCall → Partition → UpdateInodeRequest →
    MetaStatusCode × Partition
  GetOrModifyS3ChunkInfo : List PartitionCall → Partition → Nat → Nat → S3ChunkInfoMap →
    S3ChunkInfoMap → Bool → MetaStatusCode × Partition
  ClearDentry : List PartitionCall → Partition → Partition
  ClearS3Compact : List PartitionCall → Partition → Partition
  make : PartitionInfo → Partition
  IsDeletable : Partition → Bool

/-- The message `CreatePartitionRequest`. -/
structure CreatePartitionRequest where
  partition : PartitionInfo
  deriving DecidableEq, Repr

/-- The message `CreatePartitionResponse`. -/
structure CreatePartitionResponse where
  statuscode : Option MetaStatusCode
  deriving DecidableEq, Repr

/-- The message `DeletePartitionRequest`. -/
structure DeletePartitionRequest where
  partitionid : Nat
  deriving DecidableEq, Repr

/-- The message `DeletePartitionResponse`. -/
structure DeletePartitionResponse where
  statuscode : Option MetaStatusCode
  deriving DecidableEq, Repr

/-- The message `GetOrModifyS3ChunkInfoRequest`; the two flags are false when
absent. -/
structure GetOrModifyS3ChunkInfoRequest where
  partitionid : Nat
  fsid : Nat
  inodeid : Nat
  s3chunkinfoadd : S3ChunkInfoMap
  s3chunkinforemove : S3ChunkInfoMap
  returns3chunkinfomap : Bool
  supportstreaming : Bool
  deriving DecidableEq, Repr

/-- The message `GetOrModifyS3ChunkInfoResponse`. -/
structure GetOrModifyS3ChunkInfoResponse where
  statuscode : Option MetaStatusCode
  s3chunkinfomap : S3ChunkInfoMap
  deriving DecidableEq, Repr

/-- Models `std::to_string` of an unsigned number as bytes: the codes of its
decimal digits. -/
def to_string (n : Nat) : List Nat :=
  (toString n).toList.map Char.toNat

/-- The state of a `MetaStoreImpl`: the partition map, the option
`s3MetaLimitSizeInsideInode` of `kvStorage_`, the partition methods and the
invocations made so far. -/
structure MetaStoreImpl where
  partitionMap_ : Nat → Option Partition
  s3MetaLimitSizeInsideInode : Nat
  methods : PartitionMethods
  calls : List PartitionCall

namespace MetaStoreImpl

/-- Transcribes `MetaStoreImpl::GetPartition`; `none` is `nullptr`. -/
def GetPartition (m : MetaStoreImpl) (partitionId : Nat) : Option Partition :=
  m.partitionMap_ partitionId

/-- Transcribes `MetaStoreImpl::GetInode`.  `mutable_inode()` yields the inode
of the response, an empty message when the field was absent. -/
def GetInode (m : MetaStoreImpl) (request : GetInodeRequest) (response : GetInodeResponse) :
    MetaStatusCode × GetInodeResponse × MetaStoreImpl :=
  let fsId := request.fsid
  let inodeId := request.inodeid
  match m.GetPartition request.partitionid with
  | none =>
    let status := MetaStatusCode.PARTITION_NOT_FOUND
    (status, { response with statuscode := some status }, m)
  | some partition =>
    let inode := response.inode.getD
      { fsid := 0, inodeid := 0, length := 0, nlink := 0, s3chunkinfomap := [],
        volumeextentmap := [] }
    let g := m.methods.GetInode m.calls partition fsId inodeId inode
    let calls := m.calls ++ [PartitionCall.GetInode partition.partitionId fsId inodeId g.1]
    let response := { response with inode := some g.2 }
    let p : MetaStatusCode × GetInodeResponse × List PartitionCall :=
      if g.1 = MetaStatusCode.OK then
        let limit := if request.supportstreaming = true then m.s3MetaLimitSizeInsideInode else 0
        let pad := m.methods.PaddingInodeS3ChunkInfo calls partition fsId inodeId
          g.2.s3chunkinfomap limit
        let calls := calls ++
          [PartitionCall.PaddingInodeS3ChunkInfo partition.partitionId fsId inodeId limit pad.1]
        let response := { response with inode := some { g.2 with s3chunkinfomap := pad.2 } }
        if pad.1 = MetaStatusCode.INODE_S3_META_TOO_LARGE then
          (MetaStatusCode.OK, { response with streaming := some true }, calls)
        else (pad.1, response, calls)
      else (g.1, response, calls)
    let response := if p.1 ≠ MetaStatusCode.OK then { p.2.1 with inode := none } else p.2.1
    (p.1, { response with statuscode := some p.1 }, { m with calls := p.2.2 })

/-- Transcribes `MetaStoreImpl::UpdateInode`. -/
def UpdateInode (m : MetaStoreImpl) (request : UpdateInodeRequest)
    (response : UpdateInodeResponse) : MetaStatusCode × UpdateInodeResponse × MetaStoreImpl :=
  if ¬ request.volumeextentmap = [] ∧ ¬ request.s3chunkinfomap = [] then
    (MetaStatusCode.PARAM_ERROR, { response with statuscode := some MetaStatusCode.PARAM_ERROR },
      m)
  else
  match m.GetPartition request.partitionid with
  | none =>
    let status := MetaStatusCode.PARTITION_NOT_FOUND
    (status, { response with statuscode := some status }, m)
  | some partition =>
    let u := m.methods.UpdateInode m.calls partition request
    (u.1, { response with statuscode := some u.1 },
      { m with
        partitionMap_ := Function.update m.partitionMap_ request.partitionid (some u.2)
        calls := m.calls ++ [PartitionCall.UpdateInode partition.partitionId request u.1] })

/-- Transcribes `MetaStoreImpl::CreatePartition`; the constructor of `Partition`
is the collaborator `make`. -/
def CreatePartition (m : MetaStoreImpl) (request : CreatePartitionRequest)
    (response : CreatePartitionResponse) :
    MetaStatusCode × CreatePartitionResponse × MetaStoreImpl :=
  let partition := request.partition
  match m.partitionMap_ partition.partitionid with
  | some _ =>
    let status := MetaStatusCode.OK
    (status, { response with statuscode := some status }, m)
  | none =>
    (MetaStatusCode.OK, { response with statuscode := some MetaStatusCode.OK },
      { m with
        partitionMap_ :=
          Function.update m.partitionMap_ partition.partitionid
            (some (m.methods.make partition)) })

/-- Transcribes `MetaStoreImpl::DeletePartition`.  `GetStatus` and `SetStatus`
read and write the status of the partition. -/
def DeletePartition (m : MetaStoreImpl) (request : DeletePartitionRequest)
    (response : DeletePartitionResponse) :
    MetaStatusCode × DeletePartitionResponse × MetaStoreImpl :=
  let partitionId := request.partitionid
  match m.partitionMap_ partitionId with
  | none =>
    (MetaStatusCode.PARTITION_NOT_FOUND,
      { response with statuscode := some MetaStatusCode.PARTITION_NOT_FOUND }, m)
  | some partition =>
    if m.methods.IsDeletable partition = true then
      let calls := m.calls ++ [PartitionCall.TrashManagerRemove partitionId]
      let calls := calls ++ [PartitionCall.ClearS3Compact partition.partitionId]
      let calls := calls ++ [PartitionCall.PartitionCleanManagerRemove partitionId]
      (MetaStatusCode.OK, { response with statuscode := some MetaStatusCode.OK },
        { m with
          partitionMap_ := Function.update m.partitionMap_ partitionId none
          calls := calls })
    else
      let m :=
        if partition.status ≠ PartitionStatus.DELETING then
          let p := m.methods.ClearDentry m.calls partition
          let calls := m.calls ++ [PartitionCall.ClearDentry partition.partitionId]
          let calls := calls ++ [PartitionCall.PartitionCleanManagerAdd partitionId]
          let p := { p with status := PartitionStatus.DELETING }
          let calls := calls ++ [PartitionCall.TrashManagerRemove partitionId]
          let p := m.methods.ClearS3Compact calls p
          let calls := calls ++ [PartitionCall.ClearS3Compact partition.partitionId]
          { m with
            partitionMap_ := Function.update m.partitionMap_ partitionId (some p)
            calls := calls }
        else m
      (MetaStatusCode.PARTITION_DELETING,
        { response with statuscode := some MetaStatusCode.PARTITION_DELETING }, m)

/-- Transcribes `MetaStoreImpl::GetOrModifyS3ChunkInfo`; the iterator that the
partition hands back through the last parameter is left out. -/
def GetOrModifyS3ChunkInfo (m : MetaStoreImpl) (request : GetOrModifyS3ChunkInfoRequest)
    (response : GetOrModifyS3ChunkInfoResponse) :
    MetaStatusCode × GetOrModifyS3ChunkInfoResponse × MetaStoreImpl :=
  match m.GetPartition request.partitionid with
  | none =>
    let rc := MetaStatusCode.PARTITION_NOT_FOUND
    (rc, { response with statuscode := some rc }, m)
  | some partition =>
    let fsId := request.fsid
    let inodeId := request.inodeid
    let g := m.methods.GetOrModifyS3ChunkInfo m.calls partition fsId inodeId
      request.s3chunkinfoadd request.s3chunkinforemove request.returns3chunkinfomap
    let calls := m.calls ++
      [PartitionCall.GetOrModifyS3ChunkInfo partition.partitionId fsId inodeId g.1]
    let partition := g.2
    let s1 : MetaStatusCode × S3ChunkInfoMap × List PartitionCall :=
      if g.1 = MetaStatusCode.OK ∧ ¬ request.supportstreaming = true then
        let pad := m.methods.PaddingInodeS3ChunkInfo calls partition fsId inodeId
          response.s3chunkinfomap 0
        (pad.1, pad.2,
          calls ++
            [PartitionCall.PaddingInodeS3ChunkInfo partition.partitionId fsId inodeId 0 pad.1])
      else (g.1, response.s3chunkinfomap, calls)
    let s2 : MetaStatusCode × S3ChunkInfoMap × List PartitionCall :=
      if s1.1 = MetaStatusCode.OK ∧ ¬ request.supportstreaming = true then
        let pad := m.methods.PaddingInodeS3ChunkInfo s1.2.2 partition request.fsid
          request.inodeid s1.2.1 0
        (pad.1, pad.2,
          s1.2.2 ++
            [PartitionCall.PaddingInodeS3ChunkInfo partition.partitionId request.fsid
              request.inodeid 0 pad.1])
      else s1
    (s2.1, { response with s3chunkinfomap := s2.2.1, statuscode := some s2.1 },
      { m with
        partitionMap_ := Function.update m.partitionMap_ request.partitionid (some partition)
        calls := s2.2.2 })

/-- Transcribes `MetaStoreImpl::PrepareStreamBuffer`: the buffer is cleared and
filled with the chunk index in decimal, a colon and the value. -/
def PrepareStreamBuffer (chunkIndex : Nat) (value : List Nat) : List Nat :=
  to_string chunkIndex ++ [58] ++ value

end MetaStoreImpl

/-- Partition methods that find every inode, pad nothing and store nothing; a
new partition is empty and no partition is deletable. -/
def okMethods : PartitionMethods :=
  { GetInode := fun _ _ fsId inodeId inode =>
      (MetaStatusCode.OK, { inode with fsid := fsId, inodeid := inodeId })
    PaddingInodeS3ChunkInfo := fun _ _ _ _ m _ => (MetaStatusCode.OK, m)
    UpdateInode := fun _ p _ => (MetaStatusCode.OK, p)
    GetOrModifyS3ChunkInfo := fun _ p _ _ _ _ _ => (MetaStatusCode.OK, p)
    ClearDentry := fun _ p => { p with dentries := fun _ _ => none }
    ClearS3Compact := fun _ p => p
    make := fun info =>
      { partitionId := info.partitionid, inodes := fun _ _ => none, status := info.status }
    IsDeletable := fun _ => false }

/-- A meta store with the one partition 1, which is empty, and an inside-inode
limit of 100 bytes. -/
def testStore : MetaStoreImpl :=
  { partitionMap_ := fun id =>
      if id = 1 then some { partitionId := 1, inodes := fun _ _ => none } else none
    s3MetaLimitSizeInsideInode := 100
    methods := okMethods
    calls := [] }

/-- The store `testStore` with partitions whose chunk-info does not fit into the
inode. -/
def largeStore : MetaStoreImpl :=
  { testStore with
    methods :=
      { okMethods with
        PaddingInodeS3ChunkInfo := fun _ _ _ _ m _ =>
          (MetaStatusCode.INODE_S3_META_TOO_LARGE, m) } }

/-- The chunk-info list that the partitions of `paddingStore` store for every
inode under chunk index 0. -/
def storedChunks : S3ChunkInfoList :=
  [{ chunkId := 1, compaction := 0, offset := 0, len := 4096, size := 4096, zero := false }]

/-- The store `testStore` with partitions whose `PaddingInodeS3ChunkInfo` does
what the padding is for (its code, `inode_storage.cpp`, is not among the
sources): it appends the chunk-info list stored for the inode to the list the
map holds under the same chunk index. -/
def paddingStore : MetaStoreImpl :=
  { testStore with
    methods :=
      { okMethods with
        PaddingInodeS3ChunkInfo := fun _ _ _ _ m _ =>
          (MetaStatusCode.OK,
            match m.lookup 0 with
            | none => m ++ [(0, storedChunks)]
            | some l => m.map fun kv => if kv.1 = 0 then (kv.1, l ++ storedChunks) else kv) } }

/-! ## The chunk-info byte counter of `InodeStorage` (`inode_storage.h`) -/

/-- The number that a string of decimal digits stands for. -/
def decimalValue (cs : List Char) : Nat :=
  cs.foldl (fun a c => 10 * a + (c.toNat - 48)) 0

/-- The member `inodeS3MetaSize_` of `InodeStorage`, a hash map from key to
`uint64_t`; the other members play no part in the counter. -/
structure InodeStorage where
  inodeS3MetaSize_ : String → Option Nat

namespace InodeStorage

/-- Transcribes `InodeStorage::InodeS3MetaSizeKey`: both numbers are written in
decimal with a colon in between. -/
def InodeS3MetaSizeKey (fsId inodeId : Nat) : String :=
  toString fsId ++ ":" ++ toString inodeId

/-- Models `operator[]` of the hash map: the value under the key, after a zero
was stored under a key that was absent. -/
def index (m : String → Option Nat) (key : String) : Nat × (String → Option Nat) :=
  match m key with
  | some v => (v, m)
  | none => (0, Function.update m key (some 0))

/-- Transcribes `InodeStorage::UpdateInodeS3MetaSize`; the sum is made in
`uint64_t`. -/
def UpdateInodeS3MetaSize (s : InodeStorage) (fsId inodeId size4add size4del : Nat) :
    Bool × InodeStorage :=
  let key := InodeS3MetaSizeKey fsId inodeId
  let r := index s.inodeS3MetaSize_ key
  let size := (r.1 + size4add) % 2 ^ 64
  if size < size4del then (false, { s with inodeS3MetaSize_ := r.2 })
  else
    (true, { s with inodeS3MetaSize_ := Function.update r.2 key (some (size - size4del)) })

/-- Transcribes `InodeStorage::GetInodeS3MetaSize`. -/
def GetInodeS3MetaSize (s : InodeStorage) (fsId inodeId : Nat) : Nat × InodeStorage :=
  let key := InodeS3MetaSizeKey fsId inodeId
  let r := index s.inodeS3MetaSize_ key
  (r.1, { s with inodeS3MetaSize_ := r.2 })

end InodeStorage

end metaserver
end curvefs

namespace curvefs
namespace client
namespace rpcclient

open metaserver (MetaStatusCode S3ChunkInfo S3ChunkInfoList S3ChunkInfoMap)

/-! ## The metaserver client (`metaserver_client.cpp`)

A task is the closure that the task executor invokes, perhaps more than once,
with the pool, copyset and partition it has chosen.  The RPC stub is a
collaborator that answers a request with the state of the controller and a
response.  The numbers of the status codes are given by `metaserver.proto`,
which is not among the sources, and are passed in as `value`. -/

/-- Models `butil::IOBuf::cut_until`: the bytes before the first occurrence of
the delimiter and the bytes after it, or nothing when the delimiter is empty
or does not occur. -/
def cut_until : List Nat → List Nat → Option (List Nat × List Nat)
  | _, [] => none
  | [], _ :: _ => none
  | b :: rest, d :: ds =>
    if (d :: ds).isPrefixOf (b :: rest) = true then some ([], (b :: rest).drop (d :: ds).length)
    else (cut_until rest (d :: ds)).map fun p => (b :: p.1, p.2)

/-- Transcribes `MetaServerClientImpl::ParseS3MetaStreamBuffer`; the result is
`none` for `false` and otherwise what was stored through `chunkIndex` and
`list`.  `StringToUll` (`string_util.h`) and `brpc::ParsePbFromIOBuf` are not
among the sources and are passed in. -/
def ParseS3MetaStreamBuffer (StringToUll : List Nat → Option Nat)
    (ParsePbFromIOBuf : List Nat → Option S3ChunkInfoList) (buffer : List Nat) :
    Option (Nat × S3ChunkInfoList) :=
  match cut_until buffer [58] with
  | none => none
  | some (out, buffer) =>
    match StringToUll out with
    | none => none
    | some chunkIndex =>
      match ParsePbFromIOBuf buffer with
      | none => none
      | some list => some (chunkIndex, list)

/-- Transcribes `MetaServerClientImpl::HandleS3MetaStreamBuffer`. -/
def HandleS3MetaStreamBuffer (StringToUll : List Nat → Option Nat)
    (ParsePbFromIOBuf : List Nat → Option S3ChunkInfoList) (buffer : List Nat)
    (out : S3ChunkInfoMap) : Bool × S3ChunkInfoMap :=
  match ParseS3MetaStreamBuffer StringToUll ParsePbFromIOBuf buffer with
  | none => (false, out)
  | some (chunkIndex, list) =>
    match out.lookup chunkIndex with
    | none => (true, out ++ [(chunkIndex, list)])
    | some _ =>
      (true, out.map fun kv => if kv.1 = chunkIndex then (kv.1, kv.2 ++ list) else kv)

/-- The chunk-infos of the well-formed frames with chunk index `c`, in the
order of arrival. -/
def frameChunks (StringToUll : List Nat → Option Nat)
    (ParsePbFromIOBuf : List Nat → Option S3ChunkInfoList) (c : Nat)
    (frames : List (List Nat)) : List S3ChunkInfoList :=
  ((frames.filterMap (ParseS3MetaStreamBuffer StringToUll ParsePbFromIOBuf)).filter
    fun p => p.1 = c).map fun p => p.2

/-- The state of the controller after the call: whether it failed, and its
error code. -/
structure Controller where
  Failed : Bool
  ErrorCode : Nat
  deriving DecidableEq, Repr

/-- The meta cache as the tasks use it: `GetApplyIndex` may depend on the
updates made so far, and every `UpdateApplyIndex(CopysetGroupID(poolID,
copysetID), index)` is recorded. -/
structure MetaCache where
  GetApplyIndex : List (Nat × Nat × Nat) → Nat → Nat → Nat
  updates : List (Nat × Nat × Nat)

namespace MetaCache

/-- Call `metaCache_->UpdateApplyIndex`. -/
def UpdateApplyIndex (c : MetaCache) (poolID copysetID index : Nat) : MetaCache :=
  { c with updates := c.updates ++ [(poolID, copysetID, index)] }

end MetaCache

/-- The message `GetDentryRequest`. -/
structure GetDentryRequest where
  poolid : Nat
  copysetid : Nat
  partitionid : Nat
  fsid : Nat
  parentinodeid : Nat
  name : String
  txid : Nat
  appliedindex : Nat
  deriving DecidableEq, Repr

/-- The message `GetDentryResponse`. -/
structure GetDentryResponse where
  statuscode : MetaStatusCode
  dentry : Option Dentry
  appliedindex : Option Nat
  deriving DecidableEq, Repr

/-- The message `ListDentryRequest`. -/
structure ListDentryRequest where
  poolid : Nat
  copysetid : Nat
  partitionid : Nat
  fsid : Nat
  dirinodeid : Nat
  txid : Nat
  last : String
  count : Nat
  onlydir : Bool
  appliedindex : Nat
  deriving DecidableEq, Repr

/-- The message `ListDentryResponse`. -/
structure ListDentryResponse where
  statuscode : MetaStatusCode
  dentrys : List Dentry
  appliedindex : Option Nat
  deriving DecidableEq, Repr

/-- The message `CreateDentryRequest`. -/
structure CreateDentryRequest where
  poolid : Nat
  copysetid : Nat
  partitionid : Nat
  dentry : Dentry
  deriving DecidableEq, Repr

/-- The message `CreateDentryResponse`. -/
structure CreateDentryResponse where
  statuscode : MetaStatusCode
  appliedindex : Option Nat
  deriving DecidableEq, Repr

/-- The message `GetInodeRequest`. -/
structure GetInodeRequest where
  poolid : Nat
  copysetid : Nat
  partitionid : Nat
  fsid : Nat
  inodeid : Nat
  appliedindex : Nat
  supportstreaming : Bool
  deriving DecidableEq, Repr

/-- The message `GetInodeResponse`. -/
structure GetInodeResponse where
  statuscode : MetaStatusCode
  inode : Option Inode
  appliedindex : Option Nat
  streaming : Option Bool
  deriving DecidableEq, Repr

/-- The message `CreateInodeRequest`. -/
structure CreateInodeRequest where
  poolid : Nat
  copysetid : Nat
  partitionid : Nat
  fsid : Nat
  length : Nat
  uid : Nat
  gid : Nat
  mode : Nat
  type : FsFileType
  rdev : Nat
  symlink : String
  parent : Nat
  deriving DecidableEq, Repr

/-- The message `CreateInodeResponse`. -/
structure CreateInodeResponse where
  statuscode : MetaStatusCode
  inode : Option Inode
  appliedindex : Option Nat
  deriving DecidableEq, Repr

/-- The message `BatchGetInodeAttrRequest`. -/
structure BatchGetInodeAttrRequest where
  poolid : Nat
  copysetid : Nat
  partitionid : Nat
  fsid : Nat
  appliedindex : Nat
  inodeid : List Nat
  deriving DecidableEq, Repr

/-- The message `BatchGetInodeAttrResponse`; an attribute record is an inode
without its maps. -/
structure BatchGetInodeAttrResponse where
  statuscode : MetaStatusCode
  attr : List Inode
  appliedindex : Option Nat
  deriving DecidableEq, Repr

namespace MetaServerClientImpl

/-- The closure `task` of `MetaServerClientImpl::GetDentry`.  The result is the
`int` returned, `*out` and the meta cache. -/
def GetDentry.task (value : MetaStatusCode → Int) (metaCache_ : MetaCache)
    (stub : GetDentryRequest → Controller × GetDentryResponse) (fsId inodeid : Nat)
    (name : String) (out : Dentry) (poolID copysetID partitionID txId : Nat) :
    Int × Dentry × MetaCache :=
  let request : GetDentryRequest :=
    { poolid := poolID, copysetid := copysetID, partitionid := partitionID, fsid := fsId
      parentinodeid := inodeid, name := name, txid := txId
      appliedindex := metaCache_.GetApplyIndex metaCache_.updates poolID copysetID }
  let r := stub request
  let cntl := r.1
  let response := r.2
  if cntl.Failed = true then (-(cntl.ErrorCode : Int), out, metaCache_) else
  let ret := response.statuscode
  if ret ≠ MetaStatusCode.OK then (value ret, out, metaCache_)
  else
    match response.dentry, response.appliedindex with
    | some dentry, some appliedindex =>
      (value ret, dentry, metaCache_.UpdateApplyIndex poolID copysetID appliedindex)
    | _, _ => (-1, out, metaCache_)

/-- The closure `task` of `MetaServerClientImpl::ListDentry`. -/
def ListDentry.task (value : MetaStatusCode → Int) (metaCache_ : MetaCache)
    (stub : ListDentryRequest → Controller × ListDentryResponse) (fsId inodeid : Nat)
    (last : String) (count : Nat) (onlyDir : Bool) (dentryList : List Dentry)
    (poolID copysetID partitionID txId : Nat) : Int × List Dentry × MetaCache :=
  let request : ListDentryRequest :=
    { poolid := poolID, copysetid := copysetID, partitionid := partitionID, fsid := fsId
      dirinodeid := inodeid, txid := txId, last := last, count := count, onlydir := onlyDir
      appliedindex := metaCache_.GetApplyIndex metaCache_.updates poolID copysetID }
  let r := stub request
  let cntl := r.1
  let response := r.2
  if cntl.Failed = true then (-(cntl.ErrorCode : Int), dentryList, metaCache_) else
  let ret := response.statuscode
  if ret ≠ MetaStatusCode.OK then (value ret, dentryList, metaCache_)
  else
    match response.appliedindex with
    | some appliedindex =>
      if response.dentrys.length > 0 then
        (value ret, dentryList ++ response.dentrys,
          metaCache_.UpdateApplyIndex poolID copysetID appliedindex)
      else (-1, dentryList, metaCache_)
    | none => (-1, dentryList, metaCache_)

/-- The closure `task` of `MetaServerClientImpl::CreateDentry`; `set_type` is
given `dentry.type()`, which is the first value of the enumeration when the
field is absent. -/
def CreateDentry.task (value : MetaStatusCode → Int) (metaCache_ : MetaCache)
    (stub : CreateDentryRequest → Controller × CreateDentryResponse) (dentry : Dentry)
    (poolID copysetID partitionID txId : Nat) : Int × MetaCache :=
  let request : CreateDentryRequest :=
    { poolid := poolID, copysetid := copysetID, partitionid := partitionID
      dentry :=
        { fsid := dentry.fsid, inodeid := dentry.inodeid
          parentinodeid := dentry.parentinodeid, name := dentry.name, txid := txId
          flag := none, type := some (dentry.type.getD FsFileType.TYPE_DIRECTORY) } }
  let r := stub request
  let cntl := r.1
  let response := r.2
  if cntl.Failed = true then (-(cntl.ErrorCode : Int), metaCache_) else
  let ret := response.statuscode
  if ret ≠ MetaStatusCode.OK then (value ret, metaCache_)
  else
    match response.appliedindex with
    | some appliedindex =>
      (value ret, metaCache_.UpdateApplyIndex poolID copysetID appliedindex)
    | none => (-1, metaCache_)

/-- The closure `task` of `MetaServerClientImpl::GetInode`.  The result is the
`int` returned, `*out`, `*streaming` and the meta cache. -/
def GetInode.task (value : MetaStatusCode → Int) (metaCache_ : MetaCache)
    (stub : GetInodeRequest → Controller × GetInodeResponse) (fsId inodeid : Nat)
    (out : Inode) (streaming : Bool) (poolID copysetID partitionID : Nat) :
    Int × Inode × Bool × MetaCache :=
  let request : GetInodeRequest :=
    { poolid := poolID, copysetid := copysetID, partitionid := partitionID, fsid := fsId
      inodeid := inodeid
      appliedindex := metaCache_.GetApplyIndex metaCache_.updates poolID copysetID
      supportstreaming := true }
  let r := stub request
  let cntl := r.1
  let response := r.2
  if cntl.Failed = true then (-(cntl.ErrorCode : Int), out, streaming, metaCache_) else
  let ret := response.statuscode
  let streaming1 := if response.streaming.isSome then response.streaming.getD false else false
  if ret ≠ MetaStatusCode.OK then (value ret, out, streaming1, metaCache_)
  else
    match response.inode, response.appliedindex with
    | some inode, some appliedindex =>
      (value ret, inode, streaming1, metaCache_.UpdateApplyIndex poolID copysetID appliedindex)
    | _, _ => (-1, out, streaming, metaCache_)

/-- The closure `task` of `MetaServerClientImpl::CreateInode`. -/
def CreateInode.task (value : MetaStatusCode → Int) (metaCache_ : MetaCache)
    (stub : CreateInodeRequest → Controller × CreateInodeResponse) (param : InodeParam)
    (out : Inode) (poolID copysetID partitionID : Nat) : Int × Inode × MetaCache :=
  let request : CreateInodeRequest :=
    { poolid := poolID, copysetid := copysetID, partitionid := partitionID
      fsid := param.fsId, length := param.length, uid := param.uid, gid := param.gid
      mode := param.mode, type := param.type, rdev := param.rdev, symlink := param.symlink
      parent := param.parent }
  let r := stub request
  let cntl := r.1
  let response := r.2
  if cntl.Failed = true then (-(cntl.ErrorCode : Int), out, metaCache_) else
  let ret := response.statuscode
  if ret ≠ MetaStatusCode.OK then (value ret, out, metaCache_)
  else
    match response.inode, response.appliedindex with
    | some inode, some appliedindex =>
      (value ret, inode, metaCache_.UpdateApplyIndex poolID copysetID appliedindex)
    | _, _ => (-1, out, metaCache_)

/-- The loop `while (iter != it.second.end() && batchLimit > 0)` of the batch
tasks: the ids added to the request and the iterator it leaves. -/
def addInodeIds : List Nat → Nat → List Nat → List Nat × List Nat
  | [], _, inodeid => (inodeid, [])
  | x :: rest, 0, inodeid => (inodeid, x :: rest)
  | x :: rest, batchLimit + 1, inodeid => addInodeIds rest batchLimit (inodeid ++ [x])

/-- The closure `task` of `MetaServerClientImpl::BatchGetInodeAttr`.  It captures
by reference the iterator `iter` over the ids of one partition, here the ids
still ahead of it, and the list `attr`.  The result is the `int` returned, the
request handed to the stub, `iter`, `*attr` and the meta cache. -/
def BatchGetInodeAttr.task (value : MetaStatusCode → Int) (limit : Nat)
    (stub : BatchGetInodeAttrRequest → Controller × BatchGetInodeAttrResponse) (fsId : Nat)
    (metaCache_ : MetaCache) (iter : List Nat) (attr : List Inode)
    (poolID copysetID partitionID : Nat) :
    Int × BatchGetInodeAttrRequest × List Nat × List Inode × MetaCache :=
  let batchLimit := limit
  let w := addInodeIds iter batchLimit []
  let request : BatchGetInodeAttrRequest :=
    { poolid := poolID, copysetid := copysetID, partitionid := partitionID, fsid := fsId
      appliedindex := metaCache_.GetApplyIndex metaCache_.updates poolID copysetID
      inodeid := w.1 }
  let iter := w.2
  let r := stub request
  let cntl := r.1
  let response := r.2
  if cntl.Failed = true then (-(cntl.ErrorCode : Int), request, iter, attr, metaCache_) else
  let ret := response.statuscode
  if ret ≠ MetaStatusCode.OK then (value ret, request, iter, attr, metaCache_)
  else
    match response.appliedindex with
    | some appliedindex =>
      if response.attr.length > 0 then
        (value ret, request, iter, attr ++ response.attr,
          metaCache_.UpdateApplyIndex poolID copysetID appliedindex)
      else (-1, request, iter, attr, metaCache_)
    | none => (-1, request, iter, attr, metaCache_)

end MetaServerClientImpl

/-- A meta cache whose apply index is 0 everywhere and that has seen no update. -/
def emptyMetaCache : MetaCache :=
  { GetApplyIndex := fun _ _ _ => 0, updates := [] }

/-- The numbers of the status codes in the order of their declaration, `OK`
being 0. -/
def sampleValue (s : MetaStatusCode) : Int :=
  match s with
  | MetaStatusCode.OK => 0
  | MetaStatusCode.UNKNOWN_ERROR => 1
  | MetaStatusCode.PARAM_ERROR => 2
  | MetaStatusCode.NOT_FOUND => 3
  | MetaStatusCode.INODE_EXIST => 4
  | MetaStatusCode.DENTRY_EXIST => 5
  | MetaStatusCode.PARTITION_NOT_FOUND => 6
  | MetaStatusCode.PARTITION_EXIST => 7
  | MetaStatusCode.PARTITION_DELETING => 8
  | MetaStatusCode.PARTITION_ID_MISSMATCH => 9
  | MetaStatusCode.STORAGE_INTERNAL_ERROR => 10
  | MetaStatusCode.INODE_S3_META_TOO_LARGE => 11
  | MetaStatusCode.RPC_STREAM_ERROR => 12
  | MetaStatusCode.SAVE_META_FAIL => 13

/-- A stub whose call fails on the side of the controller with error code
1008, the code that the RPC library gives a call that timed out; the response
is left as it was built. -/
def timedOutStub (_ : BatchGetInodeAttrRequest) : Controller × BatchGetInodeAttrResponse :=
  ({ Failed := true, ErrorCode := 1008 },
    { statuscode := MetaStatusCode.OK, attr := [], appliedindex := none })

end rpcclient
end client
end curvefs

/-! ## Theorems -/

namespace curvefs
namespace client

open CURVEFS_ERROR

/-- One guarded step either fails, and the operation returns its answer, or
answers `OK`, and the operation goes on from the state it left. -/
theorem RETURN_IF_UNSUCCESS_cases (c : FuseClient) (parent : Nat) (name : String)
    (newparent : Nat) (newname : String) (action : RenameStep)
    (rest : CURVEFS_ERROR → FuseClient → CURVEFS_ERROR × FuseClient) :
    (∃ rc d, rc ≠ OK ∧ d.trace = c.trace ++ [Call.rename action rc] ∧
        c.RETURN_IF_UNSUCCESS parent name newparent newname action rest = (rc, d)) ∨
    (∃ d, d.trace = c.trace ++ [Call.rename action OK] ∧
        d.enableSumInDir_ = c.enableSumInDir_ ∧
        c.RETURN_IF_UNSUCCESS parent name newparent newname action rest = rest OK d) := by
  unfold FuseClient.RETURN_IF_UNSUCCESS
  by_cases h : (c.renameOp parent name newparent newname action).1 = OK
  · right
    refine ⟨(c.renameOp parent name newparent newname action).2, ?_, rfl, ?_⟩
    · simp only [FuseClient.renameOp] at h ⊢
      rw [h]
    · simp only [h, ne_eq, not_true_eq_false, if_false]
  · left
    refine ⟨(c.renameOp parent name newparent newname action).1,
      (c.renameOp parent name newparent newname action).2, h, rfl, ?_⟩
    simp only [ne_eq, h, not_false_eq_true, if_true]

/-- A call whose answer is discarded adds one entry to the log. -/
theorem renameOp__trace (c : FuseClient) (parent : Nat) (name : String)
    (newparent : Nat) (newname : String) (action : RenameStep) :
    ∃ p, (c.renameOp_ parent name newparent newname action).trace =
        c.trace ++ [Call.rename action p] ∧
      (c.renameOp_ parent name newparent newname action).enableSumInDir_ =
        c.enableSumInDir_ :=
  ⟨_, rfl, rfl⟩

/-- The log of a rename whose names pass the length check: the guarded steps up
to the first failure, or all six followed by the post-commit steps. -/
theorem FuseOpRename_trace_cases (c : FuseClient) (parent : Nat) (name : String)
    (newparent : Nat) (newname : String)
    (hname : strlen name ≤ c.option_.maxNameLength)
    (hnew : strlen newname ≤ c.option_.maxNameLength) :
    (∃ n s, protocolSteps.get? n = some s ∧
        (c.FuseOpRename parent name newparent newname).1 ≠ OK ∧
        (c.FuseOpRename parent name newparent newname).2.trace =
          c.trace ++ (protocolSteps.take n).map (fun t => Call.rename t OK) ++
            [Call.rename s (c.FuseOpRename parent name newparent newname).1]) ∨
    ((c.FuseOpRename parent name newparent newname).1 = OK ∧
      ∃ p1 p2 p3 p4,
        (c.FuseOpRename parent name newparent newname).2.trace =
          c.trace ++ protocolSteps.map (fun t => Call.rename t OK) ++
            [Call.rename RenameStep.UnlinkSrcParentInode p1,
             Call.rename RenameStep.UnlinkOldInode p2,
             Call.rename RenameStep.UpdateInodeParent p3,
             Call.rename RenameStep.UpdateCache p4] ++
            (if c.enableSumInDir_ then
              [Call.UpdateParentXattrAfterRename parent newparent newname] else [])) := by
  have hlen : ¬ (strlen name > c.option_.maxNameLength ∨
      strlen newname > c.option_.maxNameLength) := by omega
  unfold FuseClient.FuseOpRename
  rw [if_neg hlen]
  rcases RETURN_IF_UNSUCCESS_cases c parent name newparent newname RenameStep.GetTxId _
    with ⟨rc, d, hrc, htr, heq⟩ | ⟨c1, ht1, hf1, heq⟩ <;> rw [heq]
  · left; exact ⟨0, _, rfl, hrc, by simp [htr, protocolSteps]⟩
  rcases RETURN_IF_UNSUCCESS_cases c1 parent name newparent newname RenameStep.Precheck _
    with ⟨rc, d, hrc, htr, heq⟩ | ⟨c2, ht2, hf2, heq⟩ <;> rw [heq]
  · left; exact ⟨1, _, rfl, hrc, by simp [htr, ht1, protocolSteps]⟩
  rcases RETURN_IF_UNSUCCESS_cases c2 parent name newparent newname
    RenameStep.RecordOldInodeInfo _
    with ⟨rc, d, hrc, htr, heq⟩ | ⟨c3, ht3, hf3, heq⟩ <;> rw [heq]
  · left; exact ⟨2, _, rfl, hrc, by simp [htr, ht1, ht2, protocolSteps]⟩
  rcases RETURN_IF_UNSUCCESS_cases c3 parent name newparent newname
    RenameStep.LinkDestParentInode _
    with ⟨rc, d, hrc, htr, heq⟩ | ⟨c4, ht4, hf4, heq⟩ <;> rw [heq]
  · left; exact ⟨3, _, rfl, hrc, by simp [htr, ht1, ht2, ht3, protocolSteps]⟩
  rcases RETURN_IF_UNSUCCESS_cases c4 parent name newparent newname RenameStep.PrepareTx _
    with ⟨rc, d, hrc, htr, heq⟩ | ⟨c5, ht5, hf5, heq⟩ <;> rw [heq]
  · left; exact ⟨4, _, rfl, hrc, by simp [htr, ht1, ht2, ht3, ht4, protocolSteps]⟩
  rcases RETURN_IF_UNSUCCESS_cases c5 parent name newparent newname RenameStep.CommitTx _
    with ⟨rc, d, hrc, htr, heq⟩ | ⟨c6, ht6, hf6, heq⟩ <;> rw [heq]
  · left; exact ⟨5, _, rfl, hrc, by simp [htr, ht1, ht2, ht3, ht4, ht5, protocolSteps]⟩
  right
  dsimp only
  obtain ⟨p1, hp1, hg1⟩ := renameOp__trace c6 parent name newparent newname
    RenameStep.UnlinkSrcParentInode
  generalize c6.renameOp_ parent name newparent newname
    RenameStep.UnlinkSrcParentInode = c7 at hp1 hg1 ⊢
  obtain ⟨p2, hp2, hg2⟩ := renameOp__trace c7 parent name newparent newname
    RenameStep.UnlinkOldInode
  generalize c7.renameOp_ parent name newparent newname
    RenameStep.UnlinkOldInode = c8 at hp2 hg2 ⊢
  obtain ⟨p3, hp3, hg3⟩ := renameOp__trace c8 parent name newparent newname
    RenameStep.UpdateInodeParent
  generalize c8.renameOp_ parent name newparent newname
    RenameStep.UpdateInodeParent = c9 at hp3 hg3 ⊢
  obtain ⟨p4, hp4, hg4⟩ := renameOp__trace c9 parent name newparent newname
    RenameStep.UpdateCache
  generalize c9.renameOp_ parent name newparent newname
    RenameStep.UpdateCache = c10 at hp4 hg4 ⊢
  have hflag : c10.enableSumInDir_ = c.enableSumInDir_ := by
    rw [hg4, hg3, hg2, hg1, hf6, hf5, hf4, hf3, hf2, hf1]
  refine ⟨rfl, p1, p2, p3, p4, ?_⟩
  simp only [hflag]
  cases c.enableSumInDir_ <;>
    simp [FuseClient.UpdateParentXattrAfterRename, hp4, hp3, hp2, hp1, ht6, ht5, ht4, ht3,
      ht2, ht1, protocolSteps]

/-- The loop over the parents only adds to the log. -/
theorem updateParents_trace (xattr : XAttr) (direction : Bool) (c : FuseClient)
    (parents : List Nat) :
    ∃ rest, (FuseClient.updateParents xattr direction c parents).trace = c.trace ++ rest := by
  induction parents generalizing c with
  | nil => exact ⟨[], by simp [FuseClient.updateParents]⟩
  | cons it rest ih =>
    obtain ⟨l, hl⟩ := ih (c.UpdateParentInodeXattr it xattr direction).2
    refine ⟨Call.UpdateParentInodeXattr it xattr direction
      (c.UpdateParentInodeXattr it xattr direction).1 :: l, ?_⟩
    rw [FuseClient.updateParents, hl]
    simp [FuseClient.UpdateParentInodeXattr, FuseClient.onInode]

/-- The loop over the parents changes nothing but extended attributes. -/
theorem updateParents_inodes (xattr : XAttr) (direction : Bool) (c : FuseClient)
    (parents : List Nat) (j : Nat) :
    ∃ x, (FuseClient.updateParents xattr direction c parents).inodes j =
      { c.inodes j with xattr := x } := by
  induction parents generalizing c with
  | nil => exact ⟨(c.inodes j).xattr, rfl⟩
  | cons it rest ih =>
    obtain ⟨x, hx⟩ := ih (c.UpdateParentInodeXattr it xattr direction).2
    rw [FuseClient.updateParents, hx]
    by_cases hj : j = it
    · subst hj
      exact ⟨x, by simp [FuseClient.UpdateParentInodeXattr, FuseClient.onInode]⟩
    · exact ⟨x, by simp [FuseClient.UpdateParentInodeXattr, FuseClient.onInode, hj]⟩

/-- The loop over the parents keeps every logged invocation. -/
theorem mem_updateParents_trace (xattr : XAttr) (direction : Bool) (c : FuseClient)
    (parents : List Nat) (e : Call) (he : e ∈ c.trace) :
    e ∈ (FuseClient.updateParents xattr direction c parents).trace := by
  obtain ⟨rest, h⟩ := updateParents_trace xattr direction c parents
  rw [h]
  exact List.mem_append_left _ he

/-- The loop over the parents keeps the length of every inode. -/
theorem updateParents_length (xattr : XAttr) (direction : Bool) (c : FuseClient)
    (parents : List Nat) (j : Nat) :
    ((FuseClient.updateParents xattr direction c parents).inodes j).length =
      (c.inodes j).length := by
  obtain ⟨x, h⟩ := updateParents_inodes xattr direction c parents j
  rw [h]

/-- The loop over the parents keeps the times of every inode. -/
theorem updateParents_times (xattr : XAttr) (direction : Bool) (c : FuseClient)
    (parents : List Nat) (j : Nat) :
    ((FuseClient.updateParents xattr direction c parents).inodes j).mtime =
      (c.inodes j).mtime ∧
    ((FuseClient.updateParents xattr direction c parents).inodes j).mtime_ns =
      (c.inodes j).mtime_ns ∧
    ((FuseClient.updateParents xattr direction c parents).inodes j).ctime =
      (c.inodes j).ctime ∧
    ((FuseClient.updateParents xattr direction c parents).inodes j).ctime_ns =
      (c.inodes j).ctime_ns := by
  obtain ⟨x, h⟩ := updateParents_inodes xattr direction c parents j
  rw [h]
  exact ⟨rfl, rfl, rfl, rfl⟩

/-- C1: with both names within the length limit, FuseOpRename invokes the six
guarded steps in program order and stops at the first one whose answer is not
OK, returning exactly that answer with no later step invoked; when all six
answer OK it invokes the four post-commit steps in order and returns OK
whatever they answer. -/
theorem FuseOpRename_protocol (c : FuseClient) (parent : Nat) (name : String)
    (newparent : Nat) (newname : String)
    (hname : strlen name ≤ c.option_.maxNameLength)
    (hnew : strlen newname ≤ c.option_.maxNameLength) :
    (∃ n s, protocolSteps.get? n = some s ∧
        (c.FuseOpRename parent name newparent newname).1 ≠ OK ∧
        (c.FuseOpRename parent name newparent newname).2.trace =
          c.trace ++ (protocolSteps.take n).map (fun t => Call.rename t OK) ++
            [Call.rename s (c.FuseOpRename parent name newparent newname).1]) ∨
    ((c.FuseOpRename parent name newparent newname).1 = OK ∧
      ∃ p1 p2 p3 p4,
        (c.FuseOpRename parent name newparent newname).2.trace =
          c.trace ++ protocolSteps.map (fun t => Call.rename t OK) ++
            [Call.rename RenameStep.UnlinkSrcParentInode p1,
             Call.rename RenameStep.UnlinkOldInode p2,
             Call.rename RenameStep.UpdateInodeParent p3,
             Call.rename RenameStep.UpdateCache p4] ++
            (if c.enableSumInDir_ then
              [Call.UpdateParentXattrAfterRename parent newparent newname] else [])) :=
  FuseOpRename_trace_cases c parent name newparent newname hname hnew

/-- Witness for C1: the rename of (1, A) to (3, B) on the test client. -/
theorem FuseOpRename_protocol_witness :
    (strlen "A" ≤ testClient.option_.maxNameLength ∧
      strlen "B" ≤ testClient.option_.maxNameLength) ∧
    ((∃ n s, protocolSteps.get? n = some s ∧
        (testClient.FuseOpRename 1 "A" 3 "B").1 ≠ OK ∧
        (testClient.FuseOpRename 1 "A" 3 "B").2.trace =
          testClient.trace ++ (protocolSteps.take n).map (fun t => Call.rename t OK) ++
            [Call.rename s (testClient.FuseOpRename 1 "A" 3 "B").1]) ∨
    ((testClient.FuseOpRename 1 "A" 3 "B").1 = OK ∧
      ∃ p1 p2 p3 p4,
        (testClient.FuseOpRename 1 "A" 3 "B").2.trace =
          testClient.trace ++ protocolSteps.map (fun t => Call.rename t OK) ++
            [Call.rename RenameStep.UnlinkSrcParentInode p1,
             Call.rename RenameStep.UnlinkOldInode p2,
             Call.rename RenameStep.UpdateInodeParent p3,
             Call.rename RenameStep.UpdateCache p4] ++
            (if testClient.enableSumInDir_ then
              [Call.UpdateParentXattrAfterRename 1 3 "B"] else []))) :=
  ⟨by decide, FuseOpRename_protocol testClient 1 "A" 3 "B" (by decide) (by decide)⟩

/-- C2 fails as stated: renaming (1, A) onto itself on the test client returns
OK after PrepareTx and CommitTx have both been invoked. -/
theorem FuseOpRename_same_path_counterexample :
    (testClient.FuseOpRename 1 "A" 1 "A").1 = OK ∧
    Call.rename RenameStep.PrepareTx OK ∈ (testClient.FuseOpRename 1 "A" 1 "A").2.trace ∧
    Call.rename RenameStep.CommitTx OK ∈ (testClient.FuseOpRename 1 "A" 1 "A").2.trace := by
  decide

/-- C2 as amended: a rename of a path onto itself (name within the limit) is
not special-cased; it returns OK only after all six guarded steps, PrepareTx
and CommitTx included, were invoked and answered OK, followed by the four
post-commit steps. -/
theorem FuseOpRename_same_path (c : FuseClient) (parent : Nat) (name : String)
    (hname : strlen name ≤ c.option_.maxNameLength)
    (hok : (c.FuseOpRename parent name parent name).1 = OK) :
    ∃ p1 p2 p3 p4,
      (c.FuseOpRename parent name parent name).2.trace =
        c.trace ++ protocolSteps.map (fun t => Call.rename t OK) ++
          [Call.rename RenameStep.UnlinkSrcParentInode p1,
           Call.rename RenameStep.UnlinkOldInode p2,
           Call.rename RenameStep.UpdateInodeParent p3,
           Call.rename RenameStep.UpdateCache p4] ++
          (if c.enableSumInDir_ then
            [Call.UpdateParentXattrAfterRename parent parent name] else []) := by
  rcases FuseOpRename_trace_cases c parent name parent name hname hname with
    ⟨_, _, _, hne, _⟩ | ⟨_, h⟩
  · exact absurd hok hne
  · exact h

/-- Witness for the amended C2: the rename of (1, A) onto itself on the test
client. -/
theorem FuseOpRename_same_path_witness :
    (strlen "A" ≤ testClient.option_.maxNameLength ∧
      (testClient.FuseOpRename 1 "A" 1 "A").1 = OK) ∧
    ∃ p1 p2 p3 p4,
      (testClient.FuseOpRename 1 "A" 1 "A").2.trace =
        testClient.trace ++ protocolSteps.map (fun t => Call.rename t OK) ++
          [Call.rename RenameStep.UnlinkSrcParentInode p1,
           Call.rename RenameStep.UnlinkOldInode p2,
           Call.rename RenameStep.UpdateInodeParent p3,
           Call.rename RenameStep.UpdateCache p4] ++
          (if testClient.enableSumInDir_ then
            [Call.UpdateParentXattrAfterRename 1 1 "A"] else []) :=
  ⟨by decide, FuseOpRename_same_path testClient 1 "A" (by decide) (by decide)⟩

/-! ### The log after one invocation -/

@[simp]
theorem log_trace (c : FuseClient) (e : Call) : (c.log e).trace = c.trace ++ [e] := rfl

@[simp]
theorem setInode_trace (c : FuseClient) (ino : Nat) (i : Inode) :
    (c.setInode ino i).trace = c.trace := rfl

@[simp]
theorem onInode_trace (c : FuseClient) (ino : Nat)
    (method : List Call → Inode → CURVEFS_ERROR × Inode) (event : CURVEFS_ERROR → Call) :
    (c.onInode ino method event).2.trace =
      c.trace ++ [event (c.onInode ino method event).1] := rfl

@[simp]
theorem GetDentry_trace (c : FuseClient) (parent : Nat) (name : String) :
    (c.GetDentry parent name).2.2.trace =
      c.trace ++ [Call.GetDentry parent name (c.GetDentry parent name).1] := rfl

@[simp]
theorem ListDentry_trace (c : FuseClient) (parent limit : Nat) :
    (c.ListDentry parent limit).2.2.trace =
      c.trace ++ [Call.ListDentry parent limit (c.ListDentry parent limit).1] := rfl

@[simp]
theorem CreateDentry_trace (c : FuseClient) (dentry : Dentry) :
    (c.CreateDentry dentry).2.trace =
      c.trace ++ [Call.CreateDentry dentry (c.CreateDentry dentry).1] := rfl

@[simp]
theorem DeleteDentry_trace (c : FuseClient) (parent : Nat) (name : String) :
    (c.DeleteDentry parent name).2.trace =
      c.trace ++ [Call.DeleteDentry parent name (c.DeleteDentry parent name).1] := rfl

@[simp]
theorem CreateInode_trace (c : FuseClient) (param : InodeParam) :
    (c.CreateInode param).2.2.trace =
      c.trace ++ [Call.CreateInode param (c.CreateInode param).1] := by
  unfold FuseClient.CreateInode
  dsimp only
  split_ifs <;> rfl

@[simp]
theorem GetInode_trace (c : FuseClient) (ino : Nat) :
    (c.GetInode ino).2.trace = c.trace ++ [Call.GetInode ino (c.GetInode ino).1] := rfl

@[simp]
theorem DeleteInode_trace (c : FuseClient) (ino : Nat) :
    (c.DeleteInode ino).2.trace = c.trace ++ [Call.DeleteInode ino (c.DeleteInode ino).1] :=
  rfl

@[simp]
theorem IncreaseNLink_trace (c : FuseClient) (ino : Nat) :
    (c.IncreaseNLink ino).2.trace =
      c.trace ++ [Call.IncreaseNLink ino (c.IncreaseNLink ino).1] := rfl

@[simp]
theorem DecreaseNLink_trace (c : FuseClient) (ino : Nat) :
    (c.DecreaseNLink ino).2.trace =
      c.trace ++ [Call.DecreaseNLink ino (c.DecreaseNLink ino).1] := rfl

@[simp]
theorem LinkLocked_trace (c : FuseClient) (ino parent : Nat) :
    (c.LinkLocked ino parent).2.trace =
      c.trace ++ [Call.LinkLocked ino parent (c.LinkLocked ino parent).1] := rfl

@[simp]
theorem UnLinkLocked_trace (c : FuseClient) (ino parent : Nat) :
    (c.UnLinkLocked ino parent).2.trace =
      c.trace ++ [Call.UnLinkLocked ino parent (c.UnLinkLocked ino parent).1] := rfl

@[simp]
theorem UpdateParentInodeXattr_trace (c : FuseClient) (parent : Nat) (xattr : XAttr)
    (direction : Bool) :
    (c.UpdateParentInodeXattr parent xattr direction).2.trace =
      c.trace ++ [Call.UpdateParentInodeXattr parent xattr direction
        (c.UpdateParentInodeXattr parent xattr direction).1] := rfl

/-- A lookup whose name passes the length check starts by asking the dentry
manager. -/
theorem FuseOpLookup_first (c : FuseClient) (parent : Nat) (name : String)
    (h : strlen name ≤ c.option_.maxNameLength) :
    ∃ rc rest, (c.FuseOpLookup parent name).2.2.trace =
      c.trace ++ Call.GetDentry parent name rc :: rest := by
  unfold FuseClient.FuseOpLookup
  dsimp only
  rw [if_neg (by omega)]
  split_ifs <;> simp

/-- A node creation whose name passes the length check starts by creating the
inode. -/
theorem MakeNode_first (c : FuseClient) (ctx : fuse_ctx) (parent : Nat) (name : String)
    (mode : Nat) (type : FsFileType) (rdev : Nat)
    (h : strlen name ≤ c.option_.maxNameLength) :
    ∃ param rc rest, (c.MakeNode ctx parent name mode type rdev).2.2.trace =
      c.trace ++ Call.CreateInode param rc :: rest := by
  unfold FuseClient.MakeNode
  rw [if_neg (by omega)]
  lift_lets
  extract_lets param r ino c1 dentry r2 r3 r4 c5
  have h1 : c1.trace = c.trace ++ [Call.CreateInode param r.1] := CreateInode_trace c param
  have h2 : r2.2.trace = c1.trace ++ [Call.CreateDentry dentry r2.1] := rfl
  have h3 : r3.2.trace = r2.2.trace ++ [Call.GetInode parent r3.1] := rfl
  have h4 : r4.2.trace = r3.2.trace ++ [Call.IncreaseNLink parent r4.1] := rfl
  have h5 : ∃ l, c5.trace = r4.2.trace ++ l := by
    by_cases hs : r4.2.enableSumInDir_ = true
    · exact ⟨_, by simp only [c5, if_pos hs]; exact UpdateParentInodeXattr_trace _ _ _ _⟩
    · exact ⟨[], by simp only [c5, if_neg hs, List.append_nil]⟩
  obtain ⟨l, h5⟩ := h5
  have h0 : r.2.2 = c1 := rfl
  clear_value c5 r4 r3 r2 c1
  split_ifs <;> simp [h0, h1, h2, h3, h4, h5]

/-- A symlink creation whose name passes the length check starts by creating
the inode. -/
theorem FuseOpSymlink_first (c : FuseClient) (ctx : fuse_ctx) (link : String) (parent : Nat)
    (name : String) (h : strlen name ≤ c.option_.maxNameLength) :
    ∃ param rc rest, (c.FuseOpSymlink ctx link parent name).2.2.trace =
      c.trace ++ Call.CreateInode param rc :: rest := by
  unfold FuseClient.FuseOpSymlink
  rw [if_neg (by omega)]
  lift_lets
  extract_lets param r ino c1 dentry r2 r3 r4 c5
  have h1 : c1.trace = c.trace ++ [Call.CreateInode param r.1] := CreateInode_trace c param
  have h2 : r2.2.trace = c1.trace ++ [Call.CreateDentry dentry r2.1] := rfl
  have h3 : r3.2.trace = r2.2.trace ++ [Call.GetInode parent r3.1] := rfl
  have h4 : r4.2.trace = r3.2.trace ++ [Call.IncreaseNLink parent r4.1] := rfl
  have h5 : ∃ l, c5.trace = r4.2.trace ++ l := by
    by_cases hs : r4.2.enableSumInDir_ = true
    · exact ⟨_, by simp only [c5, if_pos hs]; exact UpdateParentInodeXattr_trace _ _ _ _⟩
    · exact ⟨[], by simp only [c5, if_neg hs, List.append_nil]⟩
  obtain ⟨l, h5⟩ := h5
  have h0 : r.2.2 = c1 := rfl
  clear_value c5 r4 r3 r2 c1
  split_ifs <;> simp [h0, h1, h2, h3, h4, h5]

/-- A link creation whose name passes the length check starts by fetching the
inode. -/
theorem FuseOpLink_first (c : FuseClient) (ino newparent : Nat) (newname : String)
    (h : strlen newname ≤ c.option_.maxNameLength) :
    ∃ rc rest, (c.FuseOpLink ino newparent newname).2.2.trace =
      c.trace ++ Call.GetInode ino rc :: rest := by
  unfold FuseClient.FuseOpLink
  rw [if_neg (by omega)]
  lift_lets
  extract_lets r r1 c1 dentry r2 r3 r4 c5
  have h0 : r.2.trace = c.trace ++ [Call.GetInode ino r.1] := rfl
  have h1 : c1.trace = r.2.trace ++ [Call.LinkLocked ino newparent r1.1] := rfl
  have h2 : r2.2.trace = c1.trace ++ [Call.CreateDentry dentry r2.1] := rfl
  have h3 : r3.2.trace = r2.2.trace ++ [Call.GetInode newparent r3.1] := rfl
  have h4 : r4.2.trace = r3.2.trace ++ [Call.IncreaseNLink newparent r4.1] := rfl
  have h5 : ∃ l, c5.trace = r4.2.trace ++ l := by
    by_cases hs : r4.2.enableSumInDir_ = true
    · exact ⟨_, by simp only [c5, if_pos hs]; exact UpdateParentInodeXattr_trace _ _ _ _⟩
    · exact ⟨[], by simp only [c5, if_neg hs, List.append_nil]⟩
  obtain ⟨l, h5⟩ := h5
  have h6 : r1.2 = c1 := rfl
  clear_value c5 r4 r3 r2 c1 r1 r
  split_ifs <;> simp [h0, h1, h2, h3, h4, h5, h6]

/-- A node removal whose name passes the length check starts by asking the
dentry manager. -/
theorem RemoveNode_first (c : FuseClient) (parent : Nat) (name : String) (isDir : Bool)
    (h : strlen name ≤ c.option_.maxNameLength) :
    ∃ rc rest, (c.RemoveNode parent name isDir).2.trace =
      c.trace ++ Call.GetDentry parent name rc :: rest := by
  unfold FuseClient.RemoveNode
  rw [if_neg (by omega)]
  lift_lets
  extract_lets r ino l0 l r1 r2 r3 r4 r5 c6
  have h0 : r.2.2.trace = c.trace ++ [Call.GetDentry parent name r.1] := rfl
  have hl0 : l0.2.2.trace =
      r.2.2.trace ++ [Call.ListDentry ino r.2.2.option_.listDentryLimit l0.1] := rfl
  have hl : ∃ x, l.2.trace = r.2.2.trace ++ x := by
    simp only [l]
    split_ifs
    · exact ⟨_, hl0⟩
    · exact ⟨_, hl0⟩
    · exact ⟨_, hl0⟩
    · exact ⟨[], (List.append_nil _).symm⟩
  have h1 : r1.2.trace = l.2.trace ++ [Call.DeleteDentry parent name r1.1] := rfl
  have h2 : r2.2.trace = r1.2.trace ++ [Call.GetInode parent r2.1] := rfl
  have h3 : r3.2.trace = r2.2.trace ++ [Call.DecreaseNLink parent r3.1] := rfl
  have h4 : r4.2.trace = r3.2.trace ++ [Call.GetInode ino r4.1] := rfl
  have h5 : r5.2.trace = r4.2.trace ++ [Call.UnLinkLocked ino parent r5.1] := rfl
  have h6 : ∃ y, c6.trace = r5.2.trace ++ y := by
    by_cases hs : r5.2.enableSumInDir_ = true
    · exact ⟨_, by simp only [c6, if_pos hs]; exact UpdateParentInodeXattr_trace _ _ _ _⟩
    · exact ⟨[], by simp only [c6, if_neg hs, List.append_nil]⟩
  obtain ⟨x, hl⟩ := hl
  obtain ⟨y, h6⟩ := h6
  clear_value c6 r5 r4 r3 r2 r1 l l0 r
  split_ifs <;> simp [h0, hl, h1, h2, h3, h4, h5, h6]

/-- An open only adds to the log. -/
theorem FuseOpOpen_trace (c : FuseClient) (ino : Nat) (fi : fuse_file_info) :
    ∃ rest, (c.FuseOpOpen ino fi).2.trace = c.trace ++ rest := by
  unfold FuseClient.FuseOpOpen
  lift_lets
  extract_lets r r1 length t now inode c1
  intro r2
  have h0 : r.2.trace = c.trace ++ [Call.GetInode ino r.1] := rfl
  have h1 : r1.2.trace = r.2.trace ++ [Call.Open ino r1.1] := rfl
  have h2 : t.2.trace = r1.2.trace ++ [Call.Truncate ino 0 t.1] := rfl
  have h3 : r2.2.trace = t.2.trace ++ [Call.Sync ino r2.1] := rfl
  obtain ⟨l, h4⟩ := updateParents_trace { xattrinfos := [(XATTRFBYTES, to_string length)] }
    false r2.2 (r2.2.inodes ino).parent
  clear_value r2 c1 t r1 r
  split_ifs <;> simp [h0, h1, h2, h3, h4]

/-- A file creation whose name passes the length check starts by creating the
inode. -/
theorem FuseOpCreate_first (c : FuseClient) (ctx : fuse_ctx) (parent : Nat) (name : String)
    (mode : Nat) (fi : fuse_file_info) (h : strlen name ≤ c.option_.maxNameLength) :
    ∃ param rc rest, (c.FuseOpCreate ctx parent name mode fi).2.2.trace =
      c.trace ++ Call.CreateInode param rc :: rest := by
  obtain ⟨param, rc, rest, hm⟩ := MakeNode_first c ctx parent name mode FsFileType.TYPE_S3 0 h
  unfold FuseClient.FuseOpCreate
  generalize c.MakeNode ctx parent name mode FsFileType.TYPE_S3 0 = m at hm ⊢
  dsimp only
  split_ifs
  · exact ⟨param, rc, rest, hm⟩
  · cases he : m.2.1 with
    | none => exact ⟨param, rc, rest, hm⟩
    | some e =>
      obtain ⟨l, hl⟩ := FuseOpOpen_trace m.2.2 e.ino fi
      exact ⟨param, rc, rest ++ l, by simp [hl, hm]⟩

/-- A rename whose names pass the length check starts with GetTxId. -/
theorem FuseOpRename_first (c : FuseClient) (parent : Nat) (name : String)
    (newparent : Nat) (newname : String)
    (hname : strlen name ≤ c.option_.maxNameLength)
    (hnew : strlen newname ≤ c.option_.maxNameLength) :
    ∃ rc rest, (c.FuseOpRename parent name newparent newname).2.trace =
      c.trace ++ Call.rename RenameStep.GetTxId rc :: rest := by
  rcases FuseOpRename_trace_cases c parent name newparent newname hname hnew with
    ⟨n, s, hs, _, ht⟩ | ⟨_, p1, p2, p3, p4, ht⟩
  · rw [ht]
    have hn : n < 6 := by
      by_contra hcon
      have : protocolSteps.get? n = none := List.get?_eq_none.mpr (by simp [protocolSteps]; omega)
      rw [this] at hs
      cases hs
    interval_cases n <;> simp [protocolSteps] at hs ⊢
    exact hs.symm
  · rw [ht]
    simp [protocolSteps]

/-- C6: every name-taking operation (lookup, MakeNode and create, mknod, mkdir
through it, RemoveNode and unlink, rmdir through it, symlink, link, rename for
the old or the new name) given a name longer than maxNameLength returns
NAMETOOLONG with the client unchanged, no collaborator having been invoked;
given a name of at most maxNameLength bytes it passes the check and invokes
its first collaborator. -/
theorem name_length_check (c : FuseClient) (ctx : fuse_ctx) (parent parent2 ino : Nat)
    (name name2 link : String) (mode rdev : Nat) (type : FsFileType) (isDir : Bool)
    (fi : fuse_file_info) :
    (c.option_.maxNameLength < strlen name →
      c.FuseOpLookup parent name = (NAMETOOLONG, none, c) ∧
      c.MakeNode ctx parent name mode type rdev = (NAMETOOLONG, none, c) ∧
      c.FuseOpCreate ctx parent name mode fi = (NAMETOOLONG, none, c) ∧
      c.FuseOpMkNod ctx parent name mode rdev = (NAMETOOLONG, none, c) ∧
      c.FuseOpMkDir ctx parent name mode = (NAMETOOLONG, none, c) ∧
      c.RemoveNode parent name isDir = (NAMETOOLONG, c) ∧
      c.FuseOpUnlink parent name = (NAMETOOLONG, c) ∧
      c.FuseOpRmDir parent name = (NAMETOOLONG, c) ∧
      c.FuseOpSymlink ctx link parent name = (NAMETOOLONG, none, c) ∧
      c.FuseOpLink ino parent name = (NAMETOOLONG, none, c) ∧
      c.FuseOpRename parent name parent2 name2 = (NAMETOOLONG, c) ∧
      c.FuseOpRename parent2 name2 parent name = (NAMETOOLONG, c)) ∧
    (strlen name ≤ c.option_.maxNameLength →
      (∃ rc rest, (c.FuseOpLookup parent name).2.2.trace =
        c.trace ++ Call.GetDentry parent name rc :: rest) ∧
      (∃ param rc rest, (c.MakeNode ctx parent name mode type rdev).2.2.trace =
        c.trace ++ Call.CreateInode param rc :: rest) ∧
      (∃ param rc rest, (c.FuseOpCreate ctx parent name mode fi).2.2.trace =
        c.trace ++ Call.CreateInode param rc :: rest) ∧
      (∃ param rc rest, (c.FuseOpMkNod ctx parent name mode rdev).2.2.trace =
        c.trace ++ Call.CreateInode param rc :: rest) ∧
      (∃ param rc rest, (c.FuseOpMkDir ctx parent name mode).2.2.trace =
        c.trace ++ Call.CreateInode param rc :: rest) ∧
      (∃ rc rest, (c.RemoveNode parent name isDir).2.trace =
        c.trace ++ Call.GetDentry parent name rc :: rest) ∧
      (∃ rc rest, (c.FuseOpUnlink parent name).2.trace =
        c.trace ++ Call.GetDentry parent name rc :: rest) ∧
      (∃ rc rest, (c.FuseOpRmDir parent name).2.trace =
        c.trace ++ Call.GetDentry parent name rc :: rest) ∧
      (∃ param rc rest, (c.FuseOpSymlink ctx link parent name).2.2.trace =
        c.trace ++ Call.CreateInode param rc :: rest) ∧
      (∃ rc rest, (c.FuseOpLink ino parent name).2.2.trace =
        c.trace ++ Call.GetInode ino rc :: rest) ∧
      (strlen name2 ≤ c.option_.maxNameLength →
        (∃ rc rest, (c.FuseOpRename parent name parent2 name2).2.trace =
          c.trace ++ Call.rename RenameStep.GetTxId rc :: rest) ∧
        (∃ rc rest, (c.FuseOpRename parent2 name2 parent name).2.trace =
          c.trace ++ Call.rename RenameStep.GetTxId rc :: rest))) := by
  constructor
  · intro h
    have hgt : strlen name > c.option_.maxNameLength := h
    refine ⟨?_, ?_, ?_, ?_, ?_, ?_, ?_, ?_, ?_, ?_, ?_, ?_⟩
    · simp only [FuseClient.FuseOpLookup, if_pos hgt]
    · simp only [FuseClient.MakeNode, if_pos hgt]
    · simp only [FuseClient.FuseOpCreate, FuseClient.MakeNode, if_pos hgt]
      rfl
    · simp only [FuseClient.FuseOpMkNod, FuseClient.MakeNode, if_pos hgt]
    · simp only [FuseClient.FuseOpMkDir, FuseClient.MakeNode, if_pos hgt]
    · simp only [FuseClient.RemoveNode, if_pos hgt]
    · simp only [FuseClient.FuseOpUnlink, FuseClient.RemoveNode, if_pos hgt]
    · simp only [FuseClient.FuseOpRmDir, FuseClient.RemoveNode, if_pos hgt]
    · simp only [FuseClient.FuseOpSymlink, if_pos hgt]
    · simp only [FuseClient.FuseOpLink, if_pos hgt]
    · simp only [FuseClient.FuseOpRename, if_pos (Or.inl hgt)]
    · simp only [FuseClient.FuseOpRename, if_pos (Or.inr hgt)]
  · intro h
    exact ⟨FuseOpLookup_first c parent name h, MakeNode_first c ctx parent name mode type rdev h,
      FuseOpCreate_first c ctx parent name mode fi h,
      MakeNode_first c ctx parent name mode FsFileType.TYPE_S3 rdev h,
      MakeNode_first c ctx parent name (S_IFDIR ||| mode) FsFileType.TYPE_DIRECTORY 0 h,
      RemoveNode_first c parent name isDir h, RemoveNode_first c parent name false h,
      RemoveNode_first c parent name true h, FuseOpSymlink_first c ctx link parent name h,
      FuseOpLink_first c ino parent name h,
      fun h2 => ⟨FuseOpRename_first c parent name parent2 name2 h h2,
        FuseOpRename_first c parent2 name2 parent name h2 h⟩⟩

/-- Witness for C6 on the test client, whose limit is 20 bytes: a name of 21
bytes is rejected by every operation, a name of 20 bytes by none. -/
theorem name_length_check_witness :
    (testClient.option_.maxNameLength < strlen "aaaaaaaaaaaaaaaaaaaaa" ∧
      strlen "aaaaaaaaaaaaaaaaaaaa" ≤ testClient.option_.maxNameLength) ∧
    (testClient.FuseOpLookup 1 "aaaaaaaaaaaaaaaaaaaaa" = (NAMETOOLONG, none, testClient) ∧
      testClient.MakeNode ⟨0, 0⟩ 1 "aaaaaaaaaaaaaaaaaaaaa" 420 FsFileType.TYPE_S3 0 = (NAMETOOLONG, none, testClient) ∧
      testClient.FuseOpCreate ⟨0, 0⟩ 1 "aaaaaaaaaaaaaaaaaaaaa" 420 ⟨0, 0⟩ = (NAMETOOLONG, none, testClient) ∧
      testClient.FuseOpMkNod ⟨0, 0⟩ 1 "aaaaaaaaaaaaaaaaaaaaa" 420 0 = (NAMETOOLONG, none, testClient) ∧
      testClient.FuseOpMkDir ⟨0, 0⟩ 1 "aaaaaaaaaaaaaaaaaaaaa" 420 = (NAMETOOLONG, none, testClient) ∧
      testClient.RemoveNode 1 "aaaaaaaaaaaaaaaaaaaaa" false = (NAMETOOLONG, testClient) ∧
      testClient.FuseOpUnlink 1 "aaaaaaaaaaaaaaaaaaaaa" = (NAMETOOLONG, testClient) ∧
      testClient.FuseOpRmDir 1 "aaaaaaaaaaaaaaaaaaaaa" = (NAMETOOLONG, testClient) ∧
      testClient.FuseOpSymlink ⟨0, 0⟩ "target" 1 "aaaaaaaaaaaaaaaaaaaaa" = (NAMETOOLONG, none, testClient) ∧
      testClient.FuseOpLink 7 1 "aaaaaaaaaaaaaaaaaaaaa" = (NAMETOOLONG, none, testClient) ∧
      testClient.FuseOpRename 1 "aaaaaaaaaaaaaaaaaaaaa" 2 "yyy" = (NAMETOOLONG, testClient) ∧
      testClient.FuseOpRename 2 "yyy" 1 "aaaaaaaaaaaaaaaaaaaaa" = (NAMETOOLONG, testClient)) ∧
    ((∃ rc rest, (testClient.FuseOpLookup 1 "aaaaaaaaaaaaaaaaaaaa").2.2.trace =
        testClient.trace ++ Call.GetDentry 1 "aaaaaaaaaaaaaaaaaaaa" rc :: rest) ∧
      (∃ param rc rest, (testClient.MakeNode ⟨0, 0⟩ 1 "aaaaaaaaaaaaaaaaaaaa" 420 FsFileType.TYPE_S3 0).2.2.trace =
        testClient.trace ++ Call.CreateInode param rc :: rest) ∧
      (∃ param rc rest, (testClient.FuseOpCreate ⟨0, 0⟩ 1 "aaaaaaaaaaaaaaaaaaaa" 420 ⟨0, 0⟩).2.2.trace =
        testClient.trace ++ Call.CreateInode param rc :: rest) ∧
      (∃ param rc rest, (testClient.FuseOpMkNod ⟨0, 0⟩ 1 "aaaaaaaaaaaaaaaaaaaa" 420 0).2.2.trace =
        testClient.trace ++ Call.CreateInode param rc :: rest) ∧
      (∃ param rc rest, (testClient.FuseOpMkDir ⟨0, 0⟩ 1 "aaaaaaaaaaaaaaaaaaaa" 420).2.2.trace =
        testClient.trace ++ Call.CreateInode param rc :: rest) ∧
      (∃ rc rest, (testClient.RemoveNode 1 "aaaaaaaaaaaaaaaaaaaa" false).2.trace =
        testClient.trace ++ Call.GetDentry 1 "aaaaaaaaaaaaaaaaaaaa" rc :: rest) ∧
      (∃ rc rest, (testClient.FuseOpUnlink 1 "aaaaaaaaaaaaaaaaaaaa").2.trace =
        testClient.trace ++ Call.GetDentry 1 "aaaaaaaaaaaaaaaaaaaa" rc :: rest) ∧
      (∃ rc rest, (testClient.FuseOpRmDir 1 "aaaaaaaaaaaaaaaaaaaa").2.trace =
        testClient.trace ++ Call.GetDentry 1 "aaaaaaaaaaaaaaaaaaaa" rc :: rest) ∧
      (∃ param rc rest, (testClient.FuseOpSymlink ⟨0, 0⟩ "target" 1 "aaaaaaaaaaaaaaaaaaaa").2.2.trace =
        testClient.trace ++ Call.CreateInode param rc :: rest) ∧
      (∃ rc rest, (testClient.FuseOpLink 7 1 "aaaaaaaaaaaaaaaaaaaa").2.2.trace =
        testClient.trace ++ Call.GetInode 7 rc :: rest) ∧
      (strlen "yyy" ≤ testClient.option_.maxNameLength →
        (∃ rc rest, (testClient.FuseOpRename 1 "aaaaaaaaaaaaaaaaaaaa" 2 "yyy").2.trace =
          testClient.trace ++ Call.rename RenameStep.GetTxId rc :: rest) ∧
        (∃ rc rest, (testClient.FuseOpRename 2 "yyy" 1 "aaaaaaaaaaaaaaaaaaaa").2.trace =
          testClient.trace ++ Call.rename RenameStep.GetTxId rc :: rest))) :=
  ⟨by decide,
    (name_length_check testClient ⟨0, 0⟩ 1 2 7 "aaaaaaaaaaaaaaaaaaaaa" "yyy" "target" 420 0
      FsFileType.TYPE_S3 false ⟨0, 0⟩).1 (by decide),
    (name_length_check testClient ⟨0, 0⟩ 1 2 7 "aaaaaaaaaaaaaaaaaaaa" "yyy" "target" 420 0
      FsFileType.TYPE_S3 false ⟨0, 0⟩).2 (by decide)⟩

/-- C7: FuseOpFlush dispatches on the consistency mode.  With enableCto it
returns OK only after FlushAllCache, the fetch of the inode and Sync have been
invoked in this order and each answered OK, and when FlushAllCache does not
answer OK its answer is returned with nothing else invoked.  Without
enableCto the only invocation is Flush(ino), whose answer is returned, and no
inode is touched. -/
theorem FuseOpFlush_dispatch (c : FuseClient) (ino : Nat) :
    (c.FLAGS_enableCto = true →
      ((c.FuseOpFlush ino).1 = OK →
        (c.FuseOpFlush ino).2.trace =
          c.trace ++ [Call.s3FlushAllCache ino OK, Call.GetInode ino OK, Call.Sync ino OK]) ∧
      (c.env.s3FlushAllCache c.trace ino ≠ OK →
        c.FuseOpFlush ino =
          (c.env.s3FlushAllCache c.trace ino,
            c.log (Call.s3FlushAllCache ino (c.env.s3FlushAllCache c.trace ino))))) ∧
    (c.FLAGS_enableCto = false →
      c.FuseOpFlush ino =
        (c.env.s3Flush c.trace ino, c.log (Call.s3Flush ino (c.env.s3Flush c.trace ino)))) := by
  constructor
  · intro hcto
    constructor
    · intro hok
      simp only [FuseClient.FuseOpFlush, hcto, if_true] at hok ⊢
      split_ifs at hok ⊢ with h1 h2 h3
      · exact absurd hok h1
      · exact absurd hok h2
      · exact absurd hok h3
      · simp only [ne_eq, not_not] at h1 h2 h3
        simp only [FuseClient.s3FlushAllCache, FuseClient.GetInode, FuseClient.Sync,
          FuseClient.onInode, FuseClient.log] at h1 h2 h3 ⊢
        rw [h1] at h2 h3
        rw [h2] at h3
        simp only [List.append_assoc, List.singleton_append, List.cons_append,
          List.nil_append] at h2 h3
        simp [h1, h2, h3]
    · intro hne
      simp only [FuseClient.FuseOpFlush, hcto, if_true]
      rw [if_pos (by simpa [FuseClient.s3FlushAllCache] using hne)]
      rfl
  · intro hcto
    simp only [FuseClient.FuseOpFlush, hcto]
    by_cases h : (c.s3Flush ino).1 = OK
    · simp only [Bool.false_eq_true, if_false, ne_eq, h, not_true_eq_false]
      simp only [FuseClient.s3Flush] at h ⊢
      rw [h]
    · simp only [Bool.false_eq_true, if_false, ne_eq, h, not_false_eq_true, if_true]
      rfl

/-- C8 fails as stated: on the test client a read of 4 bytes at offset 0 of
inode 1 returns OK and moves ctime from 0 to 7 and ctime_ns from 0 to 9, and a
read at offset 5000, beyond the length 4096, returns OK without handing the
inode to the write-back path. -/
theorem FuseOpRead_changes_ctime :
    (testClient.FuseOpRead 1 4 0 ⟨0, 0⟩).1 = OK ∧
    (testClient.inodes 1).ctime = 0 ∧
    ((testClient.FuseOpRead 1 4 0 ⟨0, 0⟩).2.2.2.inodes 1).ctime = 7 ∧
    (testClient.inodes 1).ctime_ns = 0 ∧
    ((testClient.FuseOpRead 1 4 0 ⟨0, 0⟩).2.2.2.inodes 1).ctime_ns = 9 ∧
    (testClient.FuseOpRead 1 4 5000 ⟨0, 0⟩).1 = OK ∧
    Call.ShipToFlush 1 ∉ (testClient.FuseOpRead 1 4 5000 ⟨0, 0⟩).2.2.2.trace := by
  decide

/-- C8 as amended: a successful FuseOpRead at an offset below the length of the
inode sets atime, atime_ns, ctime and ctime_ns to the time the clock showed,
leaves every other attribute of the inode and every other inode as they were,
and hands the inode to the write-back path; at an offset at or beyond the
length it changes no inode and only fetches the inode. -/
theorem FuseOpRead_frame (c : FuseClient) (ino size off : Nat) (fi : fuse_file_info)
    (hok : (c.FuseOpRead ino size off fi).1 = OK) :
    (off < (c.inodes ino).length →
      ∃ t,
        (c.FuseOpRead ino size off fi).2.2.2.trace = t ++ [Call.ShipToFlush ino] ∧
        (c.FuseOpRead ino size off fi).2.2.2.inodes =
          Function.update c.inodes ino
            { c.inodes ino with
              ctime := (c.env.clock_gettime t).tv_sec
              ctime_ns := (c.env.clock_gettime t).tv_nsec
              atime := (c.env.clock_gettime t).tv_sec
              atime_ns := (c.env.clock_gettime t).tv_nsec }) ∧
    ((c.inodes ino).length ≤ off →
      (c.FuseOpRead ino size off fi).2.2.2.inodes = c.inodes ∧
      (c.FuseOpRead ino size off fi).2.2.2.trace = c.trace ++ [Call.GetInode ino OK]) := by
  unfold FuseClient.FuseOpRead at hok ⊢
  dsimp only at hok ⊢
  split_ifs at hok ⊢ with h1 h2 h3 h4
  · exact absurd hok h2
  · simp only [ne_eq, not_not, FuseClient.GetInode, FuseClient.log] at h2 h3
    refine ⟨fun h => absurd h3 (by omega), fun _ => ?_⟩
    simp only [FuseClient.GetInode, FuseClient.log, h2, and_self]
  all_goals
    simp only [ne_eq, not_not, FuseClient.GetInode, FuseClient.log, not_le] at h2 h3
    refine ⟨fun _ => ⟨_, rfl, ?_⟩, fun h => absurd h (by omega)⟩
    simp only [FuseClient.GetInode, FuseClient.log, FuseClient.setInode, FuseClient.s3Read]

/-- Witness for the amended C8: the test client reads 4 bytes at offset 0 of
inode 1. -/
theorem FuseOpRead_frame_witness :
    (testClient.FuseOpRead 1 4 0 ⟨0, 0⟩).1 = OK ∧
    ((0 < (testClient.inodes 1).length →
      ∃ t,
        (testClient.FuseOpRead 1 4 0 ⟨0, 0⟩).2.2.2.trace = t ++ [Call.ShipToFlush 1] ∧
        (testClient.FuseOpRead 1 4 0 ⟨0, 0⟩).2.2.2.inodes =
          Function.update testClient.inodes 1
            { testClient.inodes 1 with
              ctime := (testClient.env.clock_gettime t).tv_sec
              ctime_ns := (testClient.env.clock_gettime t).tv_nsec
              atime := (testClient.env.clock_gettime t).tv_sec
              atime_ns := (testClient.env.clock_gettime t).tv_nsec }) ∧
    ((testClient.inodes 1).length ≤ 0 →
      (testClient.FuseOpRead 1 4 0 ⟨0, 0⟩).2.2.2.inodes = testClient.inodes ∧
      (testClient.FuseOpRead 1 4 0 ⟨0, 0⟩).2.2.2.trace =
        testClient.trace ++ [Call.GetInode 1 OK])) :=
  ⟨by decide, FuseOpRead_frame testClient 1 4 0 ⟨0, 0⟩ (by decide)⟩

/-- C9: for a FuseOpRead that passes the O_DIRECT alignment check and fetches
an inode of length L, off being a file offset (below 2^63) and size at most
SSIZE_MAX (below 2^63): if off ≥ L it returns OK with rSize = 0 after fetching
the inode only, no inode changed; otherwise it asks the adaptor for exactly
min(size, L - off) bytes at offset off, it returns OK exactly when the
adaptor's return value is not negative, and rSize is then that value. -/
theorem FuseOpRead_range (c : FuseClient) (ino size off : Nat) (fi : fuse_file_info)
    (halign : ¬ (fi.flags &&& O_DIRECT ≠ 0 ∧
      ¬ (is_aligned off DirectIOAlignment = true ∧ is_aligned size DirectIOAlignment = true)))
    (hget : c.env.GetInode c.trace ino = OK)
    (hoff : off < 2 ^ 63) (hsize : size < 2 ^ 63) :
    ((c.inodes ino).length ≤ off →
      c.FuseOpRead ino size off fi = (OK, some 0, [], c.log (Call.GetInode ino OK))) ∧
    (off < (c.inodes ino).length →
      ∃ ret : Int,
        ret = (c.env.s3Read (c.trace ++ [Call.GetInode ino OK]) ino off
          (min size ((c.inodes ino).length - off))).1 ∧
        (c.FuseOpRead ino size off fi).2.2.2.trace =
          c.trace ++ [Call.GetInode ino OK,
            Call.s3Read ino off (min size ((c.inodes ino).length - off)) ret] ++
            (if ret < 0 then [] else [Call.ShipToFlush ino]) ∧
        (ret < 0 → (c.FuseOpRead ino size off fi).1 = INTERNAL) ∧
        (0 ≤ ret → (c.FuseOpRead ino size off fi).1 = OK ∧
          (c.FuseOpRead ino size off fi).2.1 = some ret.toNat)) := by
  have hg : (c.GetInode ino).1 = OK := hget
  have hm : (off + size) % 2 ^ 64 = off + size := Nat.mod_eq_of_lt (by omega)
  unfold FuseClient.FuseOpRead
  dsimp only
  rw [if_neg halign, if_neg (by simp [hg])]
  have hL : ((c.GetInode ino).2.inodes ino).length = (c.inodes ino).length := rfl
  rw [hL, hm]
  constructor
  · intro h
    rw [if_pos h]
    simp [FuseClient.GetInode, hget]
  · intro h
    rw [if_neg (by omega)]
    have hlen : (if (c.inodes ino).length < off + size then (c.inodes ino).length - off
        else size) = min size ((c.inodes ino).length - off) := by
      split_ifs <;> omega
    rw [hlen]
    refine ⟨_, rfl, ?_⟩
    by_cases h5 : (c.env.s3Read (c.trace ++ [Call.GetInode ino OK]) ino off
        (min size ((c.inodes ino).length - off))).1 < 0
    · simp [FuseClient.s3Read, FuseClient.GetInode, FuseClient.log, hget, h5]
    · simp [FuseClient.s3Read, FuseClient.GetInode, FuseClient.log, FuseClient.setInode, hget,
        h5]

/-- Witness for C9: the test client reads 4096 bytes at offset 4000 of inode 1,
whose length is 4096, so the adaptor is asked for 96 bytes. -/
theorem FuseOpRead_range_witness :
    (¬ ((⟨0, 0⟩ : fuse_file_info).flags &&& O_DIRECT ≠ 0 ∧
        ¬ (is_aligned 4000 DirectIOAlignment = true ∧
          is_aligned 4096 DirectIOAlignment = true)) ∧
      testClient.env.GetInode testClient.trace 1 = OK ∧ 4000 < 2 ^ 63 ∧ 4096 < 2 ^ 63) ∧
    (((testClient.inodes 1).length ≤ 4000 →
      testClient.FuseOpRead 1 4096 4000 ⟨0, 0⟩ =
        (OK, some 0, [], testClient.log (Call.GetInode 1 OK))) ∧
    (4000 < (testClient.inodes 1).length →
      ∃ ret : Int,
        ret = (testClient.env.s3Read (testClient.trace ++ [Call.GetInode 1 OK]) 1 4000
          (min 4096 ((testClient.inodes 1).length - 4000))).1 ∧
        (testClient.FuseOpRead 1 4096 4000 ⟨0, 0⟩).2.2.2.trace =
          testClient.trace ++ [Call.GetInode 1 OK,
            Call.s3Read 1 4000 (min 4096 ((testClient.inodes 1).length - 4000)) ret] ++
            (if ret < 0 then [] else [Call.ShipToFlush 1]) ∧
        (ret < 0 → (testClient.FuseOpRead 1 4096 4000 ⟨0, 0⟩).1 = INTERNAL) ∧
        (0 ≤ ret → (testClient.FuseOpRead 1 4096 4000 ⟨0, 0⟩).1 = OK ∧
          (testClient.FuseOpRead 1 4096 4000 ⟨0, 0⟩).2.1 = some ret.toNat))) :=
  ⟨by decide, FuseOpRead_range testClient 1 4096 4000 ⟨0, 0⟩ (by decide) (by decide)
    (by decide) (by decide)⟩

/-- C10: in a successful FuseOpWrite the adaptor reported w ≥ 0 bytes, wSize is
w, the length of the inode is the larger of its old length and off + w (so it
does not shrink), mtime and ctime are the time the clock showed, and the inode
was shipped to the write-back queue.  Here off is a file offset (below 2^63)
and w an int (below 2^31). -/
theorem FuseOpWrite_success (c : FuseClient) (ino : Nat) (buf : List Nat) (size off : Nat)
    (fi : fuse_file_info) (hoff : off < 2 ^ 63)
    (hw : c.env.s3Write c.trace ino off size buf < 2 ^ 31)
    (hok : (c.FuseOpWrite ino buf size off fi).1 = OK) :
    0 ≤ c.env.s3Write c.trace ino off size buf ∧
    (c.FuseOpWrite ino buf size off fi).2.1 =
      some (c.env.s3Write c.trace ino off size buf).toNat ∧
    ((c.FuseOpWrite ino buf size off fi).2.2.inodes ino).length =
      max (c.inodes ino).length (off + (c.env.s3Write c.trace ino off size buf).toNat) ∧
    (c.inodes ino).length ≤ ((c.FuseOpWrite ino buf size off fi).2.2.inodes ino).length ∧
    (∃ now : Timespec,
      now = c.env.clock_gettime
        (c.trace ++ [Call.s3Write ino off size buf (c.env.s3Write c.trace ino off size buf),
          Call.GetInode ino OK]) ∧
      ((c.FuseOpWrite ino buf size off fi).2.2.inodes ino).mtime = now.tv_sec ∧
      ((c.FuseOpWrite ino buf size off fi).2.2.inodes ino).mtime_ns = now.tv_nsec ∧
      ((c.FuseOpWrite ino buf size off fi).2.2.inodes ino).ctime = now.tv_sec ∧
      ((c.FuseOpWrite ino buf size off fi).2.2.inodes ino).ctime_ns = now.tv_nsec) ∧
    Call.ShipToFlush ino ∈ (c.FuseOpWrite ino buf size off fi).2.2.trace := by
  unfold FuseClient.FuseOpWrite at hok ⊢
  dsimp only at hok ⊢
  split_ifs at hok ⊢ with h1 h2 h3 h4 h5
  · exact absurd hok h3
  all_goals
    simp only [ne_eq, not_not, FuseClient.s3Write, FuseClient.GetInode, FuseClient.log,
      not_lt] at h2 h3
    have hm : (off + (c.env.s3Write c.trace ino off size buf).toNat) % 2 ^ 64 =
        off + (c.env.s3Write c.trace ino off size buf).toNat := by
      apply Nat.mod_eq_of_lt
      omega
    simp only [decide_eq_true_eq, FuseClient.s3Write, FuseClient.GetInode, FuseClient.log,
      FuseClient.setInode, hm] at h4
    simp [updateParents_length, updateParents_times, mem_updateParents_trace,
      FuseClient.s3Write, FuseClient.GetInode, FuseClient.log, FuseClient.setInode, hm, h2, h3]
    omega

/-- Witness for C10: the test client writes 4 bytes at offset 5000 to inode 1,
whose length is 4096. -/
theorem FuseOpWrite_success_witness :
    ((5000 : Nat) < 2 ^ 63 ∧
      testClient.env.s3Write testClient.trace 1 5000 4 [120, 120, 120, 0] < 2 ^ 31 ∧
      (testClient.FuseOpWrite 1 [120, 120, 120, 0] 4 5000 ⟨O_WRONLY, 0⟩).1 = OK) ∧
    (0 ≤ testClient.env.s3Write testClient.trace 1 5000 4 [120, 120, 120, 0] ∧
    (testClient.FuseOpWrite 1 [120, 120, 120, 0] 4 5000 ⟨O_WRONLY, 0⟩).2.1 =
      some (testClient.env.s3Write testClient.trace 1 5000 4 [120, 120, 120, 0]).toNat ∧
    ((testClient.FuseOpWrite 1 [120, 120, 120, 0] 4 5000 ⟨O_WRONLY, 0⟩).2.2.inodes 1).length =
      max (testClient.inodes 1).length
        (5000 + (testClient.env.s3Write testClient.trace 1 5000 4 [120, 120, 120, 0]).toNat) ∧
    (testClient.inodes 1).length ≤
      ((testClient.FuseOpWrite 1 [120, 120, 120, 0] 4 5000 ⟨O_WRONLY, 0⟩).2.2.inodes 1).length ∧
    (∃ now : Timespec,
      now = testClient.env.clock_gettime
        (testClient.trace ++
          [Call.s3Write 1 5000 4 [120, 120, 120, 0]
            (testClient.env.s3Write testClient.trace 1 5000 4 [120, 120, 120, 0]),
          Call.GetInode 1 OK]) ∧
      ((testClient.FuseOpWrite 1 [120, 120, 120, 0] 4 5000 ⟨O_WRONLY, 0⟩).2.2.inodes 1).mtime =
        now.tv_sec ∧
      ((testClient.FuseOpWrite 1 [120, 120, 120, 0] 4 5000 ⟨O_WRONLY, 0⟩).2.2.inodes 1).mtime_ns =
        now.tv_nsec ∧
      ((testClient.FuseOpWrite 1 [120, 120, 120, 0] 4 5000 ⟨O_WRONLY, 0⟩).2.2.inodes 1).ctime =
        now.tv_sec ∧
      ((testClient.FuseOpWrite 1 [120, 120, 120, 0] 4 5000 ⟨O_WRONLY, 0⟩).2.2.inodes 1).ctime_ns =
        now.tv_nsec) ∧
    Call.ShipToFlush 1 ∈
      (testClient.FuseOpWrite 1 [120, 120, 120, 0] 4 5000 ⟨O_WRONLY, 0⟩).2.2.trace) :=
  ⟨by decide,
    FuseOpWrite_success testClient 1 [120, 120, 120, 0] 4 5000 ⟨O_WRONLY, 0⟩ (by decide)
      (by decide) (by decide)⟩

@[simp]
theorem Open_trace (c : FuseClient) (ino : Nat) :
    (c.Open ino).2.trace = c.trace ++ [Call.Open ino (c.Open ino).1] := rfl

@[simp]
theorem Sync_trace (c : FuseClient) (ino : Nat) :
    (c.Sync ino).2.trace = c.trace ++ [Call.Sync ino (c.Sync ino).1] := rfl

@[simp]
theorem Truncate_trace (c : FuseClient) (ino length : Nat) :
    (c.Truncate ino length).2.trace =
      c.trace ++ [Call.Truncate ino length (c.Truncate ino length).1] := rfl

/-- What an open with O_TRUNC and neither O_WRONLY nor O_RDWR does: it fetches
the inode, invokes InodeWrapper::Open, and only when both answered OK returns
NOPERMISSION; no truncate is issued. -/
theorem FuseOpOpen_trunc_readonly (c : FuseClient) (ino : Nat) (fi : fuse_file_info)
    (htrunc : fi.flags &&& O_TRUNC ≠ 0)
    (hw : fi.flags &&& O_WRONLY = 0) (hrw : fi.flags &&& O_RDWR = 0) :
    (c.env.GetInode c.trace ino ≠ OK →
      c.FuseOpOpen ino fi = c.GetInode ino) ∧
    (c.env.GetInode c.trace ino = OK →
      ((c.GetInode ino).2.Open ino).1 ≠ OK →
      c.FuseOpOpen ino fi = (c.GetInode ino).2.Open ino) ∧
    (c.env.GetInode c.trace ino = OK →
      ((c.GetInode ino).2.Open ino).1 = OK →
      c.FuseOpOpen ino fi = (NOPERMISSION, ((c.GetInode ino).2.Open ino).2) ∧
      (c.FuseOpOpen ino fi).2.trace = c.trace ++ [Call.GetInode ino OK, Call.Open ino OK]) := by
  have hnw : ¬ (fi.flags &&& O_WRONLY ≠ 0 ∨ fi.flags &&& O_RDWR ≠ 0) := by
    simp [hw, hrw]
  refine ⟨fun hg => ?_, fun hg ho => ?_, fun hg ho => ?_⟩
  · unfold FuseClient.FuseOpOpen
    lift_lets
    extract_lets r r1 length t now inode c1 r2
    have h1 : r.1 ≠ OK := hg
    rw [if_pos h1]
  · unfold FuseClient.FuseOpOpen
    lift_lets
    extract_lets r r1 length t now inode c1 r2
    have h1 : ¬ r.1 ≠ OK := not_not.mpr hg
    have h2 : r1.1 ≠ OK := ho
    rw [if_neg h1, if_pos h2]
  · have heq : c.FuseOpOpen ino fi = (NOPERMISSION, ((c.GetInode ino).2.Open ino).2) := by
      unfold FuseClient.FuseOpOpen
      lift_lets
      extract_lets r r1 length t now inode c1 r2
      have h1 : ¬ r.1 ≠ OK := not_not.mpr hg
      have h2 : ¬ r1.1 ≠ OK := not_not.mpr ho
      rw [if_neg h1, if_neg h2, if_pos htrunc, if_neg hnw]
    refine ⟨heq, ?_⟩
    rw [heq]
    have hrc : (c.GetInode ino).1 = OK := hg
    show ((c.GetInode ino).2.Open ino).2.trace = _
    rw [Open_trace, GetInode_trace, ho, hrc]
    simp

/-- C11 at its failing input: on the test client an open of inode 1 with O_TRUNC
and neither O_WRONLY nor O_RDWR returns NOPERMISSION only after the inode was
fetched and InodeWrapper::Open was invoked and answered OK; no truncate is
issued. -/
theorem FuseOpOpen_opens_before_check :
    (⟨O_TRUNC, 0⟩ : fuse_file_info).flags &&& O_TRUNC ≠ 0 ∧
    (⟨O_TRUNC, 0⟩ : fuse_file_info).flags &&& O_WRONLY = 0 ∧
    (⟨O_TRUNC, 0⟩ : fuse_file_info).flags &&& O_RDWR = 0 ∧
    (testClient.FuseOpOpen 1 ⟨O_TRUNC, 0⟩).1 = NOPERMISSION ∧
    (testClient.FuseOpOpen 1 ⟨O_TRUNC, 0⟩).2.trace = [Call.GetInode 1 OK, Call.Open 1 OK] := by
  decide

/-- The state in which `CreateInode` leaves the client when it answers OK. -/
theorem CreateInode_of_OK (c : FuseClient) (param : InodeParam) (created : Inode)
    (h : c.env.CreateInode c.trace param = (OK, created)) :
    c.CreateInode param =
      (OK, created.inodeid,
        { c with
          inodes := Function.update c.inodes created.inodeid created
          trace := c.trace ++ [Call.CreateInode param OK] }) := by
  simp [FuseClient.CreateInode, h, FuseClient.log, FuseClient.setInode]

/-- C12: in MakeNode and in FuseOpSymlink, when CreateInode answers OK with a
new inode and CreateDentry then answers e other than OK, the operation invokes
DeleteInode on the id of the new inode and returns e whatever DeleteInode
answers; nothing else is invoked, so the parent is neither fetched nor is its
nlink or summary xattr touched, and the only wrapper that changed is the one
of the new inode. -/
theorem CreateDentry_failure (c : FuseClient) (ctx : fuse_ctx) (parent : Nat)
    (name link : String) (mode : Nat) (type : FsFileType) (rdev : Nat)
    (hname : strlen name ≤ c.option_.maxNameLength) :
    (∀ (param : InodeParam) (created : Inode) (dentry : Dentry) (e : CURVEFS_ERROR),
      param = { fsId := c.fsid, length := if type = FsFileType.TYPE_DIRECTORY then 4096 else 0,
                uid := ctx.uid, gid := ctx.gid, mode := mode, type := type, rdev := rdev,
                symlink := "", parent := parent } →
      c.env.CreateInode c.trace param = (OK, created) →
      dentry = { fsid := c.fsid, inodeid := created.inodeid, parentinodeid := parent,
                 name := name, txid := 0,
                 flag := if type = FsFileType.TYPE_FILE ∨ type = FsFileType.TYPE_S3
                         then some TYPE_FILE_FLAG else none,
                 type := some created.type } →
      c.env.CreateDentry (c.trace ++ [Call.CreateInode param OK]) dentry = e →
      e ≠ OK →
      c.MakeNode ctx parent name mode type rdev =
        (e, none,
          { c with
            inodes := Function.update c.inodes created.inodeid created
            trace := c.trace ++
              [Call.CreateInode param OK, Call.CreateDentry dentry e,
               Call.DeleteInode created.inodeid
                 (c.env.DeleteInode
                   (c.trace ++ [Call.CreateInode param OK, Call.CreateDentry dentry e])
                   created.inodeid)] })) ∧
    (∀ (param : InodeParam) (created : Inode) (dentry : Dentry) (e : CURVEFS_ERROR),
      param = { fsId := c.fsid, length := strlen link, uid := ctx.uid, gid := ctx.gid,
                mode := S_IFLNK ||| 0o777, type := FsFileType.TYPE_SYM_LINK, rdev := 0,
                symlink := link, parent := parent } →
      c.env.CreateInode c.trace param = (OK, created) →
      dentry = { fsid := c.fsid, inodeid := created.inodeid, parentinodeid := parent,
                 name := name, txid := 0, flag := none, type := some created.type } →
      c.env.CreateDentry (c.trace ++ [Call.CreateInode param OK]) dentry = e →
      e ≠ OK →
      c.FuseOpSymlink ctx link parent name =
        (e, none,
          { c with
            inodes := Function.update c.inodes created.inodeid created
            trace := c.trace ++
              [Call.CreateInode param OK, Call.CreateDentry dentry e,
               Call.DeleteInode created.inodeid
                 (c.env.DeleteInode
                   (c.trace ++ [Call.CreateInode param OK, Call.CreateDentry dentry e])
                   created.inodeid)] })) := by
  have hlen : ¬ strlen name > c.option_.maxNameLength := by omega
  constructor
  · intro param0 created dentry0 e hp hcreate hd hdentry he
    subst hp hd
    unfold FuseClient.MakeNode
    rw [if_neg hlen]
    lift_lets
    extract_lets param r ino c1 dentry r2 r3 r4 c5
    have hr : r = _ := CreateInode_of_OK c param created hcreate
    have h1 : ¬ r.1 ≠ OK := by rw [hr]; simp
    rw [if_neg h1]
    have hi : ino = created.inodeid := by simp only [ino, hr]
    have hc1 : c1 = { c with
          inodes := Function.update c.inodes created.inodeid created
          trace := c.trace ++ [Call.CreateInode param OK] } := by simp only [c1, hr]
    have hd : dentry =
        { fsid := c.fsid, inodeid := created.inodeid, parentinodeid := parent,
          name := name, txid := 0,
          flag := if type = FsFileType.TYPE_FILE ∨ type = FsFileType.TYPE_S3
                  then some TYPE_FILE_FLAG else none,
          type := some created.type } := by
      simp only [dentry, hc1, hi, Function.update_same]
    clear_value r ino c1 dentry
    subst hi hc1 hd
    have h2 : r2.1 ≠ OK := by
      simp only [r2, FuseClient.CreateDentry, hdentry]; exact he
    rw [if_pos h2]
    simp [r2, FuseClient.CreateDentry, FuseClient.DeleteInode, FuseClient.log, hdentry]
  · intro param0 created dentry0 e hp hcreate hd hdentry he
    subst hp hd
    unfold FuseClient.FuseOpSymlink
    rw [if_neg hlen]
    lift_lets
    extract_lets param r ino c1 dentry r2 r3 r4 c5
    have hr : r = _ := CreateInode_of_OK c param created hcreate
    have h1 : ¬ r.1 ≠ OK := by rw [hr]; simp
    rw [if_neg h1]
    have hi : ino = created.inodeid := by simp only [ino, hr]
    have hc1 : c1 = { c with
          inodes := Function.update c.inodes created.inodeid created
          trace := c.trace ++ [Call.CreateInode param OK] } := by simp only [c1, hr]
    have hd : dentry =
        { fsid := c.fsid, inodeid := created.inodeid, parentinodeid := parent,
          name := name, txid := 0, flag := none, type := some created.type } := by
      simp only [dentry, hc1, hi, Function.update_same]
    clear_value r ino c1 dentry
    subst hi hc1 hd
    have h2 : r2.1 ≠ OK := by
      simp only [r2, FuseClient.CreateDentry, hdentry]; exact he
    rw [if_pos h2]
    simp [r2, FuseClient.CreateDentry, FuseClient.DeleteInode, FuseClient.log, hdentry]

/-- Witness for C12: with a dentry manager that answers EXISTS and an inode
manager that then fails to delete, creating the file a and the symbolic link a
under inode 1 both return EXISTS after exactly three invocations. -/
theorem CreateDentry_failure_witness :
    strlen "a" ≤ dentryExistsClient.option_.maxNameLength ∧
    (dentryExistsClient.MakeNode ⟨0, 0⟩ 1 "a" 0 FsFileType.TYPE_S3 0).1 = EXISTS ∧
    (dentryExistsClient.MakeNode ⟨0, 0⟩ 1 "a" 0 FsFileType.TYPE_S3 0).2.2.trace.length = 3 ∧
    (dentryExistsClient.FuseOpSymlink ⟨0, 0⟩ "l" 1 "a").1 = EXISTS ∧
    (dentryExistsClient.FuseOpSymlink ⟨0, 0⟩ "l" 1 "a").2.2.trace.length = 3 := by
  have h := CreateDentry_failure dentryExistsClient ⟨0, 0⟩ 1 "a" "l" 0 FsFileType.TYPE_S3 0
    (by decide)
  have h1 := h.1 _ _ _ _ rfl rfl rfl rfl (by decide)
  have h2 := h.2 _ _ _ _ rfl rfl rfl rfl (by decide)
  rw [h1, h2]
  exact ⟨by decide, rfl, rfl, rfl, rfl⟩

/-- C13 refuted on a client whose IncreaseNLink adds one: creating a regular
file, a symbolic link and a hard link under directory 1, whose nlink is 2,
succeeds and leaves the nlink of directory 1 at 3 each time. -/
theorem nondirectory_child_raises_parent_nlink :
    (nlinkClient.inodes 1).type = FsFileType.TYPE_DIRECTORY ∧
    (nlinkClient.inodes 1).nlink = 2 ∧
    (nlinkClient.MakeNode ⟨0, 0⟩ 1 "a" 0 FsFileType.TYPE_S3 0).1 = OK ∧
    ((nlinkClient.MakeNode ⟨0, 0⟩ 1 "a" 0 FsFileType.TYPE_S3 0).2.2.inodes 1).nlink = 3 ∧
    (nlinkClient.FuseOpSymlink ⟨0, 0⟩ "l" 1 "a").1 = OK ∧
    ((nlinkClient.FuseOpSymlink ⟨0, 0⟩ "l" 1 "a").2.2.inodes 1).nlink = 3 ∧
    (nlinkClient.FuseOpLink 5 1 "a").1 = OK ∧
    ((nlinkClient.FuseOpLink 5 1 "a").2.2.inodes 1).nlink = 3 := by
  decide

/-- Creating an inode leaves the collaborators in place. -/
@[simp] theorem CreateInode_env (c : FuseClient) (param : InodeParam) :
    (c.CreateInode param).2.2.env = c.env := by
  simp only [FuseClient.CreateInode]
  split_ifs <;> rfl

/-- Creating an inode keeps the wrapper of every inode but the new one. -/
theorem CreateInode_inodes_of_ne (c : FuseClient) (param : InodeParam) (j : Nat)
    (h : (c.env.CreateInode c.trace param).2.inodeid ≠ j) :
    (c.CreateInode param).2.2.inodes j = c.inodes j := by
  simp only [FuseClient.CreateInode]
  split_ifs
  · simp [FuseClient.setInode, FuseClient.log, Function.update_noteq (Ne.symm h)]
  · rfl

/-- Updating the summary xattr of a parent keeps the nlink of every inode. -/
@[simp] theorem UpdateParentInodeXattr_nlink (c : FuseClient) (parent : Nat) (xattr : XAttr)
    (direction : Bool) (j : Nat) :
    ((c.UpdateParentInodeXattr parent xattr direction).2.inodes j).nlink =
      (c.inodes j).nlink := by
  by_cases hj : j = parent
  · subst hj
    simp [FuseClient.UpdateParentInodeXattr, FuseClient.onInode]
  · simp [FuseClient.UpdateParentInodeXattr, FuseClient.onInode, hj]

/-- C13 as the code has it: when IncreaseNLink adds one to nlink whenever it
answers OK, the inode manager never hands out the id of the parent and the
linked inode is not the parent, every successful MakeNode (whatever the type
of the node), FuseOpSymlink and FuseOpLink has invoked IncreaseNLink on the
parent and leaves the nlink of the parent one higher than it was. -/
theorem parent_nlink_raised (c : FuseClient) (ctx : fuse_ctx) (parent : Nat)
    (name link : String) (mode : Nat) (type : FsFileType) (rdev ino : Nat)
    (hinc : ∀ t i, (c.env.IncreaseNLink t i).1 = OK →
      (c.env.IncreaseNLink t i).2.nlink = i.nlink + 1)
    (hfresh : ∀ t p, (c.env.CreateInode t p).2.inodeid ≠ parent)
    (hino : ino ≠ parent) :
    ((c.MakeNode ctx parent name mode type rdev).1 = OK →
      Call.IncreaseNLink parent OK ∈ (c.MakeNode ctx parent name mode type rdev).2.2.trace ∧
      ((c.MakeNode ctx parent name mode type rdev).2.2.inodes parent).nlink =
        (c.inodes parent).nlink + 1) ∧
    ((c.FuseOpSymlink ctx link parent name).1 = OK →
      Call.IncreaseNLink parent OK ∈ (c.FuseOpSymlink ctx link parent name).2.2.trace ∧
      ((c.FuseOpSymlink ctx link parent name).2.2.inodes parent).nlink =
        (c.inodes parent).nlink + 1) ∧
    ((c.FuseOpLink ino parent name).1 = OK →
      Call.IncreaseNLink parent OK ∈ (c.FuseOpLink ino parent name).2.2.trace ∧
      ((c.FuseOpLink ino parent name).2.2.inodes parent).nlink =
        (c.inodes parent).nlink + 1) := by
  refine ⟨?_, ?_, ?_⟩
  · unfold FuseClient.MakeNode
    lift_lets
    extract_lets param r ino1 c1 dentry r2 r3 r4 c5
    have e1 : c1.env = c.env := CreateInode_env c param
    have i1 : c1.inodes parent = c.inodes parent :=
      CreateInode_inodes_of_ne c param parent (hfresh _ _)
    have h4 : r4.1 = (c.env.IncreaseNLink r3.2.trace (c.inodes parent)).1 := by
      simp only [r4, r3, r2, FuseClient.IncreaseNLink, FuseClient.onInode, FuseClient.GetInode,
        FuseClient.CreateDentry, FuseClient.log, e1, i1]
    have i4 : r4.2.inodes parent = (c.env.IncreaseNLink r3.2.trace (c.inodes parent)).2 := by
      simp only [r4, r3, r2, FuseClient.IncreaseNLink, FuseClient.onInode, FuseClient.GetInode,
        FuseClient.CreateDentry, FuseClient.log, e1, i1, Function.update_same]
    have t4 : r4.2.trace = r3.2.trace ++ [Call.IncreaseNLink parent r4.1] := rfl
    have i5 : (c5.inodes parent).nlink = (r4.2.inodes parent).nlink := by
      by_cases hs : r4.2.enableSumInDir_ = true
      · simp only [c5, if_pos hs, UpdateParentInodeXattr_nlink]
      · simp only [c5, if_neg hs]
    have t5 : ∃ l, c5.trace = r4.2.trace ++ l := by
      by_cases hs : r4.2.enableSumInDir_ = true
      · exact ⟨_, by simp only [c5, if_pos hs]; exact UpdateParentInodeXattr_trace _ _ _ _⟩
      · exact ⟨[], by simp only [c5, if_neg hs, List.append_nil]⟩
    obtain ⟨l, t5⟩ := t5
    clear_value c5 r4 r3 r2 c1 r
    split_ifs with g1 g2 g3 g4 g5
    all_goals try (intro h; exact absurd h (by assumption))
    · intro h; exact h.elim
    · intro h
      have h5 : r4.1 = OK := h
      rw [h4] at h5
      refine ⟨?_, ?_⟩
      · show Call.IncreaseNLink parent OK ∈ c5.trace
        rw [t5, t4, h]
        simp
      · show (c5.inodes parent).nlink = _
        rw [i5, i4]
        exact hinc _ _ h5
  · unfold FuseClient.FuseOpSymlink
    lift_lets
    extract_lets param r ino1 c1 dentry r2 r3 r4 c5
    have e1 : c1.env = c.env := CreateInode_env c param
    have i1 : c1.inodes parent = c.inodes parent :=
      CreateInode_inodes_of_ne c param parent (hfresh _ _)
    have h4 : r4.1 = (c.env.IncreaseNLink r3.2.trace (c.inodes parent)).1 := by
      simp only [r4, r3, r2, FuseClient.IncreaseNLink, FuseClient.onInode, FuseClient.GetInode,
        FuseClient.CreateDentry, FuseClient.log, e1, i1]
    have i4 : r4.2.inodes parent = (c.env.IncreaseNLink r3.2.trace (c.inodes parent)).2 := by
      simp only [r4, r3, r2, FuseClient.IncreaseNLink, FuseClient.onInode, FuseClient.GetInode,
        FuseClient.CreateDentry, FuseClient.log, e1, i1, Function.update_same]
    have t4 : r4.2.trace = r3.2.trace ++ [Call.IncreaseNLink parent r4.1] := rfl
    have i5 : (c5.inodes parent).nlink = (r4.2.inodes parent).nlink := by
      by_cases hs : r4.2.enableSumInDir_ = true
      · simp only [c5, if_pos hs, UpdateParentInodeXattr_nlink]
      · simp only [c5, if_neg hs]
    have t5 : ∃ l, c5.trace = r4.2.trace ++ l := by
      by_cases hs : r4.2.enableSumInDir_ = true
      · exact ⟨_, by simp only [c5, if_pos hs]; exact UpdateParentInodeXattr_trace _ _ _ _⟩
      · exact ⟨[], by simp only [c5, if_neg hs, List.append_nil]⟩
    obtain ⟨l, t5⟩ := t5
    clear_value c5 r4 r3 r2 c1 r
    split_ifs with g1 g2 g3 g4 g5
    all_goals try (intro h; exact absurd h (by assumption))
    · intro h; exact h.elim
    · intro h
      have h5 : r4.1 = OK := h
      rw [h4] at h5
      refine ⟨?_, ?_⟩
      · show Call.IncreaseNLink parent OK ∈ c5.trace
        rw [t5, t4, h]
        simp
      · show (c5.inodes parent).nlink = _
        rw [i5, i4]
        exact hinc _ _ h5
  · unfold FuseClient.FuseOpLink
    lift_lets
    extract_lets r r1 c1 dentry r2 r3 r4 c5
    have i1 : r1.2.inodes parent = c.inodes parent := by
      simp only [r1, r, FuseClient.LinkLocked, FuseClient.onInode, FuseClient.GetInode,
        FuseClient.log, Function.update_noteq (Ne.symm hino)]
    have h4 : r4.1 = (c.env.IncreaseNLink r3.2.trace (c.inodes parent)).1 := by
      simp only [r4, r3, r2, c1, FuseClient.IncreaseNLink, FuseClient.onInode,
        FuseClient.GetInode, FuseClient.CreateDentry, FuseClient.log, i1]
      rfl
    have i4 : r4.2.inodes parent = (c.env.IncreaseNLink r3.2.trace (c.inodes parent)).2 := by
      simp only [r4, r3, r2, c1, FuseClient.IncreaseNLink, FuseClient.onInode,
        FuseClient.GetInode, FuseClient.CreateDentry, FuseClient.log, i1, Function.update_same]
      rfl
    have t4 : r4.2.trace = r3.2.trace ++ [Call.IncreaseNLink parent r4.1] := rfl
    have i5 : (c5.inodes parent).nlink = (r4.2.inodes parent).nlink := by
      by_cases hs : r4.2.enableSumInDir_ = true
      · simp only [c5, if_pos hs, UpdateParentInodeXattr_nlink]
      · simp only [c5, if_neg hs]
    have t5 : ∃ l, c5.trace = r4.2.trace ++ l := by
      by_cases hs : r4.2.enableSumInDir_ = true
      · exact ⟨_, by simp only [c5, if_pos hs]; exact UpdateParentInodeXattr_trace _ _ _ _⟩
      · exact ⟨[], by simp only [c5, if_neg hs, List.append_nil]⟩
    obtain ⟨l, t5⟩ := t5
    clear_value c5 r4 r3 r2 c1 r1 r
    split_ifs with g1 g2 g3 g4 g5 g6
    all_goals try (intro h; exact absurd h (by assumption))
    · intro h; exact h.elim
    · intro h
      have h5 : r4.1 = OK := h
      rw [h4] at h5
      refine ⟨?_, ?_⟩
      · show Call.IncreaseNLink parent OK ∈ c5.trace
        rw [t5, t4, h]
        simp
      · show (c5.inodes parent).nlink = _
        rw [i5, i4]
        exact hinc _ _ h5

/-- Witness for the amended C13: on the client whose IncreaseNLink adds one, a
regular file, a symbolic link and a hard link of inode 5 created under
directory 1 each succeed and raise the nlink of directory 1 by one. -/
theorem parent_nlink_raised_witness :
    (nlinkClient.MakeNode ⟨0, 0⟩ 1 "a" 0 FsFileType.TYPE_S3 0).1 = OK ∧
    ((nlinkClient.MakeNode ⟨0, 0⟩ 1 "a" 0 FsFileType.TYPE_S3 0).2.2.inodes 1).nlink =
      (nlinkClient.inodes 1).nlink + 1 ∧
    (nlinkClient.FuseOpSymlink ⟨0, 0⟩ "l" 1 "a").1 = OK ∧
    ((nlinkClient.FuseOpSymlink ⟨0, 0⟩ "l" 1 "a").2.2.inodes 1).nlink =
      (nlinkClient.inodes 1).nlink + 1 ∧
    (nlinkClient.FuseOpLink 5 1 "a").1 = OK ∧
    ((nlinkClient.FuseOpLink 5 1 "a").2.2.inodes 1).nlink =
      (nlinkClient.inodes 1).nlink + 1 :=
  have h := parent_nlink_raised nlinkClient ⟨0, 0⟩ 1 "a" "l" 0 FsFileType.TYPE_S3 0 5
    (fun _ _ _ => rfl) (fun _ _ => (by decide : (1000 : Nat) ≠ 1)) (by decide)
  ⟨by decide, (h.1 (by decide)).2, by decide, (h.2.1 (by decide)).2, by decide,
    (h.2.2 (by decide)).2⟩

/-- C14: in a successful FuseOpSetAttr, with collaborators Truncate, Sync and
SyncAttr that leave the attributes of the inode as they are, the inode ends up
as the old one with mode, uid and gid replaced where their bit is set, atime
and mtime set to the time of the clock when the NOW bit is set, else to the
supplied time when the plain bit is set, else unchanged, ctime set to the
supplied time when its bit is set and to the time of the clock otherwise, and
length set to st_size when the size bit is set; attrOut is filled from exactly
that inode.  The loop over the parents can only change the extended
attributes. -/
theorem FuseOpSetAttr_attributes (c : FuseClient) (ino : Nat) (attr : stat) (to_set : Nat)
    (now : Timespec) (expected : Inode)
    (hT : ∀ t i n, (c.env.Truncate t i n).2 = i)
    (hS : ∀ t i, (c.env.Sync t i).2 = i)
    (hSA : ∀ t i, (c.env.SyncAttr t i).2 = i)
    (hnow : now = c.env.clock_gettime (c.trace ++ [Call.GetInode ino OK]))
    (hexp : expected =
      { c.inodes ino with
        mode := if to_set &&& FUSE_SET_ATTR_MODE ≠ 0 then attr.st_mode else (c.inodes ino).mode
        uid := if to_set &&& FUSE_SET_ATTR_UID ≠ 0 then attr.st_uid else (c.inodes ino).uid
        gid := if to_set &&& FUSE_SET_ATTR_GID ≠ 0 then attr.st_gid else (c.inodes ino).gid
        atime := if to_set &&& FUSE_SET_ATTR_ATIME_NOW ≠ 0 then now.tv_sec
                 else if to_set &&& FUSE_SET_ATTR_ATIME ≠ 0 then attr.st_atim.tv_sec
                 else (c.inodes ino).atime
        atime_ns := if to_set &&& FUSE_SET_ATTR_ATIME_NOW ≠ 0 then now.tv_nsec
                    else if to_set &&& FUSE_SET_ATTR_ATIME ≠ 0 then attr.st_atim.tv_nsec
                    else (c.inodes ino).atime_ns
        mtime := if to_set &&& FUSE_SET_ATTR_MTIME_NOW ≠ 0 then now.tv_sec
                 else if to_set &&& FUSE_SET_ATTR_MTIME ≠ 0 then attr.st_mtim.tv_sec
                 else (c.inodes ino).mtime
        mtime_ns := if to_set &&& FUSE_SET_ATTR_MTIME_NOW ≠ 0 then now.tv_nsec
                    else if to_set &&& FUSE_SET_ATTR_MTIME ≠ 0 then attr.st_mtim.tv_nsec
                    else (c.inodes ino).mtime_ns
        ctime := if to_set &&& FUSE_SET_ATTR_CTIME ≠ 0 then attr.st_ctim.tv_sec
                 else now.tv_sec
        ctime_ns := if to_set &&& FUSE_SET_ATTR_CTIME ≠ 0 then attr.st_ctim.tv_nsec
                    else now.tv_nsec
        length := if to_set &&& FUSE_SET_ATTR_SIZE ≠ 0 then attr.st_size
                  else (c.inodes ino).length })
    (hok : (c.FuseOpSetAttr ino attr to_set).1 = OK) :
    (c.FuseOpSetAttr ino attr to_set).2.1 = some expected ∧
    ∃ x, (c.FuseOpSetAttr ino attr to_set).2.2.inodes ino = { expected with xattr := x } := by
  revert hok
  unfold FuseClient.FuseOpSetAttr
  lift_lets
  extract_lets r c1 now0 i0 i1 i2 i3 i4 i5 i6 i7 i8 c2 changeSize t src c3 r1 attrOut r2
  by_cases g : r.1 = OK
  swap
  · rw [if_pos g]
    intro h
    exact absurd h g
  have g0 : c.env.GetInode c.trace ino = OK := g
  have hnow0 : now0 = now := by
    rw [hnow]
    simp only [now0, c1, r, FuseClient.GetInode, FuseClient.log, g0]
  have hi0 : i0 = c.inodes ino := rfl
  have s1 : i1 = { i0 with mode := if to_set &&& FUSE_SET_ATTR_MODE ≠ 0 then attr.st_mode
                                  else i0.mode } := by
    simp only [i1]; split_ifs <;> rfl
  have s2 : i2 = { i1 with uid := if to_set &&& FUSE_SET_ATTR_UID ≠ 0 then attr.st_uid
                                 else i1.uid } := by
    simp only [i2]; split_ifs <;> rfl
  have s3 : i3 = { i2 with gid := if to_set &&& FUSE_SET_ATTR_GID ≠ 0 then attr.st_gid
                                 else i2.gid } := by
    simp only [i3]; split_ifs <;> rfl
  have s4 : i4 =
      { i3 with
        atime := if to_set &&& FUSE_SET_ATTR_ATIME ≠ 0 then attr.st_atim.tv_sec else i3.atime
        atime_ns := if to_set &&& FUSE_SET_ATTR_ATIME ≠ 0 then attr.st_atim.tv_nsec
                    else i3.atime_ns } := by
    simp only [i4]; split_ifs <;> rfl
  have s5 : i5 =
      { i4 with
        atime := if to_set &&& FUSE_SET_ATTR_ATIME_NOW ≠ 0 then now.tv_sec else i4.atime
        atime_ns := if to_set &&& FUSE_SET_ATTR_ATIME_NOW ≠ 0 then now.tv_nsec
                    else i4.atime_ns } := by
    simp only [i5, hnow0]; split_ifs <;> rfl
  have s6 : i6 =
      { i5 with
        mtime := if to_set &&& FUSE_SET_ATTR_MTIME ≠ 0 then attr.st_mtim.tv_sec else i5.mtime
        mtime_ns := if to_set &&& FUSE_SET_ATTR_MTIME ≠ 0 then attr.st_mtim.tv_nsec
                    else i5.mtime_ns } := by
    simp only [i6]; split_ifs <;> rfl
  have s7 : i7 =
      { i6 with
        mtime := if to_set &&& FUSE_SET_ATTR_MTIME_NOW ≠ 0 then now.tv_sec else i6.mtime
        mtime_ns := if to_set &&& FUSE_SET_ATTR_MTIME_NOW ≠ 0 then now.tv_nsec
                    else i6.mtime_ns } := by
    simp only [i7, hnow0]; split_ifs <;> rfl
  have s8 : i8 =
      { i7 with
        ctime := if to_set &&& FUSE_SET_ATTR_CTIME ≠ 0 then attr.st_ctim.tv_sec else now.tv_sec
        ctime_ns := if to_set &&& FUSE_SET_ATTR_CTIME ≠ 0 then attr.st_ctim.tv_nsec
                    else now.tv_nsec } := by
    simp only [i8, hnow0]; split_ifs <;> rfl
  clear_value i0 i1 i2 i3 i4 i5 i6 i7
  have hE : expected =
      { i8 with length := if to_set &&& FUSE_SET_ATTR_SIZE ≠ 0 then attr.st_size
                          else i8.length } := by
    rw [hexp, s8, s7, s6, s5, s4, s3, s2, s1, hi0]
  have h2 : c2.inodes ino = i8 := by
    simp only [c2, FuseClient.setInode, Function.update_same]
  have ht : t.2.inodes ino = i8 := by
    simp only [t, FuseClient.Truncate, FuseClient.onInode, Function.update_same, h2]
    exact hT _ _ _
  have h3 : c3.inodes ino = { i8 with length := attr.st_size } := by
    simp only [c3, src, FuseClient.setInode, Function.update_same, ht]
  have hr1 : r1.2.inodes ino = { i8 with length := attr.st_size } := by
    simp only [r1, FuseClient.Sync, FuseClient.onInode, Function.update_same, h3]
    exact hS _ _
  have hr2 : r2.2.inodes ino = i8 := by
    simp only [r2, FuseClient.SyncAttr, FuseClient.onInode, Function.update_same, h2]
    exact hSA _ _
  have hout : attrOut = { i8 with length := attr.st_size } := hr1
  clear_value i8 c2 t c3 r1 r2 attrOut changeSize
  have hg : ¬ r.1 ≠ OK := not_not.2 g
  simp only [if_neg hg]
  split_ifs with k1 k2 k3 k4
  all_goals try (intro h; exact absurd h (by assumption))
  · intro _
    obtain ⟨x, hx⟩ := updateParents_inodes
      { xattrinfos := [(XATTRFBYTES, to_string changeSize.natAbs)] }
      (decide (changeSize > 0)) r1.2 (r1.2.inodes ino).parent ino
    refine ⟨?_, x, ?_⟩
    · show some attrOut = some expected
      rw [hout, hE, if_pos k1]
    · show (FuseClient.updateParents _ _ r1.2 _).inodes ino = _
      rw [hx, hr1, hE, if_pos k1]
  · intro _
    refine ⟨?_, i8.xattr, ?_⟩
    · show some attrOut = some expected
      rw [hout, hE, if_pos k1]
    · show r1.2.inodes ino = _
      rw [hr1, hE, if_pos k1]
  · intro _
    refine ⟨?_, i8.xattr, ?_⟩
    · show some (r2.2.inodes ino) = some expected
      rw [hr2, hE, if_neg k1]
    · show r2.2.inodes ino = _
      rw [hr2, hE, if_neg k1]

/-- Witness for C14: the request of the unit test (mode 1, uid 2, gid 3, size 4,
times 5, 6 and 7, every plain bit set) on inode 1 of the test client. -/
theorem FuseOpSetAttr_attributes_witness :
    (testClient.FuseOpSetAttr 1 ⟨1, 2, 3, 4, ⟨5, 0⟩, ⟨6, 0⟩, ⟨7, 0⟩⟩ 1087).1 = OK ∧
    (testClient.FuseOpSetAttr 1 ⟨1, 2, 3, 4, ⟨5, 0⟩, ⟨6, 0⟩, ⟨7, 0⟩⟩ 1087).2.1 =
      some { testClient.inodes 1 with
             mode := 1, uid := 2, gid := 3, length := 4, atime := 5, atime_ns := 0,
             mtime := 6, mtime_ns := 0, ctime := 7, ctime_ns := 0 } :=
  ⟨by decide,
    (FuseOpSetAttr_attributes testClient 1 ⟨1, 2, 3, 4, ⟨5, 0⟩, ⟨6, 0⟩, ⟨7, 0⟩⟩ 1087
      ⟨7, 9⟩ _ (fun _ _ _ => rfl) (fun _ _ => rfl) (fun _ _ => rfl) rfl (by decide)
      (by decide)).1⟩

/-- The loop over the parents makes one `UpdateParentInodeXattr` call per
parent, in order, each with the same message and direction. -/
theorem updateParents_calls (xattr : XAttr) (direction : Bool) (c : FuseClient)
    (parents : List Nat) :
    ∃ rcs : List CURVEFS_ERROR, rcs.length = parents.length ∧
      (FuseClient.updateParents xattr direction c parents).trace =
        c.trace ++ List.zipWith (fun p rc => Call.UpdateParentInodeXattr p xattr direction rc)
          parents rcs := by
  induction parents generalizing c with
  | nil => exact ⟨[], rfl, by simp [FuseClient.updateParents]⟩
  | cons it rest ih =>
    obtain ⟨rcs, hlen, h⟩ := ih (c.UpdateParentInodeXattr it xattr direction).2
    refine ⟨(c.UpdateParentInodeXattr it xattr direction).1 :: rcs, by simp [hlen], ?_⟩
    rw [FuseClient.updateParents, h]
    simp [FuseClient.UpdateParentInodeXattr, FuseClient.onInode]

/-- The loop over the parents keeps the parent list of every inode. -/
theorem updateParents_parent (xattr : XAttr) (direction : Bool) (c : FuseClient)
    (parents : List Nat) (j : Nat) :
    ((FuseClient.updateParents xattr direction c parents).inodes j).parent =
      (c.inodes j).parent := by
  obtain ⟨x, h⟩ := updateParents_inodes xattr direction c parents j
  rw [h]

/-- For file sizes (below 2^63) the 64-bit difference converted to `int64_t` is
the difference of the two sizes. -/
theorem int64_t_sub (s L : Nat) (hs : s < 2 ^ 63) (hL : L < 2 ^ 63) :
    int64_t (s % 2 ^ 64 + (2 ^ 64 - L % 2 ^ 64)) = (s : Int) - (L : Int) := by
  unfold int64_t
  norm_num at hs hL ⊢
  split_ifs <;> omega

/-- C15: with enableSumInDir set, a successful FuseOpSetAttr with the size bit
that takes a file of length L to st_size s (both file sizes, below 2^63)
invokes GetInode, Truncate and Sync and then, when s differs from L, calls
UpdateParentInodeXattr once for every parent listed in the inode, in order,
with the single counter curve.dir.fbytes set to the decimal of |s - L| and the
direction add exactly when s > L; when s = L it makes no such call. -/
theorem FuseOpSetAttr_fbytes (c : FuseClient) (ino : Nat) (attr : stat) (to_set : Nat)
    (hsum : c.enableSumInDir_ = true)
    (hsize : to_set &&& FUSE_SET_ATTR_SIZE ≠ 0)
    (hs : attr.st_size < 2 ^ 63)
    (hL : (c.inodes ino).length < 2 ^ 63)
    (hok : (c.FuseOpSetAttr ino attr to_set).1 = OK) :
    (attr.st_size = (c.inodes ino).length →
      (c.FuseOpSetAttr ino attr to_set).2.2.trace =
        c.trace ++ [Call.GetInode ino OK, Call.Truncate ino attr.st_size OK,
          Call.Sync ino OK]) ∧
    (attr.st_size ≠ (c.inodes ino).length →
      ∃ rcs : List CURVEFS_ERROR,
        rcs.length = ((c.FuseOpSetAttr ino attr to_set).2.2.inodes ino).parent.length ∧
        (c.FuseOpSetAttr ino attr to_set).2.2.trace =
          c.trace ++ [Call.GetInode ino OK, Call.Truncate ino attr.st_size OK,
            Call.Sync ino OK] ++
          List.zipWith
            (fun p rc =>
              Call.UpdateParentInodeXattr p
                { xattrinfos :=
                    [(XATTRFBYTES,
                      to_string ((attr.st_size : Int) - ((c.inodes ino).length : Int)).natAbs)] }
                (decide ((c.inodes ino).length < attr.st_size)) rc)
            ((c.FuseOpSetAttr ino attr to_set).2.2.inodes ino).parent rcs) := by
  revert hok
  unfold FuseClient.FuseOpSetAttr
  lift_lets
  extract_lets r c1 now0 i0 i1 i2 i3 i4 i5 i6 i7 i8 c2 changeSize t src c3 r1 attrOut r2
  have hi0 : i0 = c.inodes ino := rfl
  have l1 : i1.length = i0.length := by simp only [i1]; split_ifs <;> rfl
  have l2 : i2.length = i1.length := by simp only [i2]; split_ifs <;> rfl
  have l3 : i3.length = i2.length := by simp only [i3]; split_ifs <;> rfl
  have l4 : i4.length = i3.length := by simp only [i4]; split_ifs <;> rfl
  have l5 : i5.length = i4.length := by simp only [i5]; split_ifs <;> rfl
  have l6 : i6.length = i5.length := by simp only [i6]; split_ifs <;> rfl
  have l7 : i7.length = i6.length := by simp only [i7]; split_ifs <;> rfl
  have l8 : i8.length = i7.length := by simp only [i8]; split_ifs <;> rfl
  have hl : i8.length = (c.inodes ino).length := by
    rw [l8, l7, l6, l5, l4, l3, l2, l1, hi0]
  have hcs : changeSize = (attr.st_size : Int) - ((c.inodes ino).length : Int) := by
    simp only [changeSize, hl]
    exact int64_t_sub _ _ hs hL
  have he : r1.2.enableSumInDir_ = true := hsum
  have t1 : r1.2.trace = c.trace ++ [Call.GetInode ino r.1, Call.Truncate ino attr.st_size t.1,
      Call.Sync ino r1.1] := by
    simp [r1, c3, t, c2, c1, r]
  clear_value i0 i1 i2 i3 i4 i5 i6 i7 i8 changeSize
  clear_value r1 r2 attrOut
  clear_value c3 src
  clear_value t c2 c1 r
  subst hcs
  split_ifs with k1 k2 k3 k4
  all_goals try (intro h; exact absurd h (by assumption))
  · intro h
    have e1 : r.1 = OK := not_not.1 k1
    have e2 : t.1 = OK := not_not.1 k2
    have e3 : r1.1 = OK := h
    rw [e1, e2, e3] at t1
    refine ⟨fun heq => absurd k4.2 (by omega), fun hne => ?_⟩
    obtain ⟨rcs, hlen, htr⟩ := updateParents_calls
      { xattrinfos := [(XATTRFBYTES,
          to_string ((attr.st_size : Int) - ((c.inodes ino).length : Int)).natAbs)] }
      (decide ((attr.st_size : Int) - ((c.inodes ino).length : Int) > 0)) r1.2
      (r1.2.inodes ino).parent
    have hd : decide ((attr.st_size : Int) - ((c.inodes ino).length : Int) > 0) =
        decide ((c.inodes ino).length < attr.st_size) := by
      apply decide_eq_decide.2
      omega
    refine ⟨rcs, ?_, ?_⟩
    · show rcs.length = ((FuseClient.updateParents _ _ r1.2 _).inodes ino).parent.length
      rw [updateParents_parent]
      exact hlen
    · show (FuseClient.updateParents _ _ r1.2 _).trace = _
      rw [htr, t1]
      show _ = _ ++ List.zipWith _
        ((FuseClient.updateParents _ _ r1.2 _).inodes ino).parent rcs
      rw [updateParents_parent, hd]
  · intro h
    have e1 : r.1 = OK := not_not.1 k1
    have e2 : t.1 = OK := not_not.1 k2
    have e3 : r1.1 = OK := h
    rw [e1, e2, e3] at t1
    have hz : (attr.st_size : Int) - ((c.inodes ino).length : Int) = 0 := by
      by_contra hne
      exact k4 ⟨he, hne⟩
    refine ⟨fun _ => t1, fun hne => absurd hz (by omega)⟩

/-- Witness for C15: truncating inode 1 of the summary client from 4096 bytes to
0 asks for the byte counter of its parent 0 to be decreased by 4096. -/
theorem FuseOpSetAttr_fbytes_witness :
    (summaryClient.FuseOpSetAttr 1 ⟨0, 0, 0, 0, ⟨0, 0⟩, ⟨0, 0⟩, ⟨0, 0⟩⟩ 8).1 = OK ∧
    (summaryClient.FuseOpSetAttr 1 ⟨0, 0, 0, 0, ⟨0, 0⟩, ⟨0, 0⟩, ⟨0, 0⟩⟩ 8).2.2.trace =
      [Call.GetInode 1 OK, Call.Truncate 1 0 OK, Call.Sync 1 OK,
        Call.UpdateParentInodeXattr 0 { xattrinfos := [(XATTRFBYTES, "4096")] } false OK] ∧
    ∃ rcs : List CURVEFS_ERROR,
      rcs.length =
        ((summaryClient.FuseOpSetAttr 1 ⟨0, 0, 0, 0, ⟨0, 0⟩, ⟨0, 0⟩, ⟨0, 0⟩⟩ 8).2.2.inodes
          1).parent.length ∧
      (summaryClient.FuseOpSetAttr 1 ⟨0, 0, 0, 0, ⟨0, 0⟩, ⟨0, 0⟩, ⟨0, 0⟩⟩ 8).2.2.trace =
        summaryClient.trace ++ [Call.GetInode 1 OK, Call.Truncate 1 0 OK, Call.Sync 1 OK] ++
        List.zipWith
          (fun p rc =>
            Call.UpdateParentInodeXattr p
              { xattrinfos :=
                  [(XATTRFBYTES,
                    to_string (((0 : Nat) : Int) -
                      ((summaryClient.inodes 1).length : Int)).natAbs)] }
              (decide ((summaryClient.inodes 1).length < 0)) rc)
          ((summaryClient.FuseOpSetAttr 1 ⟨0, 0, 0, 0, ⟨0, 0⟩, ⟨0, 0⟩, ⟨0, 0⟩⟩ 8).2.2.inodes
            1).parent rcs :=
  ⟨by decide, by decide,
    (FuseOpSetAttr_fbytes summaryClient 1 ⟨0, 0, 0, 0, ⟨0, 0⟩, ⟨0, 0⟩, ⟨0, 0⟩⟩ 8 rfl
      (by decide) (by decide) (by decide) (by decide)).2 (by decide)⟩

/-- What a delta does to one counter: the amounts filed under its name are
added, or taken off. -/
theorem applyDelta_apply (delta : List (String × Nat)) (direction : Bool)
    (counters : String → Int) (k : String) :
    applyDelta counters delta direction k =
      counters k + (if direction then 1 else -1) *
        ((delta.filter fun kv => kv.1 = k).map fun kv => (kv.2 : Int)).sum := by
  unfold applyDelta
  induction delta generalizing counters with
  | nil => simp
  | cons kv rest ih =>
    rw [List.foldl_cons, ih]
    by_cases h : kv.1 = k
    · subst h
      cases direction <;> simp [List.filter_cons] <;> ring
    · simp [List.filter_cons, h, Function.update_noteq (Ne.symm h)]

/-- Adding a delta and taking the same delta off restores every counter. -/
theorem applyDelta_cancel (counters : String → Int) (delta : List (String × Nat)) :
    applyDelta (applyDelta counters delta true) delta false = counters := by
  funext k
  rw [applyDelta_apply, applyDelta_apply]
  simp

/-- A method of an inode wrapper leaves the summary switch alone. -/
theorem onInode_enableSumInDir (c : FuseClient) (ino : Nat)
    (method : List Call → Inode → CURVEFS_ERROR × Inode) (event : CURVEFS_ERROR → Call) :
    (c.onInode ino method event).2.enableSumInDir_ = c.enableSumInDir_ := rfl

/-- Recording an invocation leaves the summary switch alone. -/
theorem log_enableSumInDir (c : FuseClient) (e : Call) :
    (c.log e).enableSumInDir_ = c.enableSumInDir_ := rfl

/-- C16: with enableSumInDir set, a successful MakeNode ends, after CreateInode,
CreateDentry, GetInode and IncreaseNLink, with one UpdateParentInodeXattr on
the parent carrying the delta of the new node (one entry, one sub-directory
for a directory and one file otherwise, the bytes of the node) with direction
plus; a successful RemoveNode calls UpdateParentInodeXattr on the parent once,
with the delta of the removed node and direction minus, the kind taken from
isDir; and on counters kept as numbers, adding a delta and taking the same
delta off gives back the counters. -/
theorem summary_delta (c : FuseClient) (ctx : fuse_ctx) (parent : Nat) (name : String)
    (mode : Nat) (type : FsFileType) (rdev : Nat) (isDir : Bool)
    (hsum : c.enableSumInDir_ = true) :
    ((c.MakeNode ctx parent name mode type rdev).1 = OK →
      ∃ param dentry e rc,
        (c.MakeNode ctx parent name mode type rdev).2.1 = some e ∧
        (c.MakeNode ctx parent name mode type rdev).2.2.trace =
          c.trace ++
            [Call.CreateInode param OK, Call.CreateDentry dentry OK, Call.GetInode parent OK,
             Call.IncreaseNLink parent OK,
             Call.UpdateParentInodeXattr parent
               (toXAttr (summaryDelta (decide (type = FsFileType.TYPE_DIRECTORY))
                 e.attr.length)) true rc]) ∧
    ((c.RemoveNode parent name isDir).1 = OK →
      ∃ ino rc,
        ino = (c.env.GetDentry c.trace parent name).2.inodeid ∧
        (c.RemoveNode parent name isDir).2.trace =
          c.trace ++ [Call.GetDentry parent name OK] ++
            (if isDir = true then [Call.ListDentry ino c.option_.listDentryLimit OK] else []) ++
            [Call.DeleteDentry parent name OK, Call.GetInode parent OK,
             Call.DecreaseNLink parent OK, Call.GetInode ino OK,
             Call.UnLinkLocked ino parent OK,
             Call.UpdateParentInodeXattr parent
               (toXAttr (summaryDelta isDir
                 (((c.RemoveNode parent name isDir).2.inodes ino).length))) false rc,
             Call.ClearInodeCache ino]) ∧
    (∀ (counters : String → Int) (length : Nat),
      applyDelta (applyDelta counters (summaryDelta isDir length) true)
        (summaryDelta isDir length) false = counters) := by
  refine ⟨?_, ?_, fun counters length => applyDelta_cancel counters _⟩
  · unfold FuseClient.MakeNode
    lift_lets
    extract_lets param r ino c1 dentry r2 r3 r4 c5
    have h1 : c1.trace = c.trace ++ [Call.CreateInode param r.1] := CreateInode_trace c param
    have h2 : r2.2.trace = c1.trace ++ [Call.CreateDentry dentry r2.1] := rfl
    have h3 : r3.2.trace = r2.2.trace ++ [Call.GetInode parent r3.1] := rfl
    have h4 : r4.2.trace = r3.2.trace ++ [Call.IncreaseNLink parent r4.1] := rfl
    have he : r4.2.enableSumInDir_ = true := by
      show c1.enableSumInDir_ = true
      simp only [c1, r, FuseClient.CreateInode]
      split_ifs <;> exact hsum
    have h5 : c5 = (r4.2.UpdateParentInodeXattr parent
        { xattrinfos :=
            [(XATTRENTRIES, "1"),
             (if type = FsFileType.TYPE_DIRECTORY then XATTRSUBDIRS else XATTRFILES, "1"),
             (XATTRFBYTES, to_string (r4.2.inodes ino).length)] } true).2 := by
      simp only [c5, if_pos he]
    have hx : ({ xattrinfos :=
            [(XATTRENTRIES, "1"),
             (if type = FsFileType.TYPE_DIRECTORY then XATTRSUBDIRS else XATTRFILES, "1"),
             (XATTRFBYTES, to_string (r4.2.inodes ino).length)] } : XAttr) =
        toXAttr (summaryDelta (decide (type = FsFileType.TYPE_DIRECTORY))
          (c5.inodes ino).length) := by
      have hl : (c5.inodes ino).length = (r4.2.inodes ino).length := by
        rw [h5]
        by_cases hj : ino = parent
        · rw [hj]
          simp [FuseClient.UpdateParentInodeXattr, FuseClient.onInode]
        · simp [FuseClient.UpdateParentInodeXattr, FuseClient.onInode, hj]
      rw [hl]
      by_cases ht : type = FsFileType.TYPE_DIRECTORY
      · simp only [toXAttr, summaryDelta, ht, if_true, decide_True, List.map]; rfl
      · simp only [toXAttr, summaryDelta, ht, if_false, decide_False, List.map]; rfl
    have h6 : c5.trace = r4.2.trace ++ [Call.UpdateParentInodeXattr parent
        (toXAttr (summaryDelta (decide (type = FsFileType.TYPE_DIRECTORY))
          (c5.inodes ino).length)) true
        (r4.2.UpdateParentInodeXattr parent
          (toXAttr (summaryDelta (decide (type = FsFileType.TYPE_DIRECTORY))
            (c5.inodes ino).length)) true).1] := by
      rw [← hx]
      conv_lhs => rw [h5]
      exact UpdateParentInodeXattr_trace _ _ _ _
    clear_value c5 r4 r3 r2 c1 r
    split_ifs with g1 g2 g3 g4 g5
    all_goals try (intro h; exact absurd h (by assumption))
    · intro h; exact h.elim
    · intro h
      have e1 : r.1 = OK := not_not.1 g2
      have e2 : r2.1 = OK := not_not.1 g3
      have e3 : r3.1 = OK := not_not.1 g4
      have e4 : r4.1 = OK := h
      refine ⟨param, dentry, c5.GetDentryParamFromInode ino,
        (r4.2.UpdateParentInodeXattr parent
          (toXAttr (summaryDelta (decide (type = FsFileType.TYPE_DIRECTORY))
            (c5.inodes ino).length)) true).1, rfl, ?_⟩
      show c5.trace = _
      rw [h6, h4, h3, h2, h1, e1, e2, e3, e4]
      simp [FuseClient.GetDentryParamFromInode]
  · unfold FuseClient.RemoveNode
    lift_lets
    extract_lets r ino l0 l r1 r2 r3 r4 r5 c6
    have h0 : r.2.2.trace = c.trace ++ [Call.GetDentry parent name r.1] := rfl
    have hino : ino = (c.env.GetDentry c.trace parent name).2.inodeid := rfl
    have hl0 : l0.2.2.trace =
        r.2.2.trace ++ [Call.ListDentry ino c.option_.listDentryLimit l0.1] := rfl
    have hl : l.1 = OK → l.2.trace = r.2.2.trace ++
        (if isDir = true then [Call.ListDentry ino c.option_.listDentryLimit OK] else []) := by
      simp only [l]
      split_ifs with a b d
      · intro h; exact absurd h b
      · intro h; exact absurd h (by decide)
      · intro _
        have e : l0.1 = OK := not_not.1 b
        show l0.2.2.trace = _
        rw [hl0, e]
      · intro _
        exact (List.append_nil _).symm
    have hle : l.2.enableSumInDir_ = true := by
      simp only [l]
      split_ifs <;> exact hsum
    have h1 : r1.2.trace = l.2.trace ++ [Call.DeleteDentry parent name r1.1] := rfl
    have h2 : r2.2.trace = r1.2.trace ++ [Call.GetInode parent r2.1] := rfl
    have h3 : r3.2.trace = r2.2.trace ++ [Call.DecreaseNLink parent r3.1] := rfl
    have h4 : r4.2.trace = r3.2.trace ++ [Call.GetInode ino r4.1] := rfl
    have h5 : r5.2.trace = r4.2.trace ++ [Call.UnLinkLocked ino parent r5.1] := rfl
    have he : r5.2.enableSumInDir_ = true := by
      simp only [r5, r4, r3, r2, r1, FuseClient.UnLinkLocked, FuseClient.GetInode,
        FuseClient.DecreaseNLink, FuseClient.DeleteDentry, onInode_enableSumInDir,
        log_enableSumInDir]
      exact hle
    have h6 : c6 = (r5.2.UpdateParentInodeXattr parent
        { xattrinfos :=
            [(XATTRENTRIES, "1"),
             (if isDir = true then XATTRSUBDIRS else XATTRFILES, "1"),
             (XATTRFBYTES, to_string (r5.2.inodes ino).length)] } false).2 := by
      simp only [c6, if_pos he]
    have hlen : ((c6.log (Call.ClearInodeCache ino)).inodes ino).length =
        (r5.2.inodes ino).length := by
      show (c6.inodes ino).length = _
      rw [h6]
      by_cases hj : ino = parent
      · rw [hj]
        simp [FuseClient.UpdateParentInodeXattr, FuseClient.onInode]
      · simp [FuseClient.UpdateParentInodeXattr, FuseClient.onInode, hj]
    have hx : ({ xattrinfos :=
            [(XATTRENTRIES, "1"),
             (if isDir = true then XATTRSUBDIRS else XATTRFILES, "1"),
             (XATTRFBYTES, to_string (r5.2.inodes ino).length)] } : XAttr) =
        toXAttr (summaryDelta isDir
          ((c6.log (Call.ClearInodeCache ino)).inodes ino).length) := by
      rw [hlen]
      cases isDir <;> rfl
    have h7 : (c6.log (Call.ClearInodeCache ino)).trace = r5.2.trace ++
        [Call.UpdateParentInodeXattr parent
          (toXAttr (summaryDelta isDir
            ((c6.log (Call.ClearInodeCache ino)).inodes ino).length)) false
          (r5.2.UpdateParentInodeXattr parent
            (toXAttr (summaryDelta isDir
              ((c6.log (Call.ClearInodeCache ino)).inodes ino).length)) false).1,
         Call.ClearInodeCache ino] := by
      rw [← hx, log_trace]
      conv_lhs => rw [h6]
      rw [UpdateParentInodeXattr_trace]
      simp
    clear_value c6 r5 r4 r3 r2 r1 l l0 r
    by_cases g1 : strlen name > c.option_.maxNameLength
    · simp only [if_pos g1]
      intro h
      exact absurd h (by decide)
    by_cases g2 : r.1 ≠ OK
    · simp only [if_neg g1, if_pos g2]
      intro h
      exact absurd h g2
    by_cases g3 : l.1 ≠ OK
    · simp only [if_neg g1, if_neg g2, if_pos g3]
      intro h
      exact absurd h g3
    by_cases g4 : r1.1 ≠ OK
    · simp only [if_neg g1, if_neg g2, if_neg g3, if_pos g4]
      intro h
      exact absurd h g4
    by_cases g5 : r2.1 ≠ OK
    · simp only [if_neg g1, if_neg g2, if_neg g3, if_neg g4, if_pos g5]
      intro h
      exact absurd h g5
    by_cases g6 : r3.1 ≠ OK
    · simp only [if_neg g1, if_neg g2, if_neg g3, if_neg g4, if_neg g5, if_pos g6]
      intro h
      exact absurd h g6
    by_cases g7 : r4.1 ≠ OK
    · simp only [if_neg g1, if_neg g2, if_neg g3, if_neg g4, if_neg g5, if_neg g6, if_pos g7]
      intro h
      exact absurd h g7
    simp only [if_neg g1, if_neg g2, if_neg g3, if_neg g4, if_neg g5, if_neg g6, if_neg g7]
    intro h
    have e0 : r.1 = OK := not_not.1 g2
    have el : l.1 = OK := not_not.1 g3
    have e1 : r1.1 = OK := not_not.1 g4
    have e2 : r2.1 = OK := not_not.1 g5
    have e3 : r3.1 = OK := not_not.1 g6
    have e4 : r4.1 = OK := not_not.1 g7
    have e5 : r5.1 = OK := h
    refine ⟨ino,
      (r5.2.UpdateParentInodeXattr parent
        (toXAttr (summaryDelta isDir
          ((c6.log (Call.ClearInodeCache ino)).inodes ino).length)) false).1, hino, ?_⟩
    show (c6.log (Call.ClearInodeCache ino)).trace = _
    rw [h7, h5, h4, h3, h2, h1, hl el, h0, e0, e1, e2, e3, e4, e5]
    simp

/-- Witness for C16: on the summary client, creating the file a under inode 1
and unlinking the name a from inode 1 both succeed, and each ends with the
summary update of inode 1. -/
theorem summary_delta_witness :
    summaryClient.enableSumInDir_ = true ∧
    (summaryClient.MakeNode ⟨0, 0⟩ 1 "a" 0 FsFileType.TYPE_S3 0).1 = OK ∧
    (summaryClient.RemoveNode 1 "a" false).1 = OK ∧
    (∃ param dentry e rc,
      (summaryClient.MakeNode ⟨0, 0⟩ 1 "a" 0 FsFileType.TYPE_S3 0).2.1 = some e ∧
      (summaryClient.MakeNode ⟨0, 0⟩ 1 "a" 0 FsFileType.TYPE_S3 0).2.2.trace =
        summaryClient.trace ++
          [Call.CreateInode param OK, Call.CreateDentry dentry OK, Call.GetInode 1 OK,
           Call.IncreaseNLink 1 OK,
           Call.UpdateParentInodeXattr 1
             (toXAttr (summaryDelta false e.attr.length)) true rc]) ∧
    (∃ ino rc,
      ino = (summaryClient.env.GetDentry summaryClient.trace 1 "a").2.inodeid ∧
      (summaryClient.RemoveNode 1 "a" false).2.trace =
        summaryClient.trace ++ [Call.GetDentry 1 "a" OK] ++ [] ++
          [Call.DeleteDentry 1 "a" OK, Call.GetInode 1 OK, Call.DecreaseNLink 1 OK,
           Call.GetInode ino OK, Call.UnLinkLocked ino 1 OK,
           Call.UpdateParentInodeXattr 1
             (toXAttr (summaryDelta false
               (((summaryClient.RemoveNode 1 "a" false).2.inodes ino).length))) false rc,
           Call.ClearInodeCache ino]) :=
  have h := summary_delta summaryClient ⟨0, 0⟩ 1 "a" 0 FsFileType.TYPE_S3 0 false rfl
  ⟨rfl, by decide, by decide, h.1 (by decide), h.2.1 (by decide)⟩

/-- A C string is as long as `strlen` says, plus the NUL. -/
theorem length_c_str (s : String) : (c_str s).length = s.utf8ByteSize + 1 := by
  simp [c_str, ← String.size_toUTF8, ByteArray.size]

/-- Adding up modulo 2^64 from a start below 2^64 gives the sum modulo 2^64. -/
theorem foldl_add_mod (w : (String × String) → Nat) (xs : List (String × String)) (a : Nat)
    (ha : a < 2 ^ 64) :
    xs.foldl (fun n it => (n + w it) % 2 ^ 64) a = (a + (xs.map w).sum) % 2 ^ 64 := by
  induction xs generalizing a with
  | nil => simpa using (Nat.mod_eq_of_lt ha).symm
  | cons x xs ih =>
    rw [List.foldl_cons, ih _ (Nat.mod_lt _ (by norm_num))]
    simp [Nat.add_assoc]

/-- Appending the C strings of the keys one after the other. -/
theorem foldl_c_str (xs : List (String × String)) (v : List Nat) :
    xs.foldl (fun v it => v ++ c_str it.1) v = v ++ (xs.map fun it => c_str it.1).flatten := by
  induction xs generalizing v with
  | nil => simp
  | cons x xs ih => rw [List.foldl_cons, ih]; simp

/-- The keys written one after the other take the sum of their lengths, each
plus one. -/
theorem length_join_c_str (xs : List (String × String)) :
    (xs.map fun it => c_str it.1).flatten.length =
      (xs.map fun it => it.1.utf8ByteSize + 1).sum := by
  induction xs with
  | nil => simp
  | cons x xs ih => simp [length_c_str, ih]

/-- C17: for an inode that the inode manager hands out and whose names total
less than 2^64 bytes, FuseOpListXattr started with realSize 0 sets realSize to
the sum of the key lengths, each plus one, plus for a directory the lengths,
each plus one, of the four recursive summary names; with size 0 it returns OK
and writes nothing; with a size of at least realSize it returns OK and writes
the keys and, for a directory, the four names, each with its NUL, which are
realSize bytes; with a size in between it returns OUT_OF_RANGE and writes
nothing. -/
theorem FuseOpListXattr_sizes (c : FuseClient) (ino size total : Nat)
    (hget : c.env.GetInode c.trace ino = OK)
    (htotal : total =
      ((c.inodes ino).xattr.map fun it => it.1.utf8ByteSize + 1).sum +
        (if (c.inodes ino).type = FsFileType.TYPE_DIRECTORY then
          (strlen XATTRRFILES + 1) + (strlen XATTRRSUBDIRS + 1) + (strlen XATTRRENTRIES + 1) +
            (strlen XATTRRFBYTES + 1)
         else 0))
    (hfit : total < 2 ^ 64) :
    (c.FuseOpListXattr ino size 0).2.2.1 = total ∧
    (size = 0 →
      (c.FuseOpListXattr ino size 0).1 = OK ∧ (c.FuseOpListXattr ino size 0).2.1 = []) ∧
    (0 < size → size ≥ total →
      (c.FuseOpListXattr ino size 0).1 = OK ∧
      (c.FuseOpListXattr ino size 0).2.1 =
        ((c.inodes ino).xattr.map fun it => c_str it.1).flatten ++
          (if (c.inodes ino).type = FsFileType.TYPE_DIRECTORY then
            c_str XATTRRFILES ++ c_str XATTRRSUBDIRS ++ c_str XATTRRENTRIES ++
              c_str XATTRRFBYTES
           else []) ∧
      (c.FuseOpListXattr ino size 0).2.1.length = total) ∧
    (0 < size → size < total →
      (c.FuseOpListXattr ino size 0).1 = OUT_OF_RANGE ∧
      (c.FuseOpListXattr ino size 0).2.1 = []) := by
  unfold FuseClient.FuseOpListXattr
  lift_lets
  extract_lets r inode rs0 rs v0 v
  have hr : r.1 = OK := hget
  have hi : inode = c.inodes ino := rfl
  have h0 : rs0 = ((c.inodes ino).xattr.map fun it => it.1.utf8ByteSize + 1).sum % 2 ^ 64 := by
    simp only [rs0, hi]
    rw [foldl_add_mod _ _ 0 (by norm_num), Nat.zero_add]
  have hrs : rs = total := by
    simp only [rs, h0, hi]
    rw [htotal] at hfit ⊢
    split_ifs with hd
    · rw [if_pos hd] at hfit
      omega
    · rw [if_neg hd] at hfit
      omega
  have hv0 : v0 = ((c.inodes ino).xattr.map fun it => c_str it.1).flatten := by
    simp only [v0, hi]
    rw [foldl_c_str, List.nil_append]
  have hv : v = ((c.inodes ino).xattr.map fun it => c_str it.1).flatten ++
      (if (c.inodes ino).type = FsFileType.TYPE_DIRECTORY then
        c_str XATTRRFILES ++ c_str XATTRRSUBDIRS ++ c_str XATTRRENTRIES ++ c_str XATTRRFBYTES
       else []) := by
    simp only [v, hv0, hi]
    split_ifs <;> simp
  have hvl : v.length = total := by
    rw [hv, htotal, List.length_append, length_join_c_str]
    split_ifs
    · simp [length_c_str, strlen]
      omega
    · simp [length_c_str, strlen]
  clear_value v rs
  rw [hrs]
  have hg : ¬ r.1 ≠ OK := not_not.2 hr
  simp only [if_neg hg]
  refine ⟨?_, ?_, ?_, ?_⟩
  · split_ifs <;> rfl
  · intro hs
    simp only [if_pos hs]
    exact ⟨trivial, trivial⟩
  · intro hs hge
    have hs0 : ¬ size = 0 := by omega
    simp only [if_neg hs0, if_pos hge]
    exact ⟨trivial, hv, hvl⟩
  · intro hs hlt
    have hs0 : ¬ size = 0 := by omega
    have hge : ¬ size ≥ total := by omega
    simp only [if_neg hs0, if_neg hge]
    exact ⟨trivial, trivial⟩

/-- Witness for C17: on the directory of the tests, with the one key
security, realSize is 9 + 17 + 19 + 19 + 18 = 82; a size of 82 is answered OK
with 82 bytes written and a size of 81 is answered OUT_OF_RANGE. -/
theorem FuseOpListXattr_sizes_witness :
    (xattrClient.FuseOpListXattr 1 82 0).2.2.1 = 82 ∧
    (xattrClient.FuseOpListXattr 1 82 0).1 = OK ∧
    (xattrClient.FuseOpListXattr 1 82 0).2.1.length = 82 ∧
    (xattrClient.FuseOpListXattr 1 81 0).1 = OUT_OF_RANGE :=
  have h := FuseOpListXattr_sizes xattrClient 1 82 82 rfl (by decide) (by decide)
  have h2 := FuseOpListXattr_sizes xattrClient 1 81 82 rfl (by decide) (by decide)
  ⟨h.1, (h.2.2.1 (by decide) (by decide)).1, (h.2.2.1 (by decide) (by decide)).2.2,
    (h2.2.2.2 (by decide) (by decide)).1⟩

/-- C18: for an inode that the inode manager hands out, and a name that is not
a summary name or an inode that is not a directory, with v what
GetXattrUnLocked yields for the name (no bytes when there is none):
FuseOpGetXattr returns NODATA exactly when v has no bytes; otherwise it returns
OK exactly when size is 0 and v is at most MAXXATTRLENGTH long, or v fits into
size and size is at most MAXXATTRLENGTH, and OUT_OF_RANGE in every other case;
v is copied exactly when the result is OK, and then in full and with at most
MAXXATTRLENGTH bytes. -/
theorem FuseOpGetXattr_sizes (c : FuseClient) (MAXXATTRLENGTH ino : Nat) (name : String)
    (size : Nat) (v : String)
    (hget : c.env.GetInode c.trace ino = OK)
    (hns : ¬ (IsSummaryInfo name = true ∧ (c.inodes ino).type = FsFileType.TYPE_DIRECTORY))
    (hv : v = c.env.GetXattrUnLocked (c.inodes ino) name) :
    ((c.FuseOpGetXattr MAXXATTRLENGTH ino name size).1 = NODATA ↔ v.utf8ByteSize = 0) ∧
    (v.utf8ByteSize ≠ 0 →
      ((c.FuseOpGetXattr MAXXATTRLENGTH ino name size).1 = OK ↔
        (size = 0 ∧ v.utf8ByteSize ≤ MAXXATTRLENGTH) ∨
          (v.utf8ByteSize ≤ size ∧ size ≤ MAXXATTRLENGTH))) ∧
    (v.utf8ByteSize ≠ 0 →
      ¬ ((size = 0 ∧ v.utf8ByteSize ≤ MAXXATTRLENGTH) ∨
          (v.utf8ByteSize ≤ size ∧ size ≤ MAXXATTRLENGTH)) →
      (c.FuseOpGetXattr MAXXATTRLENGTH ino name size).1 = OUT_OF_RANGE) ∧
    ((c.FuseOpGetXattr MAXXATTRLENGTH ino name size).1 = OK →
      (c.FuseOpGetXattr MAXXATTRLENGTH ino name size).2.1 = some v ∧
      v.utf8ByteSize ≤ MAXXATTRLENGTH) ∧
    ((c.FuseOpGetXattr MAXXATTRLENGTH ino name size).1 ≠ OK →
      (c.FuseOpGetXattr MAXXATTRLENGTH ino name size).2.1 = none) := by
  unfold FuseClient.FuseOpGetXattr
  lift_lets
  extract_lets r c1 inode s x xValue
  have hr : r.1 = OK := hget
  have hx : x = (OK, v, c1) := by
    have hns1 : ¬ (IsSummaryInfo name = true ∧
        (c1.inodes ino).type = FsFileType.TYPE_DIRECTORY) := hns
    simp only [x, if_neg hns1, hv]
    rfl
  have hxv : xValue = v := by simp only [xValue, hx]
  clear_value x s inode
  subst hx
  clear_value xValue
  subst hxv
  have hg : ¬ r.1 ≠ OK := not_not.2 hr
  have hg2 : ¬ (OK : CURVEFS_ERROR) ≠ OK := by decide
  simp only [if_neg hg, if_neg hg2]
  by_cases h0 : xValue.utf8ByteSize > 0
  · have hne : xValue.utf8ByteSize ≠ 0 := by omega
    by_cases hc : (size = 0 ∧ xValue.utf8ByteSize ≤ MAXXATTRLENGTH) ∨
        (size ≥ xValue.utf8ByteSize ∧ size ≤ MAXXATTRLENGTH)
    · have hle : xValue.utf8ByteSize ≤ MAXXATTRLENGTH := by
        rcases hc with hc | hc <;> omega
      rw [if_pos h0, if_pos hc]
      simp [hne, hle]
      omega
    · rw [if_pos h0, if_neg hc]
      simp [hne]
      omega
  · have he : xValue.utf8ByteSize = 0 := by omega
    rw [if_neg h0]
    simp [he]

/-- Witness for C18: on the directory of the tests the attribute security holds
the one byte 0; with MAXXATTRLENGTH 256 and a buffer of 100 bytes the answer
is OK and the value is copied. -/
theorem FuseOpGetXattr_sizes_witness :
    (xattrClient.FuseOpGetXattr 256 1 "security" 100).1 = OK ∧
    (xattrClient.FuseOpGetXattr 256 1 "security" 100).2.1 = some "0" :=
  have h := FuseOpGetXattr_sizes xattrClient 256 1 "security" 100 "0" rfl (by decide) rfl
  have hok := (h.2.1 (by decide)).2 (Or.inr ⟨by decide, by decide⟩)
  ⟨hok, (h.2.2.2.1 hok).1⟩

theorem size_t_of_nonneg (off : Int) (h0 : 0 ≤ off) (h63 : off < 2 ^ 63) :
    FuseClient.size_t off = off.toNat := by
  unfold FuseClient.size_t
  rw [Int.emod_eq_of_lt h0 (by omega)]

theorem FuseOpReadDir_rest (ret : CURVEFS_ERROR) (db : FuseClient.DirBuffer) (cl : FuseClient)
    (d size : Nat) (off : Int) (h0 : 0 ≤ off) (h63 : off < 2 ^ 63)
    (x : CURVEFS_ERROR × Option Int × Nat × FuseClient.DirBuffer × FuseClient)
    (hx : x = if FuseClient.size_t off < (FuseClient.DirBufferGet db d).size then
        (ret, some off, min ((FuseClient.DirBufferGet db d).size - FuseClient.size_t off) size,
          db, cl)
      else (ret, none, 0, db, cl)) :
    x.1 = ret ∧ x.2.2.2.1 = db ∧ x.2.2.2.2 = cl ∧
    (off.toNat < (db d).size →
      x.2.1 = some off ∧ x.2.2.1 = min ((db d).size - off.toNat) size) ∧
    ((db d).size ≤ off.toNat → x.2.1 = none ∧ x.2.2.1 = 0) ∧
    x.2.2.1 ≤ size ∧ (off.toNat ≤ (db d).size → off.toNat + x.2.2.1 ≤ (db d).size) := by
  rw [size_t_of_nonneg off h0 h63] at hx
  unfold FuseClient.DirBufferGet at hx
  by_cases h : off.toNat < (db d).size
  · rw [if_pos h] at hx
    subst hx
    refine ⟨rfl, rfl, rfl, fun _ => ⟨rfl, rfl⟩, fun h2 => absurd h (by omega), ?_, ?_⟩
    · exact Nat.min_le_right _ _
    · intro _
      have := Nat.min_le_left ((db d).size - off.toNat) size
      show off.toNat + min ((db d).size - off.toNat) size ≤ (db d).size
      omega
  · rw [if_neg h] at hx
    subst hx
    refine ⟨rfl, rfl, rfl, fun h2 => absurd h2 h, fun _ => ⟨rfl, rfl⟩, Nat.zero_le _, ?_⟩
    intro h2
    exact h2

/-- C30, an offset beyond the end of the buffer: the first call on handle 3
lists the two entries and caches 64 bytes; a later call on that handle at
offset 100 is successful and returns the null pointer and size 0, so that
off + rSize is 100, above the 64 bytes of the buffer. -/
theorem FuseOpReadDir_offset_beyond_end :
    (listingClient.FuseOpReadDir freshDirBuffer sampleDirentry 1 4096 0 ⟨0, 3⟩ none 0).1 = OK ∧
    ((listingClient.FuseOpReadDir freshDirBuffer sampleDirentry 1 4096 0
        ⟨0, 3⟩ none 0).2.2.2.1 3).size = 64 ∧
    ((listingClient.FuseOpReadDir freshDirBuffer sampleDirentry 1 4096 0
        ⟨0, 3⟩ none 0).2.2.2.2.FuseOpReadDir
      (listingClient.FuseOpReadDir freshDirBuffer sampleDirentry 1 4096 0 ⟨0, 3⟩ none 0).2.2.2.1
      sampleDirentry 1 4096 100 ⟨0, 3⟩ none 0).1 = OK ∧
    ((listingClient.FuseOpReadDir freshDirBuffer sampleDirentry 1 4096 0
        ⟨0, 3⟩ none 0).2.2.2.2.FuseOpReadDir
      (listingClient.FuseOpReadDir freshDirBuffer sampleDirentry 1 4096 0 ⟨0, 3⟩ none 0).2.2.2.1
      sampleDirentry 1 4096 100 ⟨0, 3⟩ none 0).2.1 = none ∧
    ((listingClient.FuseOpReadDir freshDirBuffer sampleDirentry 1 4096 0
        ⟨0, 3⟩ none 0).2.2.2.2.FuseOpReadDir
      (listingClient.FuseOpReadDir freshDirBuffer sampleDirentry 1 4096 0 ⟨0, 3⟩ none 0).2.2.2.1
      sampleDirentry 1 4096 100 ⟨0, 3⟩ none 0).2.2.1 = 0 ∧
    (((listingClient.FuseOpReadDir freshDirBuffer sampleDirentry 1 4096 0
        ⟨0, 3⟩ none 0).2.2.2.2.FuseOpReadDir
      (listingClient.FuseOpReadDir freshDirBuffer sampleDirentry 1 4096 0 ⟨0, 3⟩ none 0).2.2.2.1
      sampleDirentry 1 4096 100 ⟨0, 3⟩ none 0).2.2.2.1 3).size = 64 ∧
    ¬ (100 + ((listingClient.FuseOpReadDir freshDirBuffer sampleDirentry 1 4096 0
        ⟨0, 3⟩ none 0).2.2.2.2.FuseOpReadDir
      (listingClient.FuseOpReadDir freshDirBuffer sampleDirentry 1 4096 0 ⟨0, 3⟩ none 0).2.2.2.1
      sampleDirentry 1 4096 100 ⟨0, 3⟩ none 0).2.2.1 ≤ 64) := by
  decide

/-- C30: a call of FuseOpReadDir with an offset that is not negative touches
the head of its own handle only.  On a handle that was read it lists nothing
(it logs the call of GetInode alone) and leaves the directory buffers as they
were.  On a handle that was not read, a successful call logs GetInode and one
ListDentry, and the head then is the old head with the listed entries added
by dirbuf_add in their order and marked as read.  A failed call leaves the
directory buffers and the out parameters as they were.  A successful call
leaves the head marked as read, and with T the size of the head after the
call: when off is below T it returns the pointer at off and rSize =
min(T - off, size), otherwise the null pointer and 0; rSize is at most size,
and off + rSize is at most T whenever off is at most T. -/
theorem FuseOpReadDir_slices (c : FuseClient) (dirBuf_ : FuseClient.DirBuffer)
    (fuse_add_direntry : Option Nat → String → Option Nat → Nat → Nat × List Nat)
    (ino size : Nat) (off : Int) (fi : fuse_file_info) (buffer : Option Int) (rSize : Nat)
    (h0 : 0 ≤ off) (h63 : off < 2 ^ 63) :
    (∀ h, h ≠ fi.fh →
      (c.FuseOpReadDir dirBuf_ fuse_add_direntry ino size off fi buffer rSize).2.2.2.1 h =
        dirBuf_ h) ∧
    ((dirBuf_ fi.fh).wasRead = true →
      (c.FuseOpReadDir dirBuf_ fuse_add_direntry ino size off fi buffer rSize).2.2.2.1 =
        dirBuf_ ∧
      (c.FuseOpReadDir dirBuf_ fuse_add_direntry ino size off fi buffer rSize).2.2.2.2.trace =
        c.trace ++ [Call.GetInode ino (c.env.GetInode c.trace ino)]) ∧
    ((dirBuf_ fi.fh).wasRead = false →
      (c.FuseOpReadDir dirBuf_ fuse_add_direntry ino size off fi buffer rSize).1 = OK →
      ∃ dentryList,
        c.env.ListDentry (c.trace ++ [Call.GetInode ino OK]) ino c.option_.listDentryLimit =
          (OK, dentryList) ∧
        (c.FuseOpReadDir dirBuf_ fuse_add_direntry ino size off fi buffer rSize).2.2.2.2.trace =
          c.trace ++ [Call.GetInode ino OK, Call.ListDentry ino c.option_.listDentryLimit OK] ∧
        (c.FuseOpReadDir dirBuf_ fuse_add_direntry ino size off fi buffer rSize).2.2.2.1 fi.fh =
          { dentryList.foldl (FuseClient.dirbuf_add fuse_add_direntry) (dirBuf_ fi.fh) with
            wasRead := true }) ∧
    ((c.FuseOpReadDir dirBuf_ fuse_add_direntry ino size off fi buffer rSize).1 ≠ OK →
      (c.FuseOpReadDir dirBuf_ fuse_add_direntry ino size off fi buffer rSize).2.2.2.1 =
        dirBuf_ ∧
      (c.FuseOpReadDir dirBuf_ fuse_add_direntry ino size off fi buffer rSize).2.1 = buffer ∧
      (c.FuseOpReadDir dirBuf_ fuse_add_direntry ino size off fi buffer rSize).2.2.1 = rSize) ∧
    ((c.FuseOpReadDir dirBuf_ fuse_add_direntry ino size off fi buffer rSize).1 = OK →
      ((c.FuseOpReadDir dirBuf_ fuse_add_direntry ino size off fi buffer rSize).2.2.2.1
        fi.fh).wasRead = true ∧
      (off.toNat <
          ((c.FuseOpReadDir dirBuf_ fuse_add_direntry ino size off fi buffer rSize).2.2.2.1
            fi.fh).size →
        (c.FuseOpReadDir dirBuf_ fuse_add_direntry ino size off fi buffer rSize).2.1 =
          some off ∧
        (c.FuseOpReadDir dirBuf_ fuse_add_direntry ino size off fi buffer rSize).2.2.1 =
          min (((c.FuseOpReadDir dirBuf_ fuse_add_direntry ino size off fi buffer
            rSize).2.2.2.1 fi.fh).size - off.toNat) size) ∧
      (((c.FuseOpReadDir dirBuf_ fuse_add_direntry ino size off fi buffer rSize).2.2.2.1
          fi.fh).size ≤ off.toNat →
        (c.FuseOpReadDir dirBuf_ fuse_add_direntry ino size off fi buffer rSize).2.1 = none ∧
        (c.FuseOpReadDir dirBuf_ fuse_add_direntry ino size off fi buffer rSize).2.2.1 = 0) ∧
      (c.FuseOpReadDir dirBuf_ fuse_add_direntry ino size off fi buffer rSize).2.2.1 ≤ size ∧
      (off.toNat ≤
          ((c.FuseOpReadDir dirBuf_ fuse_add_direntry ino size off fi buffer rSize).2.2.2.1
            fi.fh).size →
        off.toNat +
            (c.FuseOpReadDir dirBuf_ fuse_add_direntry ino size off fi buffer rSize).2.2.1 ≤
          ((c.FuseOpReadDir dirBuf_ fuse_add_direntry ino size off fi buffer rSize).2.2.2.1
            fi.fh).size)) := by
  generalize hR : c.FuseOpReadDir dirBuf_ fuse_add_direntry ino size off fi buffer rSize = R
  unfold FuseClient.FuseOpReadDir at hR
  by_cases hg : c.env.GetInode c.trace ino = OK
  · have hg1 : (c.GetInode ino).1 = OK := hg
    have hc2 : (c.GetInode ino).2 = c.log (Call.GetInode ino OK) := by
      show c.log (Call.GetInode ino (c.env.GetInode c.trace ino)) = _
      rw [hg]
    simp only [hg1, ne_eq, not_true_eq_false, if_false] at hR
    by_cases hw : (dirBuf_ fi.fh).wasRead = false
    · have hw1 : (FuseClient.DirBufferGet dirBuf_ fi.fh).wasRead = false := hw
      simp only [hw1, if_true] at hR
      rw [hc2] at hR
      by_cases hl : ((c.log (Call.GetInode ino OK)).ListDentry ino
          (c.log (Call.GetInode ino OK)).option_.listDentryLimit).1 = OK
      · simp only [hl, ne_eq, not_true_eq_false, if_false] at hR
        obtain ⟨r1, r2, r3, r4, r5, r6, r7⟩ :=
          FuseOpReadDir_rest _ _ _ fi.fh size off h0 h63 R hR.symm
        rw [Function.update_same] at r4 r5 r7
        refine ⟨?_, ?_, ?_, ?_, ?_⟩
        · intro h hh
          rw [r2, Function.update_noteq hh]
        · intro h
          rw [hw] at h
          exact absurd h (by decide)
        · intro _ _
          refine ⟨((c.log (Call.GetInode ino OK)).ListDentry ino
            (c.log (Call.GetInode ino OK)).option_.listDentryLimit).2.1, ?_, ?_, ?_⟩
          · exact Prod.ext hl rfl
          · rw [r3]
            have hl2 : (c.env.ListDentry (c.trace ++ [Call.GetInode ino OK]) ino
              c.option_.listDentryLimit).1 = OK := hl
            show (c.trace ++ [Call.GetInode ino OK]) ++
              [Call.ListDentry ino c.option_.listDentryLimit
                (c.env.ListDentry (c.trace ++ [Call.GetInode ino OK]) ino
                  c.option_.listDentryLimit).1] = _
            rw [hl2, List.append_assoc]
            rfl
          · rw [r2, Function.update_same]
            rfl
        · intro h
          exact absurd r1 h
        · intro _
          rw [r2, Function.update_same]
          exact ⟨rfl, r4, r5, r6, r7⟩
      · simp only [hl, ne_eq, not_false_eq_true, if_true] at hR
        subst hR
        refine ⟨fun _ _ => rfl, ?_, ?_, fun _ => ⟨rfl, rfl, rfl⟩, fun h => absurd h hl⟩
        · intro h
          rw [hw] at h
          exact absurd h (by decide)
        · intro _ h
          exact absurd h hl
    · have hw1 : ¬ (FuseClient.DirBufferGet dirBuf_ fi.fh).wasRead = false := hw
      have hw2 : (dirBuf_ fi.fh).wasRead = true := by
        cases h : (dirBuf_ fi.fh).wasRead
        · exact absurd h hw
        · rfl
      simp only [hw1, if_false] at hR
      obtain ⟨r1, r2, r3, r4, r5, r6, r7⟩ :=
        FuseOpReadDir_rest _ _ _ fi.fh size off h0 h63 R hR.symm
      refine ⟨?_, ?_, ?_, ?_, ?_⟩
      · intro h _
        rw [r2]
      · intro _
        refine ⟨r2, ?_⟩
        rw [r3, hc2, hg]
        rfl
      · intro h
        exact absurd h hw
      · intro h
        exact absurd r1 h
      · intro _
        rw [r2]
        exact ⟨hw2, r4, r5, r6, r7⟩
  · have hg1 : (c.GetInode ino).1 ≠ OK := hg
    simp only [hg1, ne_eq, not_false_eq_true, if_true] at hR
    subst hR
    refine ⟨fun _ _ => rfl, fun _ => ⟨rfl, rfl⟩, ?_, fun _ => ⟨rfl, rfl, rfl⟩,
      fun h => absurd h hg⟩
    intro _ h
    exact absurd h hg

theorem FuseOpReadDir_slices_witness :
    (∀ h, h ≠ 3 →
      (listingClient.FuseOpReadDir freshDirBuffer sampleDirentry 1 40 32 ⟨0, 3⟩ none
        0).2.2.2.1 h = freshDirBuffer h) ∧
    (listingClient.FuseOpReadDir freshDirBuffer sampleDirentry 1 40 32 ⟨0, 3⟩ none 0).1 =
      OK ∧
    (listingClient.FuseOpReadDir freshDirBuffer sampleDirentry 1 40 32 ⟨0, 3⟩ none 0).2.1 =
      some 32 ∧
    (listingClient.FuseOpReadDir freshDirBuffer sampleDirentry 1 40 32 ⟨0, 3⟩ none 0).2.2.1 =
      32 :=
  ⟨(FuseOpReadDir_slices listingClient freshDirBuffer sampleDirentry 1 40 32 ⟨0, 3⟩ none 0
      (by decide) (by decide)).1, by decide, by decide, by decide⟩

end client
end curvefs

namespace curvefs
namespace metaserver
namespace storage

/-- A key is found right after it was inserted. -/
theorem Counter_Find_Insert (stdHash : Bytes → Nat) (c : Counter) (name key : Bytes) :
    Counter.Find stdHash (Counter.Insert stdHash c name key) name key = true := by
  unfold Counter.Find Counter.Insert
  by_cases h : Counter.ToInternalKey stdHash key ∈ c name <;> simp [h]

/-- A key is not found right after it was erased. -/
theorem Counter_Find_Erase (stdHash : Bytes → Nat) (c : Counter) (name key : Bytes) :
    Counter.Find stdHash (Counter.Erase stdHash c name key) name key = false := by
  simp [Counter.Find, Counter.Erase]

/-- The result of a Set outside a transaction that returns OK. -/
theorem Set_eq_of_OK {V : Type} (stdHash : Bytes → Nat) (codec : ValueType V)
    (s : RocksDBStorage) (hs : s.InTransaction_ = false)
    (name key : Bytes) (value : V) (ordered : Bool)
    (hset : (RocksDBStorage.Set stdHash codec s name key value ordered).1 = Status.OK) :
    s.inited_ = true ∧ ∃ b, codec.SerializeToString value = some b ∧
      (RocksDBStorage.Set stdHash codec s name key value ordered).2 =
        { s with
          db_ := dbPut s.db_ ordered (ToInternalKey stdHash (ToInternalName name ordered) key) b
          counter_ := Counter.Insert stdHash s.counter_ (ToInternalName name ordered)
            (ToInternalKey stdHash (ToInternalName name ordered) key) } := by
  unfold RocksDBStorage.Set at hset ⊢
  cases hin : s.inited_
  · simp [hin] at hset
  · cases hser : codec.SerializeToString value with
    | none => simp [hin, hser] at hset
    | some b => exact ⟨rfl, b, rfl, by simp [hs, RocksDBStorage.GetColumnFamilyHandle]⟩

/-- C3: outside a transaction, with a value serialization that round-trips, if
Set(name, k, v) returns OK then Get(name, k) returns OK with v, a following
Del(name, k) returns OK, and Get(name, k) then returns NotFound. -/
theorem RocksDBStorage_Set_Get_Del {V : Type} (stdHash : Bytes → Nat) (codec : ValueType V)
    (hcodec : ∀ v b, codec.SerializeToString v = some b → codec.ParseFromString b = some v)
    (s : RocksDBStorage) (hs : s.InTransaction_ = false)
    (name key : Bytes) (value : V) (ordered : Bool)
    (hset : (RocksDBStorage.Set stdHash codec s name key value ordered).1 = Status.OK) :
    RocksDBStorage.Get stdHash codec
      (RocksDBStorage.Set stdHash codec s name key value ordered).2 name key ordered =
      (Status.OK, some value) ∧
    (RocksDBStorage.Del stdHash
      (RocksDBStorage.Set stdHash codec s name key value ordered).2 name key ordered).1 =
      Status.OK ∧
    RocksDBStorage.Get stdHash codec
      (RocksDBStorage.Del stdHash
        (RocksDBStorage.Set stdHash codec s name key value ordered).2 name key ordered).2
      name key ordered = (Status.NotFound, none) := by
  obtain ⟨hin, b, hser, heq⟩ := Set_eq_of_OK stdHash codec s hs name key value ordered hset
  have hp := hcodec value b hser
  rw [heq]
  refine ⟨?_, ?_, ?_⟩
  · simp [RocksDBStorage.Get, hin, hs, Counter_Find_Insert, dbGet, dbPut, hp, ToStorageStatus,
      RocksDBStorage.GetColumnFamilyHandle]
  · simp [RocksDBStorage.Del, hin, hs, Counter_Find_Insert, ToStorageStatus]
  · simp [RocksDBStorage.Del, RocksDBStorage.Get, hin, hs, Counter_Find_Insert,
      Counter_Find_Erase]

/-- Witness for C3: table [116], key [1], value [2, 3] on an empty storage. -/
theorem RocksDBStorage_Set_Get_Del_witness :
    ((∀ v b, bytesCodec.SerializeToString v = some b → bytesCodec.ParseFromString b = some v) ∧
      emptyStorage.InTransaction_ = false ∧
      (RocksDBStorage.Set sampleHash bytesCodec emptyStorage [116] [1] [2, 3] false).1 =
        Status.OK) ∧
    (RocksDBStorage.Get sampleHash bytesCodec
      (RocksDBStorage.Set sampleHash bytesCodec emptyStorage [116] [1] [2, 3] false).2
        [116] [1] false = (Status.OK, some [2, 3]) ∧
    (RocksDBStorage.Del sampleHash
      (RocksDBStorage.Set sampleHash bytesCodec emptyStorage [116] [1] [2, 3] false).2
        [116] [1] false).1 = Status.OK ∧
    RocksDBStorage.Get sampleHash bytesCodec
      (RocksDBStorage.Del sampleHash
        (RocksDBStorage.Set sampleHash bytesCodec emptyStorage [116] [1] [2, 3] false).2
          [116] [1] false).2
      [116] [1] false = (Status.NotFound, none)) :=
  ⟨⟨fun v b h => by simpa [bytesCodec] using h.symm, rfl, rfl⟩,
    RocksDBStorage_Set_Get_Del sampleHash bytesCodec
      (fun v b h => by simpa [bytesCodec] using h.symm) emptyStorage rfl [116] [1] [2, 3]
      false rfl⟩

/-- C4 at its failing input: key [1] of table [116] is stored, then a
transaction deletes it, sets it again to [9] and commits with OK.  The database
holds [9] for the key, but CommitKeys erased the key from the exists-index
after inserting it, so a Get outside the transaction answers NotFound. -/
theorem CommitKeys_erases_key_set_last :
    (RocksDBStorage.Commit sampleHash
      (runOps sampleHash bytesCodec
        (RocksDBStorage.BeginTransaction
          (RocksDBStorage.Set sampleHash bytesCodec emptyStorage [116] [1] [2, 3] false).2)
        [TxnOp.Del [116] [1] false, TxnOp.Set [116] [1] [9] false])
      RocksStatus.ok).1 = Status.OK ∧
    (RocksDBStorage.Commit sampleHash
      (runOps sampleHash bytesCodec
        (RocksDBStorage.BeginTransaction
          (RocksDBStorage.Set sampleHash bytesCodec emptyStorage [116] [1] [2, 3] false).2)
        [TxnOp.Del [116] [1] false, TxnOp.Set [116] [1] [9] false])
      RocksStatus.ok).2.db_ false
        (ToInternalKey sampleHash (ToInternalName [116] false) [1]) = some [9] ∧
    Counter.Find sampleHash
      (RocksDBStorage.Commit sampleHash
        (runOps sampleHash bytesCodec
          (RocksDBStorage.BeginTransaction
            (RocksDBStorage.Set sampleHash bytesCodec emptyStorage [116] [1] [2, 3] false).2)
          [TxnOp.Del [116] [1] false, TxnOp.Set [116] [1] [9] false])
        RocksStatus.ok).2.counter_
      (ToInternalName [116] false)
      (ToInternalKey sampleHash (ToInternalName [116] false) [1]) = false ∧
    RocksDBStorage.Get sampleHash bytesCodec
      (RocksDBStorage.parent
        (RocksDBStorage.Commit sampleHash
          (runOps sampleHash bytesCodec
            (RocksDBStorage.BeginTransaction
              (RocksDBStorage.Set sampleHash bytesCodec emptyStorage [116] [1] [2, 3] false).2)
            [TxnOp.Del [116] [1] false, TxnOp.Set [116] [1] [9] false])
          RocksStatus.ok).2)
      [116] [1] false = (Status.NotFound, none) := by
  decide

/-- Reading back a memory image gives the number modulo its width. -/
theorem ofMemoryImage_memoryImage (n num : Nat) :
    ofMemoryImage (memoryImage n num) = num % 256 ^ n := by
  induction n generalizing num with
  | zero => simp [memoryImage, ofMemoryImage, Nat.mod_one]
  | succ n ih =>
    simp only [memoryImage, ofMemoryImage, ih]
    rw [pow_succ, Nat.mul_comm (256 ^ n) 256, Nat.mod_mul]

/-- A memory image of `n` bytes has `n` bytes. -/
theorem length_memoryImage (n num : Nat) : (memoryImage n num).length = n := by
  induction n generalizing num with
  | zero => rfl
  | succ n ih => simp [memoryImage, ih]

/-- The numeric prefix of a formatted key is the number it was formatted with. -/
theorem BinrayString2Number_FormatInternalKey (num : Nat) (hnum : num < 2 ^ 64)
    (key : Bytes) : BinrayString2Number (FormatInternalKey num key) = num := by
  unfold BinrayString2Number FormatInternalKey Number2BinaryString
  have hl := length_memoryImage 8 num
  rw [if_neg (by simp [hl]), List.take_left' hl, ofMemoryImage_memoryImage]
  exact Nat.mod_eq_of_lt hnum

/-- What follows the numeric prefix of a formatted key: a colon and the key. -/
theorem drop_FormatInternalKey (num : Nat) (key : Bytes) :
    (FormatInternalKey num key).drop 8 = 58 :: key := by
  unfold FormatInternalKey Number2BinaryString
  exact List.drop_left' (length_memoryImage 8 num)

/-- The key order on formatted keys. -/
theorem keyLt_FormatInternalKey (a b : Nat) (ha : a < 2 ^ 64) (hb : b < 2 ^ 64)
    (k l : Bytes) :
    keyLt (FormatInternalKey a k) (FormatInternalKey b l) =
      (decide (a < b) || (decide (a = b) && bytesLt k l)) := by
  unfold keyLt
  rw [BinrayString2Number_FormatInternalKey a ha, BinrayString2Number_FormatInternalKey b hb,
    drop_FormatInternalKey, drop_FormatInternalKey]
  simp [bytesLt]

/-- No byte string is below the empty one. -/
theorem bytesLt_nil (k : Bytes) : bytesLt k [] = false := by
  cases k <;> rfl

/-- Where the range of Clear is right: for a table whose name hash h is below
2^64 - 1, the range from FormatInternalKey(h, "") to FormatInternalKey(h + 1, "")
holds every key of the table and no key with another hash prefix. -/
theorem Clear_range_of_lt (stdHash : Bytes → Nat) (name : Bytes) (ordered : Bool)
    (hlt : Hash stdHash (ToInternalName name ordered) + 1 < 2 ^ 64) :
    (∀ key, inRange (ToInternalKey stdHash (ToInternalName name ordered) [])
        (FormatInternalKey
          ((BinrayString2Number (ToInternalKey stdHash (ToInternalName name ordered) []) + 1)
            % 2 ^ 64) [])
        (ToInternalKey stdHash (ToInternalName name ordered) key) = true) ∧
    (∀ num key, num < 2 ^ 64 → num ≠ Hash stdHash (ToInternalName name ordered) →
      inRange (ToInternalKey stdHash (ToInternalName name ordered) [])
        (FormatInternalKey
          ((BinrayString2Number (ToInternalKey stdHash (ToInternalName name ordered) []) + 1)
            % 2 ^ 64) [])
        (FormatInternalKey num key) = false) := by
  have hh : Hash stdHash (ToInternalName name ordered) < 2 ^ 64 := by omega
  unfold ToInternalKey
  rw [BinrayString2Number_FormatInternalKey _ hh, Nat.mod_eq_of_lt hlt]
  constructor
  · intro key
    unfold inRange
    rw [keyLt_FormatInternalKey _ _ hh hh, keyLt_FormatInternalKey _ _ hh hlt]
    simp [bytesLt_nil]
  · intro num key hnum hne
    unfold inRange
    rw [keyLt_FormatInternalKey _ _ hnum hh, keyLt_FormatInternalKey _ _ hnum hlt]
    simp [bytesLt_nil, hne]
    omega

/-- C5 at its failing input: for a table whose internal name hashes to
2^64 - 1, the end key of Clear is formatted from 0, so the range is empty: it
does not hold key [1] of the table, and after Set and Clear have both returned
OK the database still holds the value [2, 3] for that key. -/
theorem Clear_range_wraps :
    BinrayString2Number (ToInternalKey (fun _ => 2 ^ 64 - 1) (ToInternalName [116] true) []) =
      2 ^ 64 - 1 ∧
    inRange (ToInternalKey (fun _ => 2 ^ 64 - 1) (ToInternalName [116] true) [])
      (FormatInternalKey ((2 ^ 64 - 1 + 1) % 2 ^ 64) [])
      (ToInternalKey (fun _ => 2 ^ 64 - 1) (ToInternalName [116] true) [1]) = false ∧
    (RocksDBStorage.Clear (fun _ => 2 ^ 64 - 1)
      (RocksDBStorage.Set (fun _ => 2 ^ 64 - 1) bytesCodec emptyStorage [116] [1] [2, 3] true).2
      [116] true).1 = Status.OK ∧
    (RocksDBStorage.Clear (fun _ => 2 ^ 64 - 1)
      (RocksDBStorage.Set (fun _ => 2 ^ 64 - 1) bytesCodec emptyStorage [116] [1] [2, 3] true).2
      [116] true).2.db_ true
        (ToInternalKey (fun _ => 2 ^ 64 - 1) (ToInternalName [116] true) [1]) =
      some [2, 3] := by
  decide

/-- The exists-index of a table after a key was erased: a key with another hash
is found as before. -/
theorem Counter_Find_Erase_of_ne (stdHash : Bytes → Nat) (c : Counter) (name k1 k2 : Bytes)
    (h : Counter.ToInternalKey stdHash k2 ≠ Counter.ToInternalKey stdHash k1) :
    Counter.Find stdHash (Counter.Erase stdHash c name k1) name k2 =
      Counter.Find stdHash c name k2 := by
  simp [Counter.Find, Counter.Erase, h]

/-- Where C28 holds: outside a transaction, when the internal keys of k1 and k2
have different hashes, a Get of k2 that answered OK with v answers the same
after Del of k1 returned OK. -/
theorem Del_frame_of_hash_ne {V : Type} (stdHash : Bytes → Nat) (codec : ValueType V)
    (s : RocksDBStorage) (hs : s.InTransaction_ = false) (name k1 k2 : Bytes) (ordered : Bool)
    (v : V)
    (hne : Hash stdHash (ToInternalKey stdHash (ToInternalName name ordered) k2) ≠
      Hash stdHash (ToInternalKey stdHash (ToInternalName name ordered) k1))
    (hget : RocksDBStorage.Get stdHash codec s name k2 ordered = (Status.OK, some v))
    (hdel : (RocksDBStorage.Del stdHash s name k1 ordered).1 = Status.OK) :
    RocksDBStorage.Get stdHash codec (RocksDBStorage.Del stdHash s name k1 ordered).2
      name k2 ordered = (Status.OK, some v) := by
  have hk : ToInternalKey stdHash (ToInternalName name ordered) k2 ≠
      ToInternalKey stdHash (ToInternalName name ordered) k1 := fun h => hne (by rw [h])
  unfold RocksDBStorage.Del at hdel ⊢
  by_cases hin : s.inited_ = true
  · by_cases hf : Counter.Find stdHash s.counter_ (ToInternalName name ordered)
        (ToInternalKey stdHash (ToInternalName name ordered) k1) = true
    · rw [← hget]
      simp [hin, hs, hf, RocksDBStorage.Get, Counter_Find_Erase_of_ne, Counter.ToInternalKey,
        hne, dbGet, dbDelete, hk]
    · simp [hin, hs, hf] at hdel
  · simp [hin] at hdel

/-- C28 at its failing input: under a string hash that collides on the two
internal keys, table [116] holds key [1] with value [7] and key [2] with value
[9]; Get of key [2] answers OK with [9]; Del of key [1] returns OK; after it
the database still holds [9] for key [2], but the hash both keys share was
erased from the exists-index, and Get of key [2] answers NotFound. -/
theorem Del_hides_colliding_key :
    ([1] : Bytes) ≠ [2] ∧
    RocksDBStorage.Get collidingHash bytesCodec
      (RocksDBStorage.Set collidingHash bytesCodec
        (RocksDBStorage.Set collidingHash bytesCodec emptyStorage [116] [1] [7] false).2
        [116] [2] [9] false).2
      [116] [2] false = (Status.OK, some [9]) ∧
    (RocksDBStorage.Del collidingHash
      (RocksDBStorage.Set collidingHash bytesCodec
        (RocksDBStorage.Set collidingHash bytesCodec emptyStorage [116] [1] [7] false).2
        [116] [2] [9] false).2
      [116] [1] false).1 = Status.OK ∧
    (RocksDBStorage.Del collidingHash
      (RocksDBStorage.Set collidingHash bytesCodec
        (RocksDBStorage.Set collidingHash bytesCodec emptyStorage [116] [1] [7] false).2
        [116] [2] [9] false).2
      [116] [1] false).2.db_ false
        (ToInternalKey collidingHash (ToInternalName [116] false) [2]) = some [9] ∧
    RocksDBStorage.Get collidingHash bytesCodec
      (RocksDBStorage.Del collidingHash
        (RocksDBStorage.Set collidingHash bytesCodec
          (RocksDBStorage.Set collidingHash bytesCodec emptyStorage [116] [1] [7] false).2
          [116] [2] [9] false).2
        [116] [1] false).2
      [116] [2] false = (Status.NotFound, none) := by
  decide

end storage
end metaserver
end curvefs

namespace curvefs
namespace metaserver

open MetaStatusCode

/-- C19: an UpdateInode request whose volumeextentmap and s3chunkinfomap are
both non-empty is answered PARAM_ERROR, the status code of the response is set
to PARAM_ERROR, and the store is left exactly as it was: no partition method
is invoked and the partition map is the same, whether or not it holds the
addressed partition. -/
theorem UpdateInode_both_maps (m : MetaStoreImpl) (request : UpdateInodeRequest)
    (response : UpdateInodeResponse)
    (hv : request.volumeextentmap ≠ []) (hs : request.s3chunkinfomap ≠ []) :
    m.UpdateInode request response =
      (PARAM_ERROR, { response with statuscode := some PARAM_ERROR }, m) := by
  unfold MetaStoreImpl.UpdateInode
  rw [if_pos ⟨hv, hs⟩]

/-- Witness for C19: a request with one extent and one chunk-info list, once for
partition 1, which the test store holds, and once for partition 2, which it
does not hold. -/
theorem UpdateInode_both_maps_witness :
    testStore.UpdateInode ⟨1, 1, 7, none, none, [(0, [(0, 4096)])], [(0, [])]⟩ ⟨none⟩ =
      (PARAM_ERROR, ⟨some PARAM_ERROR⟩, testStore) ∧
    testStore.UpdateInode ⟨2, 1, 7, none, none, [(0, [(0, 4096)])], [(0, [])]⟩ ⟨none⟩ =
      (PARAM_ERROR, ⟨some PARAM_ERROR⟩, testStore) :=
  ⟨UpdateInode_both_maps testStore _ _ (by decide) (by decide),
    UpdateInode_both_maps testStore _ _ (by decide) (by decide)⟩

/-- C20: when the lookup of a partition never answers INODE_S3_META_TOO_LARGE,
GetInode never returns it.  Without the partition the answer is
PARTITION_NOT_FOUND and only the status code is written.  With the partition,
a failed lookup is returned with the inode cleared and no padding; after a
lookup that answers OK the padding is called with limit 0, or with
s3MetaLimitSizeInsideInode when the request supports streaming, and its answer
INODE_S3_META_TOO_LARGE becomes OK with streaming set to true and the inode
kept, its answer OK is returned with the inode kept, and any other answer is
returned with the inode cleared; streaming is written in the one case only,
and the status code of the response is always the returned status. -/
theorem GetInode_streaming (m : MetaStoreImpl) (request : GetInodeRequest)
    (response : GetInodeResponse)
    (hlookup : ∀ calls p fsId inodeId inode,
      (m.methods.GetInode calls p fsId inodeId inode).1 ≠ INODE_S3_META_TOO_LARGE) :
    (m.GetInode request response).1 ≠ INODE_S3_META_TOO_LARGE ∧
    (m.GetInode request response).2.1.statuscode = some (m.GetInode request response).1 ∧
    (m.GetPartition request.partitionid = none →
      m.GetInode request response =
        (PARTITION_NOT_FOUND, { response with statuscode := some PARTITION_NOT_FOUND }, m)) ∧
    (∀ partition g limit pad,
      m.GetPartition request.partitionid = some partition →
      g = m.methods.GetInode m.calls partition request.fsid request.inodeid
        (response.inode.getD ⟨0, 0, 0, 0, [], []⟩) →
      limit = (if request.supportstreaming = true then m.s3MetaLimitSizeInsideInode else 0) →
      pad = m.methods.PaddingInodeS3ChunkInfo
        (m.calls ++
          [PartitionCall.GetInode partition.partitionId request.fsid request.inodeid g.1])
        partition request.fsid request.inodeid g.2.s3chunkinfomap limit →
      (g.1 ≠ OK →
        m.GetInode request response =
          (g.1, { response with inode := none, statuscode := some g.1 },
            { m with calls := m.calls ++
                [PartitionCall.GetInode partition.partitionId request.fsid request.inodeid
                  g.1] })) ∧
      (g.1 = OK → pad.1 = INODE_S3_META_TOO_LARGE →
        m.GetInode request response =
          (OK,
            { statuscode := some OK, inode := some { g.2 with s3chunkinfomap := pad.2 },
              streaming := some true },
            { m with calls := m.calls ++
                [PartitionCall.GetInode partition.partitionId request.fsid request.inodeid OK,
                 PartitionCall.PaddingInodeS3ChunkInfo partition.partitionId request.fsid
                   request.inodeid limit INODE_S3_META_TOO_LARGE] })) ∧
      (g.1 = OK → pad.1 = OK →
        m.GetInode request response =
          (OK,
            { response with
              inode := some { g.2 with s3chunkinfomap := pad.2 }, statuscode := some OK },
            { m with calls := m.calls ++
                [PartitionCall.GetInode partition.partitionId request.fsid request.inodeid OK,
                 PartitionCall.PaddingInodeS3ChunkInfo partition.partitionId request.fsid
                   request.inodeid limit OK] })) ∧
      (g.1 = OK → pad.1 ≠ OK → pad.1 ≠ INODE_S3_META_TOO_LARGE →
        m.GetInode request response =
          (pad.1, { response with inode := none, statuscode := some pad.1 },
            { m with calls := m.calls ++
                [PartitionCall.GetInode partition.partitionId request.fsid request.inodeid OK,
                 PartitionCall.PaddingInodeS3ChunkInfo partition.partitionId request.fsid
                   request.inodeid limit pad.1] }))) := by
  refine ⟨?_, ?_, ?_, ?_⟩
  · unfold MetaStoreImpl.GetInode
    cases hp : m.GetPartition request.partitionid with
    | none => simp
    | some partition =>
      have hl := hlookup m.calls partition request.fsid request.inodeid
        (response.inode.getD ⟨0, 0, 0, 0, [], []⟩)
      dsimp only
      split_ifs <;> simp_all
  · unfold MetaStoreImpl.GetInode
    cases hp : m.GetPartition request.partitionid with
    | none => simp
    | some partition => simp
  · intro hp
    unfold MetaStoreImpl.GetInode
    simp [hp]
  · intro partition g limit pad hp hg hlimit hpad
    subst hlimit
    unfold MetaStoreImpl.GetInode
    simp only [hp]
    rw [← hg]
    rw [← hpad]
    refine ⟨?_, ?_, ?_, ?_⟩
    · intro h1
      simp [h1]
    · intro h1 h2
      simp [h1, h2]
    · intro h1 h2
      simp [h1, h2]
    · intro h1 h2 h3
      simp [h1, h2, h3]

/-- Witness for C20: on the store whose chunk-info never fits, a lookup in
partition 1 that supports streaming is answered OK with streaming set, the
inode kept and the padding called with the limit 100. -/
theorem GetInode_streaming_witness :
    largeStore.GetInode ⟨1, 1, 7, true⟩ ⟨none, none, none⟩ =
      (OK, ⟨some OK, some ⟨1, 7, 0, 0, [], []⟩, some true⟩,
        { largeStore with calls :=
            [PartitionCall.GetInode 1 1 7 OK,
             PartitionCall.PaddingInodeS3ChunkInfo 1 1 7 100 INODE_S3_META_TOO_LARGE] }) ∧
    (largeStore.GetInode ⟨1, 1, 7, true⟩ ⟨none, none, none⟩).1 ≠ INODE_S3_META_TOO_LARGE :=
  have h := GetInode_streaming largeStore ⟨1, 1, 7, true⟩ ⟨none, none, none⟩
    (fun _ _ _ _ _ => (by decide : OK ≠ INODE_S3_META_TOO_LARGE))
  ⟨(h.2.2.2 { partitionId := 1, inodes := fun _ _ => none } _ _ _ rfl rfl rfl rfl).2.1 rfl rfl,
    h.1⟩

/-- C21 at its failing input: a GetOrModifyS3ChunkInfo request without
supportstreaming for inode 7 of partition 1, which exists and answers OK.
PaddingInodeS3ChunkInfo is invoked twice, both times with limit 0, and with a
padding that appends the stored chunk-info list the response holds that list
twice under chunk index 0. -/
theorem GetOrModifyS3ChunkInfo_pads_twice :
    (⟨1, 1, 7, [], [], true, false⟩ : GetOrModifyS3ChunkInfoRequest).supportstreaming = false ∧
    (paddingStore.GetPartition 1).isSome = true ∧
    (paddingStore.GetOrModifyS3ChunkInfo ⟨1, 1, 7, [], [], true, false⟩ ⟨none, []⟩).1 = OK ∧
    (paddingStore.GetOrModifyS3ChunkInfo ⟨1, 1, 7, [], [], true, false⟩ ⟨none, []⟩).2.2.calls =
      [PartitionCall.GetOrModifyS3ChunkInfo 1 1 7 OK,
       PartitionCall.PaddingInodeS3ChunkInfo 1 1 7 0 OK,
       PartitionCall.PaddingInodeS3ChunkInfo 1 1 7 0 OK] ∧
    (paddingStore.GetOrModifyS3ChunkInfo ⟨1, 1, 7, [], [], true, false⟩
      ⟨none, []⟩).2.1.s3chunkinfomap = [(0, storedChunks ++ storedChunks)] := by
  decide

/-- The two paddings in general: on an existing partition, without
supportstreaming, when the get-or-modify step and the first padding answer OK,
PaddingInodeS3ChunkInfo is invoked a second time, on the map the first padding
left, and the answer of the second invocation is returned. -/
theorem GetOrModifyS3ChunkInfo_second_padding (m : MetaStoreImpl)
    (request : GetOrModifyS3ChunkInfoRequest) (response : GetOrModifyS3ChunkInfoResponse)
    (partition : Partition) (g : MetaStatusCode × Partition)
    (pad1 pad2 : MetaStatusCode × S3ChunkInfoMap)
    (hp : m.GetPartition request.partitionid = some partition)
    (hs : request.supportstreaming = false)
    (hg : g = m.methods.GetOrModifyS3ChunkInfo m.calls partition request.fsid request.inodeid
      request.s3chunkinfoadd request.s3chunkinforemove request.returns3chunkinfomap)
    (hgok : g.1 = OK)
    (h1 : pad1 = m.methods.PaddingInodeS3ChunkInfo
      (m.calls ++
        [PartitionCall.GetOrModifyS3ChunkInfo partition.partitionId request.fsid
          request.inodeid OK])
      g.2 request.fsid request.inodeid response.s3chunkinfomap 0)
    (h1ok : pad1.1 = OK)
    (h2 : pad2 = m.methods.PaddingInodeS3ChunkInfo
      (m.calls ++
        [PartitionCall.GetOrModifyS3ChunkInfo partition.partitionId request.fsid
          request.inodeid OK,
         PartitionCall.PaddingInodeS3ChunkInfo g.2.partitionId request.fsid request.inodeid 0
          OK])
      g.2 request.fsid request.inodeid pad1.2 0) :
    (m.GetOrModifyS3ChunkInfo request response).1 = pad2.1 ∧
    (m.GetOrModifyS3ChunkInfo request response).2.1.s3chunkinfomap = pad2.2 ∧
    (m.GetOrModifyS3ChunkInfo request response).2.2.calls =
      m.calls ++
        [PartitionCall.GetOrModifyS3ChunkInfo partition.partitionId request.fsid
          request.inodeid OK,
         PartitionCall.PaddingInodeS3ChunkInfo g.2.partitionId request.fsid request.inodeid 0
          OK,
         PartitionCall.PaddingInodeS3ChunkInfo g.2.partitionId request.fsid request.inodeid 0
          pad2.1] := by
  unfold MetaStoreImpl.GetOrModifyS3ChunkInfo
  simp only [hp]
  rw [← hg]
  simp only [hgok, hs, Bool.false_eq_true, not_false_eq_true, and_self, if_true]
  rw [← h1]
  simp only [h1ok, and_self, if_true, List.append_assoc, List.singleton_append]
  rw [← h2]
  exact ⟨rfl, rfl, rfl⟩

/-- C24: CreatePartition always returns OK and sets the status code of the
response to OK.  When the partition map holds the id of the request, the store
is left as it was, the partition object included; otherwise the map gets the
one new entry, under that id, for the partition made from the request, and
every other entry stays.  Applying the same request a second time leaves the
store as the first application left it. -/
theorem CreatePartition_idempotent (m : MetaStoreImpl) (request : CreatePartitionRequest)
    (response response2 : CreatePartitionResponse) :
    (m.CreatePartition request response).1 = OK ∧
    (m.CreatePartition request response).2.1 = { response with statuscode := some OK } ∧
    ((m.partitionMap_ request.partition.partitionid).isSome = true →
      (m.CreatePartition request response).2.2 = m) ∧
    (m.partitionMap_ request.partition.partitionid = none →
      (m.CreatePartition request response).2.2 =
        { m with
          partitionMap_ :=
            Function.update m.partitionMap_ request.partition.partitionid
              (some (m.methods.make request.partition)) } ∧
      ∀ id, id ≠ request.partition.partitionid →
        (m.CreatePartition request response).2.2.partitionMap_ id = m.partitionMap_ id) ∧
    ((m.CreatePartition request response).2.2.CreatePartition request response2).1 = OK ∧
    ((m.CreatePartition request response).2.2.CreatePartition request response2).2.2 =
      (m.CreatePartition request response).2.2 := by
  unfold MetaStoreImpl.CreatePartition
  cases h : m.partitionMap_ request.partition.partitionid with
  | some p => simp [h]
  | none =>
    simp only [h, Function.update_same]
    refine ⟨trivial, trivial, fun h0 => absurd h0 (by simp), fun _ => ⟨trivial, ?_⟩, trivial,
      trivial⟩
    intro id hid
    simp [Function.update_noteq hid]

/-- C29: DeletePartition on an id that the map does not hold returns
PARTITION_NOT_FOUND and leaves the store as it was.  On a deletable partition
it returns OK and erases the id from the map.  On a partition that is not
deletable it returns PARTITION_DELETING and the partition stays in the map:
when its status is DELETING already nothing at all is changed; otherwise the
dentries are cleared, the cleaner is registered and the status is set, in
that order, so that, ClearS3Compact leaving the status alone, the status is
DELETING after the call.  A second call on the partition, still not
deletable, then changes nothing. -/
theorem DeletePartition_cases (m : MetaStoreImpl) (request : DeletePartitionRequest)
    (response response2 : DeletePartitionResponse)
    (hkeep : ∀ calls p, (m.methods.ClearS3Compact calls p).status = p.status) :
    (m.partitionMap_ request.partitionid = none →
      m.DeletePartition request response =
        (PARTITION_NOT_FOUND, { response with statuscode := some PARTITION_NOT_FOUND }, m)) ∧
    (∀ partition, m.partitionMap_ request.partitionid = some partition →
      (m.methods.IsDeletable partition = true →
        (m.DeletePartition request response).1 = OK ∧
        (m.DeletePartition request response).2.1 = { response with statuscode := some OK } ∧
        (m.DeletePartition request response).2.2.partitionMap_ =
          Function.update m.partitionMap_ request.partitionid none) ∧
      (m.methods.IsDeletable partition = false →
        partition.status = PartitionStatus.DELETING →
        m.DeletePartition request response =
          (PARTITION_DELETING, { response with statuscode := some PARTITION_DELETING }, m)) ∧
      (m.methods.IsDeletable partition = false →
        partition.status ≠ PartitionStatus.DELETING →
        (m.DeletePartition request response).1 = PARTITION_DELETING ∧
        (m.DeletePartition request response).2.1 =
          { response with statuscode := some PARTITION_DELETING } ∧
        (m.DeletePartition request response).2.2.calls =
          m.calls ++
            [PartitionCall.ClearDentry partition.partitionId,
             PartitionCall.PartitionCleanManagerAdd request.partitionid,
             PartitionCall.TrashManagerRemove request.partitionid,
             PartitionCall.ClearS3Compact partition.partitionId] ∧
        (∃ p, (m.DeletePartition request response).2.2.partitionMap_ request.partitionid =
            some p ∧
          p.status = PartitionStatus.DELETING ∧
          (m.methods.IsDeletable p = false →
            (m.DeletePartition request response).2.2.DeletePartition request response2 =
              (PARTITION_DELETING,
                { response2 with statuscode := some PARTITION_DELETING },
                (m.DeletePartition request response).2.2))) ∧
        ∀ id, id ≠ request.partitionid →
          (m.DeletePartition request response).2.2.partitionMap_ id = m.partitionMap_ id)) := by
  refine ⟨?_, ?_⟩
  · intro h
    unfold MetaStoreImpl.DeletePartition
    simp [h]
  · intro partition h
    refine ⟨?_, ?_, ?_⟩
    · intro hd
      unfold MetaStoreImpl.DeletePartition
      simp [h, hd]
    · intro hd hst
      unfold MetaStoreImpl.DeletePartition
      simp [h, hd, hst]
    · intro hd hst
      unfold MetaStoreImpl.DeletePartition
      simp only [h, hd, Bool.false_eq_true, if_false, ne_eq, hst, not_false_eq_true, if_true,
        Function.update_same]
      refine ⟨trivial, trivial, by simp, ⟨_, rfl, hkeep _ _, ?_⟩, ?_⟩
      · intro hd2
        simp only [List.append_assoc, List.singleton_append, List.cons_append,
          List.nil_append] at hd2
        simp [hd2, hkeep]
      · intro id hid
        simp [Function.update_noteq hid]

/-- Witness for C29: partition 1 of the test store is not deletable and not yet
deleting; the call returns PARTITION_DELETING after the four invocations, and
partition 2, which the store does not hold, is answered PARTITION_NOT_FOUND. -/
theorem DeletePartition_cases_witness :
    (testStore.DeletePartition ⟨1⟩ ⟨none⟩).1 = PARTITION_DELETING ∧
    (testStore.DeletePartition ⟨1⟩ ⟨none⟩).2.2.calls =
      testStore.calls ++
        [PartitionCall.ClearDentry 1, PartitionCall.PartitionCleanManagerAdd 1,
         PartitionCall.TrashManagerRemove 1, PartitionCall.ClearS3Compact 1] ∧
    testStore.DeletePartition ⟨2⟩ ⟨none⟩ =
      (PARTITION_NOT_FOUND, ⟨some PARTITION_NOT_FOUND⟩, testStore) :=
  have h := DeletePartition_cases testStore ⟨1⟩ ⟨none⟩ ⟨none⟩ (fun _ _ => rfl)
  have h2 := DeletePartition_cases testStore ⟨2⟩ ⟨none⟩ ⟨none⟩ (fun _ _ => rfl)
  have h3 := (h.2 { partitionId := 1, inodes := fun _ _ => none } rfl).2.2 rfl (by decide)
  ⟨h3.1, h3.2.2.1, h2.1 rfl⟩

/-- The digits made so far are kept behind the digits still to be made. -/
theorem toDigitsCore_append (f n : Nat) (ds : List Char) :
    Nat.toDigitsCore 10 f n ds = Nat.toDigitsCore 10 f n [] ++ ds := by
  induction f generalizing n ds with
  | zero => simp [Nat.toDigitsCore]
  | succ f ih =>
    simp only [Nat.toDigitsCore]
    split_ifs
    · simp
    · rw [ih (n / 10) (Nat.digitChar (n % 10) :: ds), ih (n / 10) [Nat.digitChar (n % 10)]]
      simp

/-- The character of a digit below ten is 48 plus the digit. -/
theorem digitChar_toNat (k : Nat) (h : k < 10) :
    (Nat.digitChar k).toNat = 48 + k := by
  interval_cases k <;> rfl

/-- One more digit at the end: ten times the value so far plus the digit. -/
theorem decimalValue_append (xs : List Char) (c : Char) :
    decimalValue (xs ++ [c]) = 10 * decimalValue xs + (c.toNat - 48) := by
  simp [decimalValue, List.foldl_append]

/-- With enough fuel the digits of a number stand for the number and are decimal
digits. -/
theorem toDigitsCore_value (f n : Nat) (h : n < f) :
    decimalValue (Nat.toDigitsCore 10 f n []) = n ∧
    ∀ c ∈ Nat.toDigitsCore 10 f n [], 48 ≤ c.toNat ∧ c.toNat ≤ 57 := by
  induction f generalizing n with
  | zero => omega
  | succ f ih =>
    have hd := digitChar_toNat (n % 10) (Nat.mod_lt _ (by norm_num))
    simp only [Nat.toDigitsCore]
    split_ifs with h0
    · constructor
      · simp [decimalValue, hd]; omega
      · intro c hc
        simp at hc
        subst hc
        omega
    · rw [toDigitsCore_append]
      have := ih (n / 10) (by omega)
      constructor
      · rw [decimalValue_append, this.1, hd]; omega
      · intro c hc
        simp at hc
        rcases hc with hc | hc
        · exact this.2 c hc
        · subst hc; omega

/-- The decimal representation of a number stands for the number and consists
of decimal digits. -/
theorem toString_value (n : Nat) :
    decimalValue (toString n).toList = n ∧
    ∀ c ∈ (toString n).toList, 48 ≤ c.toNat ∧ c.toNat ≤ 57 := by
  have := toDigitsCore_value (n + 1) n (by omega)
  simpa [toString, Nat.repr, Nat.toDigits] using this

/-- A list is cut at the first occurrence of a character in one way only. -/
theorem split_unique (c : Char) (xs xs2 ys ys2 : List Char) (h1 : c ∉ xs) (h2 : c ∉ xs2)
    (h : xs ++ c :: ys = xs2 ++ c :: ys2) : xs = xs2 ∧ ys = ys2 := by
  induction xs generalizing xs2 with
  | nil =>
    cases xs2 with
    | nil => simpa using h
    | cons b bs =>
      simp only [List.nil_append, List.cons_append, List.cons.injEq] at h
      exact absurd (h.1 ▸ List.mem_cons_self _ _) h2
  | cons a as ih =>
    cases xs2 with
    | nil =>
      simp only [List.nil_append, List.cons_append, List.cons.injEq] at h
      exact absurd (h.1 ▸ List.mem_cons_self _ _) h1
    | cons b bs =>
      simp only [List.cons_append, List.cons.injEq] at h
      have := ih bs (fun hm => h1 (List.mem_cons_of_mem _ hm))
        (fun hm => h2 (List.mem_cons_of_mem _ hm)) h.2
      exact ⟨by rw [h.1, this.1], this.2⟩

/-- The decimal representation of a number holds no colon. -/
theorem colon_not_mem_toString (n : Nat) : ':' ∉ (toString n).data := by
  intro h
  have := (toString_value n).2 _ h
  revert this
  decide

/-- The decimal representation is injective. -/
theorem toString_injective (a b : Nat) (h : toString a = toString b) : a = b := by
  rw [← (toString_value a).1, ← (toString_value b).1, h]

/-- Distinct pairs have distinct keys. -/
theorem InodeS3MetaSizeKey_injective (fsId inodeId fsId2 inodeId2 : Nat)
    (h : InodeStorage.InodeS3MetaSizeKey fsId inodeId =
      InodeStorage.InodeS3MetaSizeKey fsId2 inodeId2) :
    fsId = fsId2 ∧ inodeId = inodeId2 := by
  have h2 := congrArg String.data h
  simp only [InodeStorage.InodeS3MetaSizeKey, String.data_append, List.append_assoc] at h2
  have h3 := split_unique ':' _ _ _ _ (colon_not_mem_toString fsId)
    (colon_not_mem_toString fsId2) h2
  exact ⟨toString_injective _ _ (String.ext h3.1), toString_injective _ _ (String.ext h3.2)⟩

/-- What `operator[]` yields: the value under the key, zero for an absent key. -/
theorem index_fst (m : String → Option Nat) (key : String) :
    (InodeStorage.index m key).1 = (m key).getD 0 := by
  unfold InodeStorage.index
  cases m key <;> rfl

/-- The map that `operator[]` leaves reads as the map before it. -/
theorem index_snd_getD (m : String → Option Nat) (key k : String) :
    ((InodeStorage.index m key).2 k).getD 0 = (m k).getD 0 := by
  unfold InodeStorage.index
  cases h : m key with
  | some v => rfl
  | none =>
    by_cases hk : k = key
    · subst hk
      simp [h]
    · simp [Function.update_noteq hk]

/-- C27: with c the counter of (fsId, inodeId), 0 when it was never set, and
the sum c + a taken in 64-bit unsigned arithmetic: when the sum is at least d,
UpdateInodeS3MetaSize returns true and the counter becomes the sum minus d;
when the sum is below d it returns false and the counter stays c; the counter
of every other pair is what it was. -/
theorem UpdateInodeS3MetaSize_exact (s : InodeStorage) (fsId inodeId a d : Nat) :
    (d ≤ ((s.GetInodeS3MetaSize fsId inodeId).1 + a) % 2 ^ 64 →
      (s.UpdateInodeS3MetaSize fsId inodeId a d).1 = true ∧
      ((s.UpdateInodeS3MetaSize fsId inodeId a d).2.GetInodeS3MetaSize fsId inodeId).1 =
        ((s.GetInodeS3MetaSize fsId inodeId).1 + a) % 2 ^ 64 - d) ∧
    (((s.GetInodeS3MetaSize fsId inodeId).1 + a) % 2 ^ 64 < d →
      (s.UpdateInodeS3MetaSize fsId inodeId a d).1 = false ∧
      ((s.UpdateInodeS3MetaSize fsId inodeId a d).2.GetInodeS3MetaSize fsId inodeId).1 =
        (s.GetInodeS3MetaSize fsId inodeId).1) ∧
    (∀ fsId2 inodeId2, (fsId2, inodeId2) ≠ (fsId, inodeId) →
      ((s.UpdateInodeS3MetaSize fsId inodeId a d).2.GetInodeS3MetaSize fsId2 inodeId2).1 =
        (s.GetInodeS3MetaSize fsId2 inodeId2).1) := by
  refine ⟨?_, ?_, ?_⟩
  · intro h
    simp only [InodeStorage.UpdateInodeS3MetaSize, InodeStorage.GetInodeS3MetaSize,
      index_fst] at h ⊢
    rw [if_neg (by omega)]
    simp
  · intro h
    simp only [InodeStorage.UpdateInodeS3MetaSize, InodeStorage.GetInodeS3MetaSize,
      index_fst] at h ⊢
    rw [if_pos h]
    exact ⟨rfl, index_snd_getD _ _ _⟩
  · intro fsId2 inodeId2 hne
    have hk : InodeStorage.InodeS3MetaSizeKey fsId2 inodeId2 ≠
        InodeStorage.InodeS3MetaSizeKey fsId inodeId := by
      intro hk
      have := InodeS3MetaSizeKey_injective _ _ _ _ hk
      exact hne (by rw [this.1, this.2])
    simp only [InodeStorage.UpdateInodeS3MetaSize, InodeStorage.GetInodeS3MetaSize]
    split_ifs
    · simp only [index_fst, index_snd_getD]
    · simp only [index_fst, Function.update_noteq hk, index_snd_getD]

end metaserver
end curvefs

namespace curvefs
namespace client
namespace rpcclient

open metaserver (MetaStatusCode S3ChunkInfo S3ChunkInfoList S3ChunkInfoMap)
open metaserver.MetaStatusCode

/-- Cutting at a colon: when the bytes before the first colon hold no colon,
they are what is cut off and the bytes after the colon are what is left. -/
theorem cut_until_colon (xs ys : List Nat) (h : 58 ∉ xs) :
    cut_until (xs ++ 58 :: ys) [58] = some (xs, ys) := by
  induction xs with
  | nil => simp [cut_until, List.isPrefixOf]
  | cons x xs ih =>
    have hx : x ≠ 58 := fun e => h (e ▸ List.mem_cons_self _ _)
    have hxs : 58 ∉ xs := fun hm => h (List.mem_cons_of_mem _ hm)
    simp only [List.cons_append, cut_until, List.isPrefixOf]
    simp [Ne.symm hx, ih hxs]

/-- A buffer without a colon cannot be cut. -/
theorem cut_until_none (buffer : List Nat) (h : 58 ∉ buffer) :
    cut_until buffer [58] = none := by
  induction buffer with
  | nil => simp [cut_until]
  | cons x xs ih =>
    have hx : x ≠ 58 := fun e => h (e ▸ List.mem_cons_self _ _)
    have hxs : 58 ∉ xs := fun hm => h (List.mem_cons_of_mem _ hm)
    simp only [cut_until, List.isPrefixOf]
    simp [Ne.symm hx, ih hxs]

/-- The decimal digits of a number hold no colon. -/
theorem colon_not_mem_to_string (c : Nat) : 58 ∉ metaserver.to_string c := by
  intro h
  simp only [metaserver.to_string, List.mem_map] at h
  obtain ⟨ch, hm, he⟩ := h
  have := (metaserver.toString_value c).2 ch hm
  omega

/-- C22: when StringToUll reads the decimal digits of c back as c and the parser
reads value back as the list L, ParseS3MetaStreamBuffer applied to the buffer
that PrepareStreamBuffer builds from c and value succeeds with chunk index c
and list L, whatever bytes value holds, colons included; a buffer without a
colon is rejected, and so is a buffer whose bytes before the first colon
StringToUll does not accept. -/
theorem stream_frame_roundtrip (StringToUll : List Nat → Option Nat)
    (ParsePbFromIOBuf : List Nat → Option S3ChunkInfoList) (c : Nat) (value : List Nat)
    (L : S3ChunkInfoList)
    (hindex : StringToUll (metaserver.to_string c) = some c)
    (hvalue : ParsePbFromIOBuf value = some L) :
    ParseS3MetaStreamBuffer StringToUll ParsePbFromIOBuf
      (metaserver.MetaStoreImpl.PrepareStreamBuffer c value) = some (c, L) ∧
    (∀ buffer, 58 ∉ buffer →
      ParseS3MetaStreamBuffer StringToUll ParsePbFromIOBuf buffer = none) ∧
    (∀ index rest, 58 ∉ index → StringToUll index = none →
      ParseS3MetaStreamBuffer StringToUll ParsePbFromIOBuf (index ++ 58 :: rest) = none) := by
  refine ⟨?_, ?_, ?_⟩
  · unfold ParseS3MetaStreamBuffer metaserver.MetaStoreImpl.PrepareStreamBuffer
    rw [List.append_assoc, List.singleton_append,
      cut_until_colon _ _ (colon_not_mem_to_string c)]
    simp [hindex, hvalue]
  · intro buffer h
    unfold ParseS3MetaStreamBuffer
    rw [cut_until_none buffer h]
  · intro index rest h hn
    unfold ParseS3MetaStreamBuffer
    rw [cut_until_colon _ _ h]
    simp [hn]

/-- Witness for C22: chunk index 7 and a value of two bytes, the first a colon,
with a StringToUll that reads the digit 7 and a parser that reads the two
bytes as a list of one chunk-info. -/
theorem stream_frame_roundtrip_witness :
    ParseS3MetaStreamBuffer
      (fun s => if s = [55] then some 7 else none)
      (fun b => if b = [58, 1] then some metaserver.storedChunks else none)
      (metaserver.MetaStoreImpl.PrepareStreamBuffer 7 [58, 1]) =
      some (7, metaserver.storedChunks) :=
  (stream_frame_roundtrip (fun s => if s = [55] then some 7 else none)
    (fun b => if b = [58, 1] then some metaserver.storedChunks else none) 7 [58, 1]
    metaserver.storedChunks (by decide) (by decide)).1

/-- Looking a chunk index up after a list was put under an index that was
absent. -/
theorem lookup_insert (out : S3ChunkInfoMap) (ci c : Nat) (list : S3ChunkInfoList)
    (h : out.lookup ci = none) :
    (out ++ [(ci, list)]).lookup c = if c = ci then some list else out.lookup c := by
  induction out with
  | nil =>
    by_cases hc : c = ci
    · simp [List.lookup, hc]
    · have : (c == ci) = false := by simpa using hc
      simp [List.lookup, hc, this]
  | cons kv rest ih =>
    obtain ⟨k, v⟩ := kv
    by_cases hk : ci = k
    · subst hk
      simp [List.lookup] at h
    · have hk2 : (ci == k) = false := by simpa using hk
      simp only [List.lookup, hk2] at h
      by_cases hck : c = k
      · subst hck
        have : ¬ c = ci := fun e => hk e.symm
        simp [List.lookup, this]
      · have hck2 : (c == k) = false := by simpa using hck
        simp only [List.cons_append, List.lookup, hck2]
        exact ih h

/-- Looking a chunk index up after a list was merged into the list under an
index. -/
theorem lookup_merge (out : S3ChunkInfoMap) (ci c : Nat) (list : S3ChunkInfoList) :
    (out.map fun kv => if kv.1 = ci then (kv.1, kv.2 ++ list) else kv).lookup c =
      if c = ci then (out.lookup c).map (fun l => l ++ list) else out.lookup c := by
  induction out with
  | nil => simp [List.lookup]
  | cons kv rest ih =>
    obtain ⟨k, v⟩ := kv
    have e : (if (k, v).1 = ci then ((k, v).1, (k, v).2 ++ list) else (k, v)) =
        (k, if k = ci then v ++ list else v) := by
      split_ifs <;> rfl
    simp only [List.map_cons]
    rw [e, List.lookup_cons, List.lookup_cons, ih]
    by_cases hck : c = k
    · subst hck
      by_cases hc : c = ci <;> simp [hc]
    · have hck2 : (c == k) = false := by simpa using hck
      simp [hck2]

/-- One frame: a malformed frame is refused and leaves the map alone; a
well-formed frame is accepted and its chunk-infos are put behind the list
the map held under its index, the other indices being left alone. -/
theorem HandleS3MetaStreamBuffer_step (StringToUll : List Nat → Option Nat)
    (ParsePbFromIOBuf : List Nat → Option S3ChunkInfoList) (buffer : List Nat)
    (out : S3ChunkInfoMap) :
    (ParseS3MetaStreamBuffer StringToUll ParsePbFromIOBuf buffer = none →
      HandleS3MetaStreamBuffer StringToUll ParsePbFromIOBuf buffer out = (false, out)) ∧
    (∀ ci list, ParseS3MetaStreamBuffer StringToUll ParsePbFromIOBuf buffer = some (ci, list) →
      (HandleS3MetaStreamBuffer StringToUll ParsePbFromIOBuf buffer out).1 = true ∧
      ∀ c, (HandleS3MetaStreamBuffer StringToUll ParsePbFromIOBuf buffer out).2.lookup c =
        if c = ci then some ((out.lookup c).getD [] ++ list) else out.lookup c) := by
  refine ⟨?_, ?_⟩
  · intro h
    simp [HandleS3MetaStreamBuffer, h]
  · intro ci list h
    unfold HandleS3MetaStreamBuffer
    simp only [h]
    cases hl : out.lookup ci with
    | none =>
      refine ⟨rfl, fun c => ?_⟩
      simp only [lookup_insert out ci c list hl]
      split_ifs with hc
      · subst hc; simp [hl]
      · rfl
    | some l =>
      refine ⟨rfl, fun c => ?_⟩
      simp only [lookup_merge]
      split_ifs with hc
      · subst hc; simp [hl]
      · rfl

theorem frameChunks_cons_none (StringToUll : List Nat → Option Nat)
    (ParsePbFromIOBuf : List Nat → Option S3ChunkInfoList) (c : Nat) (b : List Nat)
    (rest : List (List Nat))
    (hp : ParseS3MetaStreamBuffer StringToUll ParsePbFromIOBuf b = none) :
    frameChunks StringToUll ParsePbFromIOBuf c (b :: rest) =
      frameChunks StringToUll ParsePbFromIOBuf c rest := by
  unfold frameChunks
  rw [List.filterMap_cons_none hp]

theorem frameChunks_cons_some (StringToUll : List Nat → Option Nat)
    (ParsePbFromIOBuf : List Nat → Option S3ChunkInfoList) (c : Nat) (b : List Nat)
    (rest : List (List Nat)) (ci : Nat) (list : S3ChunkInfoList)
    (hp : ParseS3MetaStreamBuffer StringToUll ParsePbFromIOBuf b = some (ci, list)) :
    frameChunks StringToUll ParsePbFromIOBuf c (b :: rest) =
      if ci = c then list :: frameChunks StringToUll ParsePbFromIOBuf c rest
      else frameChunks StringToUll ParsePbFromIOBuf c rest := by
  unfold frameChunks
  rw [List.filterMap_cons_some hp]
  by_cases h : ci = c
  · rw [if_pos h, List.filter_cons_of_pos (by simpa using h), List.map_cons]
  · rw [if_neg h, List.filter_cons_of_neg (by simpa using h)]

/-- C26: after a sequence of frames was handled one after the other on the map
out, the list under a chunk index c is the list that out held under c, if it
held one, followed by the chunk-infos of the well-formed frames with index c
in the order of arrival, each frame's chunk-infos in their order; an index
for which no well-formed frame arrived is as it was; and a malformed frame is
answered false and leaves the map as it was. -/
theorem HandleS3MetaStreamBuffer_frames (StringToUll : List Nat → Option Nat)
    (ParsePbFromIOBuf : List Nat → Option S3ChunkInfoList) (frames : List (List Nat))
    (out : S3ChunkInfoMap) (c : Nat) :
    (frames.foldl
        (fun o b => (HandleS3MetaStreamBuffer StringToUll ParsePbFromIOBuf b o).2) out).lookup c =
      (match out.lookup c with
       | some l => some (l ++ (frameChunks StringToUll ParsePbFromIOBuf c frames).flatten)
       | none =>
         if frameChunks StringToUll ParsePbFromIOBuf c frames = [] then none
         else some (frameChunks StringToUll ParsePbFromIOBuf c frames).flatten) ∧
    (∀ buffer, ParseS3MetaStreamBuffer StringToUll ParsePbFromIOBuf buffer = none →
      HandleS3MetaStreamBuffer StringToUll ParsePbFromIOBuf buffer out = (false, out)) := by
  refine ⟨?_, fun buffer h =>
    (HandleS3MetaStreamBuffer_step StringToUll ParsePbFromIOBuf buffer out).1 h⟩
  induction frames generalizing out with
  | nil =>
    simp only [List.foldl_nil, frameChunks, List.filterMap_nil, List.filter_nil, List.map_nil,
      List.flatten_nil, List.append_nil, if_true]
    cases out.lookup c <;> rfl
  | cons b rest ih =>
    rw [List.foldl_cons, ih]
    have hstep := HandleS3MetaStreamBuffer_step StringToUll ParsePbFromIOBuf b out
    cases hp : ParseS3MetaStreamBuffer StringToUll ParsePbFromIOBuf b with
    | none =>
      rw [hstep.1 hp, frameChunks_cons_none _ _ _ _ _ hp]
    | some p =>
      obtain ⟨ci, list⟩ := p
      rw [(hstep.2 ci list hp).2 c, frameChunks_cons_some _ _ _ _ _ _ _ hp]
      by_cases hc : c = ci
      · subst hc
        rw [if_pos rfl, if_pos rfl]
        cases hl : out.lookup c with
        | none => simp
        | some l => simp
      · have hc2 : ¬ ci = c := fun e => hc e.symm
        rw [if_neg hc, if_neg hc2]

/-- C23: in the tasks of GetDentry, GetInode, CreateInode, CreateDentry and
ListDentry, when the controller did not fail and the response carries status
OK but lacks appliedindex or lacks its payload (the dentry, the inode, a
non-empty list of dentries), the task returns -1, the out parameters of the
caller are as they were and the meta cache is as it was, with no update of
the apply index. -/
theorem task_OK_without_appliedindex (value : MetaStatusCode → Int) (metaCache_ : MetaCache)
    (poolID copysetID partitionID txId fsId inodeid count : Nat) (name last : String)
    (onlyDir streaming : Bool) (dentry outDentry : Dentry) (dentryList : List Dentry)
    (param : InodeParam) (outInode : Inode)
    (stubGetDentry : GetDentryRequest → Controller × GetDentryResponse)
    (stubGetInode : GetInodeRequest → Controller × GetInodeResponse)
    (stubCreateInode : CreateInodeRequest → Controller × CreateInodeResponse)
    (stubCreateDentry : CreateDentryRequest → Controller × CreateDentryResponse)
    (stubListDentry : ListDentryRequest → Controller × ListDentryResponse)
    (hGetDentry : ∀ req, (stubGetDentry req).1.Failed = false ∧
      (stubGetDentry req).2.statuscode = OK ∧
      ((stubGetDentry req).2.dentry = none ∨ (stubGetDentry req).2.appliedindex = none))
    (hGetInode : ∀ req, (stubGetInode req).1.Failed = false ∧
      (stubGetInode req).2.statuscode = OK ∧
      ((stubGetInode req).2.inode = none ∨ (stubGetInode req).2.appliedindex = none))
    (hCreateInode : ∀ req, (stubCreateInode req).1.Failed = false ∧
      (stubCreateInode req).2.statuscode = OK ∧
      ((stubCreateInode req).2.inode = none ∨ (stubCreateInode req).2.appliedindex = none))
    (hCreateDentry : ∀ req, (stubCreateDentry req).1.Failed = false ∧
      (stubCreateDentry req).2.statuscode = OK ∧ (stubCreateDentry req).2.appliedindex = none)
    (hListDentry : ∀ req, (stubListDentry req).1.Failed = false ∧
      (stubListDentry req).2.statuscode = OK ∧
      ((stubListDentry req).2.dentrys = [] ∨ (stubListDentry req).2.appliedindex = none)) :
    MetaServerClientImpl.GetDentry.task value metaCache_ stubGetDentry fsId inodeid name
        outDentry poolID copysetID partitionID txId = (-1, outDentry, metaCache_) ∧
    MetaServerClientImpl.GetInode.task value metaCache_ stubGetInode fsId inodeid outInode
        streaming poolID copysetID partitionID = (-1, outInode, streaming, metaCache_) ∧
    MetaServerClientImpl.CreateInode.task value metaCache_ stubCreateInode param outInode
        poolID copysetID partitionID = (-1, outInode, metaCache_) ∧
    MetaServerClientImpl.CreateDentry.task value metaCache_ stubCreateDentry dentry
        poolID copysetID partitionID txId = (-1, metaCache_) ∧
    MetaServerClientImpl.ListDentry.task value metaCache_ stubListDentry fsId inodeid last
        count onlyDir dentryList poolID copysetID partitionID txId =
      (-1, dentryList, metaCache_) := by
  refine ⟨?_, ?_, ?_, ?_, ?_⟩
  · unfold MetaServerClientImpl.GetDentry.task
    lift_lets
    intro request r cntl response ret
    obtain ⟨h1, h2, h3⟩ := hGetDentry request
    have e1 : cntl.Failed = false := h1
    have e2 : ret = OK := h2
    rw [if_neg (by rw [e1]; decide), if_neg (by rw [e2]; exact fun h => h rfl)]
    rcases h3 with h3 | h3
    · have e3 : response.dentry = none := h3
      rw [e3]
    · have e3 : response.appliedindex = none := h3
      rw [e3]
      cases response.dentry <;> rfl
  · unfold MetaServerClientImpl.GetInode.task
    lift_lets
    intro request r cntl response ret streaming1
    obtain ⟨h1, h2, h3⟩ := hGetInode request
    have e1 : cntl.Failed = false := h1
    have e2 : ret = OK := h2
    rw [if_neg (by rw [e1]; decide), if_neg (by rw [e2]; exact fun h => h rfl)]
    rcases h3 with h3 | h3
    · have e3 : response.inode = none := h3
      rw [e3]
    · have e3 : response.appliedindex = none := h3
      rw [e3]
      cases response.inode <;> rfl
  · unfold MetaServerClientImpl.CreateInode.task
    lift_lets
    intro request r cntl response ret
    obtain ⟨h1, h2, h3⟩ := hCreateInode request
    have e1 : cntl.Failed = false := h1
    have e2 : ret = OK := h2
    rw [if_neg (by rw [e1]; decide), if_neg (by rw [e2]; exact fun h => h rfl)]
    rcases h3 with h3 | h3
    · have e3 : response.inode = none := h3
      rw [e3]
    · have e3 : response.appliedindex = none := h3
      rw [e3]
      cases response.inode <;> rfl
  · unfold MetaServerClientImpl.CreateDentry.task
    lift_lets
    intro request r cntl response ret
    obtain ⟨h1, h2, h3⟩ := hCreateDentry request
    have e1 : cntl.Failed = false := h1
    have e2 : ret = OK := h2
    have e3 : response.appliedindex = none := h3
    rw [if_neg (by rw [e1]; decide), if_neg (by rw [e2]; exact fun h => h rfl), e3]
  · unfold MetaServerClientImpl.ListDentry.task
    lift_lets
    intro request r cntl response ret
    obtain ⟨h1, h2, h3⟩ := hListDentry request
    have e1 : cntl.Failed = false := h1
    have e2 : ret = OK := h2
    rw [if_neg (by rw [e1]; decide), if_neg (by rw [e2]; exact fun h => h rfl)]
    rcases h3 with h3 | h3
    · have e3 : response.dentrys = [] := h3
      rw [e3]
      cases response.appliedindex with
      | none => rfl
      | some a => simp
    · have e3 : response.appliedindex = none := h3
      rw [e3]

theorem task_OK_without_appliedindex_witness :
    MetaServerClientImpl.GetDentry.task sampleValue emptyMetaCache
        (fun _ => (⟨false, 0⟩, ⟨OK, none, some 5⟩)) 1 1 "a"
        ⟨1, 2, 1, "a", 0, none, none⟩ 1 1 1 7 =
      (-1, ⟨1, 2, 1, "a", 0, none, none⟩, emptyMetaCache) ∧
    MetaServerClientImpl.GetInode.task sampleValue emptyMetaCache
        (fun _ => (⟨false, 0⟩, ⟨OK, some emptyInode, none, some true⟩)) 1 1 emptyInode
        false 1 1 1 = (-1, emptyInode, false, emptyMetaCache) ∧
    MetaServerClientImpl.CreateInode.task sampleValue emptyMetaCache
        (fun _ => (⟨false, 0⟩, ⟨OK, none, none⟩))
        ⟨1, 0, 0, 0, 0, FsFileType.TYPE_FILE, 0, "", 1⟩ emptyInode 1 1 1 =
      (-1, emptyInode, emptyMetaCache) ∧
    MetaServerClientImpl.CreateDentry.task sampleValue emptyMetaCache
        (fun _ => (⟨false, 0⟩, ⟨OK, none⟩)) ⟨1, 2, 1, "a", 0, none, none⟩ 1 1 1 7 =
      (-1, emptyMetaCache) ∧
    MetaServerClientImpl.ListDentry.task sampleValue emptyMetaCache
        (fun _ => (⟨false, 0⟩, ⟨OK, [], some 5⟩)) 1 1 "" 10 false [] 1 1 1 7 =
      (-1, [], emptyMetaCache) :=
  task_OK_without_appliedindex sampleValue emptyMetaCache 1 1 1 7 1 1 10 "a" "" false false
    ⟨1, 2, 1, "a", 0, none, none⟩ ⟨1, 2, 1, "a", 0, none, none⟩ [] 
    ⟨1, 0, 0, 0, 0, FsFileType.TYPE_FILE, 0, "", 1⟩ emptyInode
    (fun _ => (⟨false, 0⟩, ⟨OK, none, some 5⟩))
    (fun _ => (⟨false, 0⟩, ⟨OK, some emptyInode, none, some true⟩))
    (fun _ => (⟨false, 0⟩, ⟨OK, none, none⟩))
    (fun _ => (⟨false, 0⟩, ⟨OK, none⟩))
    (fun _ => (⟨false, 0⟩, ⟨OK, [], some 5⟩))
    (fun _ => ⟨rfl, rfl, Or.inl rfl⟩) (fun _ => ⟨rfl, rfl, Or.inr rfl⟩)
    (fun _ => ⟨rfl, rfl, Or.inl rfl⟩) (fun _ => ⟨rfl, rfl, rfl⟩)
    (fun _ => ⟨rfl, rfl, Or.inl rfl⟩)

theorem addInodeIds_eq (iter : List Nat) (batchLimit : Nat) (inodeid : List Nat) :
    MetaServerClientImpl.addInodeIds iter batchLimit inodeid =
      (inodeid ++ iter.take batchLimit, iter.drop batchLimit) := by
  induction iter generalizing batchLimit inodeid with
  | nil => simp [MetaServerClientImpl.addInodeIds]
  | cons x rest ih =>
    cases batchLimit with
    | zero => simp [MetaServerClientImpl.addInodeIds]
    | succ n => simp [MetaServerClientImpl.addInodeIds, ih]

/-- Whatever the stub answers, the task of BatchGetInodeAttr asks for the first
limit ids ahead of the iterator and leaves the iterator behind them. -/
theorem BatchGetInodeAttr_task_advances (value : MetaStatusCode → Int) (limit : Nat)
    (stub : BatchGetInodeAttrRequest → Controller × BatchGetInodeAttrResponse) (fsId : Nat)
    (metaCache_ : MetaCache) (iter : List Nat) (attr : List Inode)
    (poolID copysetID partitionID : Nat) :
    (MetaServerClientImpl.BatchGetInodeAttr.task value limit stub fsId metaCache_ iter attr
        poolID copysetID partitionID).2.1.inodeid = iter.take limit ∧
    (MetaServerClientImpl.BatchGetInodeAttr.task value limit stub fsId metaCache_ iter attr
        poolID copysetID partitionID).2.2.1 = iter.drop limit := by
  unfold MetaServerClientImpl.BatchGetInodeAttr.task
  lift_lets
  intro batchLimit w request iter1 r cntl response ret
  have hw : w = ([] ++ iter.take limit, iter.drop limit) := addInodeIds_eq iter limit []
  have h1 : request.inodeid = iter.take limit := by
    show w.1 = _
    rw [hw]; rfl
  have h2 : iter1 = iter.drop limit := by
    show w.2 = _
    rw [hw]
  clear_value request iter1 cntl ret
  split_ifs
  all_goals first
    | exact ⟨h1, h2⟩
    | (cases response.appliedindex <;> exact ⟨h1, h2⟩)

/-- C25: the task of BatchGetInodeAttr invoked a second time does not ask for
the ids of its first invocation.  With the ids 1, 2, 3 of one partition ahead
of the iterator and a batch limit of 2, the first invocation asks for 1 and 2
and returns the error of the controller, the call having timed out; the same
closure invoked again finds the iterator behind 2 and asks for 3 alone. -/
theorem BatchGetInodeAttr_retry_skips_ids :
    (MetaServerClientImpl.BatchGetInodeAttr.task sampleValue 2 timedOutStub 1 emptyMetaCache
        [1, 2, 3] [] 1 1 1).1 = -1008 ∧
    (MetaServerClientImpl.BatchGetInodeAttr.task sampleValue 2 timedOutStub 1 emptyMetaCache
        [1, 2, 3] [] 1 1 1).2.1.inodeid = [1, 2] ∧
    (MetaServerClientImpl.BatchGetInodeAttr.task sampleValue 2 timedOutStub 1 emptyMetaCache
        [1, 2, 3] [] 1 1 1).2.2.1 = [3] ∧
    (MetaServerClientImpl.BatchGetInodeAttr.task sampleValue 2 timedOutStub 1 emptyMetaCache
        (MetaServerClientImpl.BatchGetInodeAttr.task sampleValue 2 timedOutStub 1
          emptyMetaCache [1, 2, 3] [] 1 1 1).2.2.1 [] 1 1 1).2.1.inodeid = [3] := by
  decide

end rpcclient
end client
end curvefs
